import Mathlib

/-!
# synfrag: packet construction, test recipes and reply classification

A shallow embedding of `synfrag.c`.  The packet buffer is byte memory, a map
from offsets to cell contents; a builder is a function from memory to memory
(or to an error message where the C code calls `errx`).  A recipe returns the
sequence of `pcap_inject` calls it makes, each with the memory it was handed
and the length it asked for.

What the C library and the operating system decide is an input of the
embedding: the host byte order, the parsed addresses (`inet_addr`,
`inet_pton`), the two MAC addresses (`ioctl`, `sscanf`), the values drawn from
`rand()`, and the contents of freshly allocated memory.  `malloc` and
`pcap_inject` are taken to succeed; a recipe's result is the list of frames it
hands to the link on that path.

Of the listener, the text of the capture filter is embedded, along the calls
from `main` through `fork_pcap_listener` to `receive_a_packet`.  `parse_args`
works on the options as `getopt_long` reports them, `harvest_pcap_listener` on
what its two calls of `read` return, and the end of `main` gives the exit code.
The two processes that `fork` leaves are followed, as far as the readiness
signal goes, under every schedule.  A C string is a `String`, one `Char` for
each C `char`.  The copies `copy_arg_string` makes of the option arguments have
no terminating NUL: as C strings they run on through what memory holds behind
them, which is an input of the embedding too.
-/

namespace Synfrag

/-! ## Constants -/

@[simp] def DEFAULT_TIMEOUT_SECONDS : Nat := 10
@[simp] def IP_FLAGS_OFFSET : Nat := 13
@[simp] def SOURCE_PORT : Nat := 44128
@[simp] def BIG_PACKET_SIZE : Nat := 1500
@[simp] def PCAP_CAPTURE_LEN : Nat := BIG_PACKET_SIZE
@[simp] def TCP_WINDOW : Nat := 65535
@[simp] def FRAGMENT_OFFSET_TO_BYTES : Nat := 8
@[simp] def MINIMUM_FRAGMENT_SIZE : Nat := FRAGMENT_OFFSET_TO_BYTES
@[simp] def MINIMUM_PACKET_SIZE : Nat := 68
@[simp] def SIZEOF_PING : Nat := 8

/-! Sizes and numbers that the system headers define (`netinet/*.h`,
`net/ethernet.h`, `netinet/if_ether.h`); they are the same on every platform
the program supports.  The field offsets used by the builders below are those
of the same headers:

* `struct ether_header`: `ether_dhost` 0, `ether_shost` 6, `ether_type` 12;
* `struct ip`: `ip_hl` (low half) and `ip_v` (high half) 0, `ip_tos` 1, `ip_len` 2,
  `ip_id` 4, `ip_off` 6, `ip_ttl` 8, `ip_p` 9, `ip_sum` 10, `ip_src` 12, `ip_dst` 16;
* `struct ip6_hdr`: `ip6_flow` 0, `ip6_plen` 4, `ip6_nxt` 6, `ip6_hlim` 7, `ip6_src` 8,
  `ip6_dst` 24;
* `struct ip6_frag`: `ip6f_nxt` 0, `ip6f_reserved` 1, `ip6f_offlg` 2, `ip6f_ident` 4
  (32 bits);
* `struct ip6_dest`: `ip6d_nxt` 0, `ip6d_len` 1;
* `struct tcphdr`: `th_sport` 0, `th_dport` 2, `th_seq` 4, `th_ack` 8, `th_x2` (low half)
  and `th_off` (high half) 12, `th_flags` 13, `th_win` 14, `th_sum` 16, `th_urp` 18;
* `struct icmp` and `struct icmp6_hdr`: type 0, code 1, checksum 2, identifier 4,
  sequence 6. -/

@[simp] def SIZEOF_ICMP6 : Nat := 8
@[simp] def SIZEOF_TCP : Nat := 20
@[simp] def SIZEOF_IPV4 : Nat := 20
@[simp] def SIZEOF_IPV6 : Nat := 40
@[simp] def SIZEOF_ETHER : Nat := 14
@[simp] def SIZEOF_IP6_FRAG : Nat := 8
@[simp] def SIZEOF_IP6_DEST : Nat := 2

@[simp] def IPPROTO_IP : Nat := 0
@[simp] def IPPROTO_ICMP : Nat := 1
@[simp] def IPPROTO_TCP : Nat := 6
@[simp] def IPPROTO_FRAGMENT : Nat := 44
@[simp] def IPPROTO_ICMPV6 : Nat := 58
@[simp] def IPPROTO_DSTOPTS : Nat := 60
@[simp] def ETHERTYPE_IP : Nat := 0x0800
@[simp] def ETHERTYPE_IPV6 : Nat := 0x86DD
@[simp] def IPDEFTTL : Nat := 64
@[simp] def TH_SYN : Nat := 0x02
@[simp] def TH_RST : Nat := 0x04
@[simp] def TH_ACK : Nat := 0x10
@[simp] def ICMP_ECHOREPLY : Nat := 0
@[simp] def ICMP_ECHO : Nat := 8
@[simp] def ICMP6_ECHO_REQUEST : Nat := 128
@[simp] def ICMP6_ECHO_REPLY : Nat := 129

/-! ## Test identifiers -/

/-- The C macro `IS_TEST_TCP`. -/
def IS_TEST_TCP (x : Nat) : Bool := x % 2 == 1
/-- The C macro `IS_TEST_ICMP`. -/
def IS_TEST_ICMP (x : Nat) : Bool := x % 2 == 0
/-- The C macro `IS_TEST_IPV4`. -/
def IS_TEST_IPV4 (x : Nat) : Bool := decide (x ≤ 10)
/-- The C macro `IS_TEST_IPV6`. -/
def IS_TEST_IPV6 (x : Nat) : Bool := decide (x > 10)

/-- The enumeration `enum TEST_TYPE`. -/
inductive TEST_TYPE where
  | TEST_IPV4_TCP
  | TEST_FRAG_IPV4_TCP
  | TEST_FRAG_OPTIONED_IPV4_TCP
  | TEST_FRAG_IPV4_ICMP
  | TEST_FRAG_OPTIONED_IPV4_ICMP
  | TEST_IPV6_TCP
  | TEST_FRAG_IPV6_TCP
  | TEST_FRAG_OPTIONED_IPV6_TCP
  | TEST_FRAG_IPV6_ICMP6
  | TEST_FRAG_OPTIONED_IPV6_ICMP6
  | TEST_INVALID
deriving DecidableEq, Repr

/-- The integer value of each enumerator of `enum TEST_TYPE`. -/
def TEST_TYPE.val : TEST_TYPE → Nat
  | .TEST_IPV4_TCP => 1
  | .TEST_FRAG_IPV4_TCP => 3
  | .TEST_FRAG_OPTIONED_IPV4_TCP => 5
  | .TEST_FRAG_IPV4_ICMP => 2
  | .TEST_FRAG_OPTIONED_IPV4_ICMP => 4
  | .TEST_IPV6_TCP => 11
  | .TEST_FRAG_IPV6_TCP => 13
  | .TEST_FRAG_OPTIONED_IPV6_TCP => 15
  | .TEST_FRAG_IPV6_ICMP6 => 12
  | .TEST_FRAG_OPTIONED_IPV6_ICMP6 => 14
  | .TEST_INVALID => 0

/-! ## Byte memory -/

/-- Byte memory: the content of the cell at each offset.  A cell is read
modulo 256 and every store writes a value below 256. -/
abbrev Buf := Nat → Nat

/-- Byte order of the host. -/
inductive Endian where
  | little
  | big
deriving DecidableEq, Repr

/-- The parsed bytes of an address (IPv4: 4, IPv6: 16, MAC: 6), first byte on
the wire at index 0. -/
abbrev Addr := Nat → Nat

/-- Read one cell as an unsigned char. -/
def load8 (b : Buf) (off : Nat) : Nat := b off % 256

/-- Store an unsigned char. -/
def store8 (b : Buf) (off v : Nat) : Buf :=
  fun i => if i = off then v % 256 else b i

/-- The C function `htons` on a host of byte order `e`. -/
def htons (e : Endian) (x : Nat) : Nat :=
  match e with
  | .little => (x % 256) * 256 + x / 256 % 256
  | .big => x % 65536

/-- The C function `ntohs`. -/
def ntohs (e : Endian) (x : Nat) : Nat := htons e x

/-- The C function `htonl` on a host of byte order `e`. -/
def htonl (e : Endian) (x : Nat) : Nat :=
  match e with
  | .little =>
      (x % 256) * 16777216 + (x / 256 % 256) * 65536 + (x / 65536 % 256) * 256
        + x / 16777216 % 256
  | .big => x % 4294967296

/-- Store a 16-bit value in host byte order, as an assignment to a
`uint16_t` field does. -/
def store16 (e : Endian) (b : Buf) (off v : Nat) : Buf :=
  fun i =>
    if i = off then
      (match e with | .little => v % 256 | .big => v / 256 % 256)
    else if i = off + 1 then
      (match e with | .little => v / 256 % 256 | .big => v % 256)
    else b i

/-- Store a 32-bit value in host byte order, as an assignment to a
`uint32_t` field does. -/
def store32 (e : Endian) (b : Buf) (off v : Nat) : Buf :=
  fun i =>
    if i = off then
      (match e with | .little => v % 256 | .big => v / 16777216 % 256)
    else if i = off + 1 then
      (match e with | .little => v / 256 % 256 | .big => v / 65536 % 256)
    else if i = off + 2 then
      (match e with | .little => v / 65536 % 256 | .big => v / 256 % 256)
    else if i = off + 3 then
      (match e with | .little => v / 16777216 % 256 | .big => v % 256)
    else b i

/-- Load a 16-bit value in host byte order, as reading a `uint16_t` field
does. -/
def load16 (e : Endian) (b : Buf) (off : Nat) : Nat :=
  match e with
  | .little => load8 b off + 256 * load8 b (off + 1)
  | .big => 256 * load8 b off + load8 b (off + 1)

/-- The C function `memset`. -/
def memset (b : Buf) (off c n : Nat) : Buf :=
  fun i => if off ≤ i ∧ i < off + n then c % 256 else b i

/-- The C function `memmove` inside one buffer. -/
def memmove (b : Buf) (dst src n : Nat) : Buf :=
  fun i => if dst ≤ i ∧ i < dst + n then b (src + (i - dst)) else b i

/-- Copy the `n` bytes of a parsed address into memory. -/
def store_addr (b : Buf) (off n : Nat) (a : Addr) : Buf :=
  fun i => if off ≤ i ∧ i < off + n then a (i - off) % 256 else b i

/-- The bytes `off .. off + n - 1` of memory. -/
def bytes_at (b : Buf) (off n : Nat) : List Nat :=
  (List.range n).map (fun i => load8 b (off + i))

/-- One call of `pcap_inject`: the memory it is handed (from the start of the
Ethernet header) and the length it is asked to send. -/
structure Injection where
  mem : Buf
  len : Nat

/-- The bytes put on the wire by one injection. -/
def Injection.frame (x : Injection) : List Nat := bytes_at x.mem 0 x.len

/-! ## Option-length fix-up -/

/-- The C function `fix_up_destination_options_length`.  The argument and the
result are `unsigned short`; `x` is an `int`. -/
def fix_up_destination_options_length (optlen : Nat) : Nat :=
  if optlen % 8 ≠ 6 then
    let x : Int := 6 - ((optlen % 8 : Nat) : Int)
    let x : Int := if x < 0 then x + 8 else x
    (((optlen : Int) + x) % 65536).toNat
  else optlen

/-! ## Checksum unit -/

/-- Modelled from the spec: the word sum of the checksum unit of `checksums.c`
(spec 4.1).  Sum of the 16-bit words, most significant byte first, of the
`len` bytes at `off`; an odd last byte is padded with a zero byte. -/
def sum16 (b : Buf) (off len : Nat) : Nat :=
  ((List.range ((len + 1) / 2)).map
    (fun k => 256 * load8 b (off + 2 * k)
      + (if 2 * k + 1 < len then load8 b (off + 2 * k + 1) else 0))).sum

/-- Modelled from the spec: the one's-complement reduction of the checksum
unit of `checksums.c`.  End-around carry: fold the carries of a sum of 16-bit
words back into 16 bits, twice. -/
def fold16 (s : Nat) : Nat :=
  let s1 := s / 65536 + s % 65536
  (s1 + s1 / 65536) % 65536

/-- Modelled from the spec: the checksum of the checksum unit of
`checksums.c`, the one's complement of the folded sum. -/
def in_cksum (s : Nat) : Nat := 65535 - fold16 s

/-- Store a 16-bit value most significant byte first, as the checksum unit
writes its result. -/
def store16_be (b : Buf) (off v : Nat) : Buf :=
  store8 (store8 b off (v / 256)) (off + 1) v

/-- Modelled from the spec: `do_checksum` of `checksums.c`, which is not among
the sources given (only its declaration is used, through `checksums.h`).
Spec 4.1: given the start of an IP header, a protocol selector and a length,
compute the one's-complement checksum and write it into the correct field.
For the selector `IPPROTO_IP` it sums the 16-bit words of the `len` header
bytes with the checksum field zero.  For TCP and ICMPv6 it sums the
pseudo-header (IPv4: source, destination, zero, protocol, length; IPv6: source,
destination, upper-layer length, zeros, next header) and the `len` transport
bytes; ICMP over IPv4 has no pseudo-header.  An unknown selector fails.
The spec does not say how the transport header is found behind the IP header,
only that the sum goes to the correct field, so the offset `l4` of the
transport header that the calling builder has just written is an argument. -/
def do_checksum (b : Buf) (iph protocol len l4 : Nat) : Option Buf :=
  if protocol = IPPROTO_IP then
    let b := store16_be b (iph + 10) 0
    some (store16_be b (iph + 10) (in_cksum (sum16 b iph len)))
  else if protocol = IPPROTO_ICMP then
    let b := store16_be b (l4 + 2) 0
    some (store16_be b (l4 + 2) (in_cksum (sum16 b l4 len)))
  else if protocol = IPPROTO_TCP ∨ protocol = IPPROTO_ICMPV6 then
    let field := if protocol = IPPROTO_TCP then l4 + 16 else l4 + 2
    let b := store16_be b field 0
    let pseudo :=
      if load8 b iph / 16 = 4 then
        sum16 b (iph + 12) 4 + sum16 b (iph + 16) 4 + protocol + len
      else
        sum16 b (iph + 8) 16 + sum16 b (iph + 24) 16 + len / 65536 + len % 65536 + protocol
    some (store16_be b field (in_cksum (pseudo + sum16 b l4 len)))
  else none

/-! ## Header builders -/

/-- Assign to a 4-bit bit-field held in the low half of a byte. -/
def set_lo4 (b : Buf) (off v : Nat) : Buf :=
  store8 b off ((load8 b off / 16) * 16 + v % 16)

/-- Assign to a 4-bit bit-field held in the high half of a byte. -/
def set_hi4 (b : Buf) (off v : Nat) : Buf :=
  store8 b off ((v % 16) * 16 + load8 b off % 16)

/-- The header-length field `ip_hl` of the IPv4 header at `iph`. -/
def ip_hl (b : Buf) (iph : Nat) : Nat := load8 b iph % 16

/-- The constant `IP6F_MORE_FRAG` of `netinet/ip6.h`: the More-Fragments mask
of `ip6f_offlg` in network byte order, as a host value. -/
def IP6F_MORE_FRAG (e : Endian) : Nat :=
  match e with
  | .little => 0x0100
  | .big => 0x0001

/-- The C function `build_ethernet`.  `local_mac` is what
`fill_interface_mac` reads from the interface, `remote_mac` what `sscanf`
parses from the destination MAC string (`none`: fewer than six bytes). -/
def build_ethernet (e : Endian) (b : Buf) (ethh : Nat) (local_mac : Addr)
    (remote_mac : Option Addr) (ethertype : Nat) : Except String Buf :=
  let b := store_addr b (ethh + 6) 6 local_mac
  match remote_mac with
  | none => .error "Unable to parse remote MAC address"
  | some m =>
    let b := store_addr b ethh 6 m
    .ok (store16 e b (ethh + 12) (htons e ethertype))

/-- The C function `build_tcp_syn`; `seq` is the value of `rand()`. -/
def build_tcp_syn (e : Endian) (b : Buf) (iph tcph srcport dstport seq : Nat) :
    Except String Buf :=
  let b := store16 e b tcph (htons e srcport)
  let b := store16 e b (tcph + 2) (htons e dstport)
  let b := store32 e b (tcph + 4) (htonl e seq)
  let b := store32 e b (tcph + 8) 0
  let b := set_lo4 b (tcph + 12) 0
  let b := set_hi4 b (tcph + 12) (SIZEOF_TCP / 4)
  let b := store8 b (tcph + 13) TH_SYN
  let b := store16 e b (tcph + 14) TCP_WINDOW
  let b := store16 e b (tcph + 16) 0
  let b := store16 e b (tcph + 18) 0
  match do_checksum b iph IPPROTO_TCP SIZEOF_TCP tcph with
  | some b => .ok b
  | none => .error "Unable to compute checksum (build_tcp_syn)."

/-- The C function `build_icmp_ping`. -/
def build_icmp_ping (e : Endian) (b : Buf) (iph icmph payload_length : Nat) :
    Except String Buf :=
  let b := store8 b icmph ICMP_ECHO
  let b := store8 b (icmph + 1) 0
  let b := store16 e b (icmph + 2) 0
  let b := store16 e b (icmph + 4) (htons e SOURCE_PORT)
  let b := store16 e b (icmph + 6) (htons e 1)
  let b := memset b (icmph + SIZEOF_PING) 0x01 payload_length
  match do_checksum b iph IPPROTO_ICMP (SIZEOF_PING + payload_length) icmph with
  | some b => .ok b
  | none => .error "Unable to compute checksum (build_icmp_ping)."

/-- The C function `build_icmp6_ping`. -/
def build_icmp6_ping (e : Endian) (b : Buf) (iph icmp6h payload_length : Nat) :
    Except String Buf :=
  let b := store8 b icmp6h ICMP6_ECHO_REQUEST
  let b := store8 b (icmp6h + 1) 0
  let b := store16 e b (icmp6h + 2) 0
  let b := store16 e b (icmp6h + 4) (htons e SOURCE_PORT)
  let b := store16 e b (icmp6h + 6) (htons e 1)
  let b := memset b (icmp6h + SIZEOF_ICMP6) 0x01 payload_length
  match do_checksum b iph IPPROTO_ICMPV6 (SIZEOF_ICMP6 + payload_length) icmp6h with
  | some b => .ok b
  | none => .error "Unable to compute checksum (build_icmp6_ping)."

/-- The C function `build_bare_ipv4`; `srcip` and `dstip` are the results of
`inet_addr`. -/
def build_bare_ipv4 (e : Endian) (b : Buf) (iph : Nat) (srcip dstip : Addr)
    (protocol : Nat) : Buf :=
  let b := set_hi4 b iph 4
  let b := set_lo4 b iph 5
  let b := store8 b (iph + 1) 0
  let b := store16 e b (iph + 2) (htons e (SIZEOF_IPV4 + SIZEOF_TCP))
  let b := store16 e b (iph + 4) 0
  let b := store16 e b (iph + 6) 0
  let b := store8 b (iph + 8) IPDEFTTL
  let b := store8 b (iph + 9) protocol
  let b := store16 e b (iph + 10) 0
  let b := store_addr b (iph + 12) 4 srcip
  store_addr b (iph + 16) 4 dstip

/-- The C function `build_ipv4`. -/
def build_ipv4 (e : Endian) (b : Buf) (iph : Nat) (srcip dstip : Addr)
    (protocol : Nat) : Except String Buf :=
  let b := build_bare_ipv4 e b iph srcip dstip protocol
  match do_checksum b iph IPPROTO_IP (ip_hl b iph * 4) iph with
  | some b => .ok b
  | none => .error "Unable to compute checksum (build_ipv4)."

/-- The C function `build_ipv4_short_frag1`. -/
def build_ipv4_short_frag1 (e : Endian) (b : Buf) (iph : Nat) (srcip dstip : Addr)
    (protocol fragid : Nat) : Except String Buf :=
  let b := build_bare_ipv4 e b iph srcip dstip protocol
  let b := store16 e b (iph + 6) (htons e (1 <<< IP_FLAGS_OFFSET))
  let b := store16 e b (iph + 4) (htons e fragid)
  let b := store16 e b (iph + 2) (htons e (SIZEOF_IPV4 + MINIMUM_FRAGMENT_SIZE))
  match do_checksum b iph IPPROTO_IP (ip_hl b iph * 4) iph with
  | some b => .ok b
  | none => .error "Unable to compute checksum (build_ipv4_short_frag1)."

/-- The C function `build_ipv4_frag2`. -/
def build_ipv4_frag2 (e : Endian) (b : Buf) (iph : Nat) (srcip dstip : Addr)
    (protocol fragid payload_length : Nat) : Except String Buf :=
  let b := build_bare_ipv4 e b iph srcip dstip protocol
  let b := store16 e b (iph + 6) (htons e 1)
  let b := store16 e b (iph + 4) (htons e fragid)
  let b := store16 e b (iph + 2) (htons e (SIZEOF_IPV4 + payload_length))
  match do_checksum b iph IPPROTO_IP (ip_hl b iph * 4) iph with
  | some b => .ok b
  | none => .error "Unable to compute checksum (build_ipv4_frag2)."

/-- The C function `build_ipv4_optioned_frag1`.  The bit-field `ip_hl` is four
bits wide, so the assignment `iph->ip_hl = 5 + optlen` keeps the low four bits
of the sum. -/
def build_ipv4_optioned_frag1 (e : Endian) (b : Buf) (iph : Nat) (srcip dstip : Addr)
    (protocol fragid optlen : Nat) : Except String Buf :=
  let b := build_bare_ipv4 e b iph srcip dstip protocol
  let b := store16 e b (iph + 6) (htons e (1 <<< IP_FLAGS_OFFSET))
  let b := store16 e b (iph + 4) (htons e fragid)
  let b := store16 e b (iph + 2) (htons e (SIZEOF_IPV4 + optlen + MINIMUM_FRAGMENT_SIZE))
  if optlen % 4 ≠ 0 then .error "optlen must be a multiple of 4"
  else
    let b := set_lo4 b iph (5 + optlen)
    let b := memset b (iph + SIZEOF_IPV4) 0x01 optlen
    let b := store8 b (iph + SIZEOF_IPV4 + optlen) 0
    match do_checksum b iph IPPROTO_IP (ip_hl b iph * 4) iph with
    | some b => .ok b
    | none => .error "Unable to compute checksum (build_ipv4_optioned_frag1)."

/-- The common start of the IPv6 builders: flow word, payload length, hop
limit, next header, then the two addresses as `inet_pton` parsed them
(`none`: `inet_pton` returned 0). -/
def ipv6_fixed_header (e : Endian) (b : Buf) (ip6h : Nat) (srcip dstip : Option Addr)
    (nxt plen : Nat) : Except String Buf :=
  let b := store32 e b ip6h (htonl e (0x06 <<< 28))
  let b := store16 e b (ip6h + 4) (htons e plen)
  let b := store8 b (ip6h + 7) 64
  let b := store8 b (ip6h + 6) nxt
  match srcip with
  | none => .error "Invalid source address"
  | some s =>
    let b := store_addr b (ip6h + 8) 16 s
    match dstip with
    | none => .error "Invalid source address"
    | some d => .ok (store_addr b (ip6h + 24) 16 d)

/-- The C function `build_ipv6`. -/
def build_ipv6 (e : Endian) (b : Buf) (ip6h : Nat) (srcip dstip : Option Addr)
    (protocol payload_length : Nat) : Except String Buf :=
  ipv6_fixed_header e b ip6h srcip dstip protocol payload_length

/-- The four assignments to the Fragment extension header at `fragh`. -/
def fill_ip6_frag (e : Endian) (b : Buf) (fragh protocol fragid offlg : Nat) : Buf :=
  let b := store8 b (fragh + 1) 0
  let b := store8 b fragh protocol
  let b := store32 e b (fragh + 4) (htons e fragid)
  store16 e b (fragh + 2) offlg

/-- The C function `build_ipv6_short_frag1`. -/
def build_ipv6_short_frag1 (e : Endian) (b : Buf) (ip6h : Nat) (srcip dstip : Option Addr)
    (protocol fragid : Nat) : Except String Buf := do
  let fragh := ip6h + SIZEOF_IPV6
  let b ← ipv6_fixed_header e b ip6h srcip dstip IPPROTO_FRAGMENT
    (SIZEOF_IP6_FRAG + MINIMUM_FRAGMENT_SIZE)
  pure (fill_ip6_frag e b fragh protocol fragid (IP6F_MORE_FRAG e))

/-- The C function `build_ipv6_optioned_frag1`. -/
def build_ipv6_optioned_frag1 (e : Endian) (b : Buf) (ip6h : Nat) (srcip dstip : Option Addr)
    (protocol fragid optlen : Nat) : Except String Buf := do
  let desth := ip6h + SIZEOF_IPV6
  let fragh := ip6h + SIZEOF_IPV6 + SIZEOF_IP6_DEST + optlen
  let b ← ipv6_fixed_header e b ip6h srcip dstip IPPROTO_DSTOPTS
    (SIZEOF_IP6_DEST + optlen + SIZEOF_IP6_FRAG + MINIMUM_FRAGMENT_SIZE)
  if optlen = 0 ∨ optlen % 8 ≠ 6 then .error "optlen value not supported"
  else
    let b := store8 b desth IPPROTO_FRAGMENT
    let b := store8 b (desth + 1) (optlen / 8)
    let b := store8 b (desth + SIZEOF_IP6_DEST) 1
    let b := store8 b (desth + SIZEOF_IP6_DEST + 1) (optlen - 2)
    let b := memset b (desth + SIZEOF_IP6_DEST + 2) 0 (optlen - 2)
    pure (fill_ip6_frag e b fragh protocol fragid (IP6F_MORE_FRAG e))

/-- The C function `build_ipv6_frag2`. -/
def build_ipv6_frag2 (e : Endian) (b : Buf) (ip6h : Nat) (srcip dstip : Option Addr)
    (protocol fragid payload_length : Nat) : Except String Buf := do
  let fragh := ip6h + SIZEOF_IPV6
  let b ← ipv6_fixed_header e b ip6h srcip dstip IPPROTO_FRAGMENT
    (payload_length + SIZEOF_IP6_FRAG)
  pure (fill_ip6_frag e b fragh protocol fragid (htons e (1 <<< 3)))

/-! ## Test recipes

Every recipe works in one buffer whose Ethernet header starts at offset 0;
`mem` is the content of the freshly allocated buffer.  `fragid` and `seq` are
the values `rand()` returns for the fragment identifier and the sequence
number; the identifier is an `unsigned short`. -/

/-- The C function `do_ipv4_syn`. -/
def do_ipv4_syn (e : Endian) (mem : Buf) (local_mac : Addr) (dstmac : Option Addr)
    (srcip dstip : Addr) (dstport seq : Nat) : Except String (List Injection) := do
  let packet_size := SIZEOF_ETHER + SIZEOF_TCP + SIZEOF_IPV4
  let ethh := 0
  let iph := ethh + SIZEOF_ETHER
  let tcph := iph + SIZEOF_IPV4
  let b ← build_ethernet e mem ethh local_mac dstmac ETHERTYPE_IP
  let b ← build_ipv4 e b iph srcip dstip IPPROTO_TCP
  let b ← build_tcp_syn e b iph tcph SOURCE_PORT dstport seq
  pure [⟨b, packet_size⟩]

/-- The C function `do_ipv4_short_tcp_frag`. -/
def do_ipv4_short_tcp_frag (e : Endian) (mem : Buf) (local_mac : Addr)
    (dstmac : Option Addr) (srcip dstip : Addr) (dstport fragid seq : Nat) :
    Except String (List Injection) := do
  let fragid := fragid % 65536
  let packet_size := SIZEOF_ETHER + SIZEOF_IPV4 + MINIMUM_FRAGMENT_SIZE
  let ethh := 0
  let iph := ethh + SIZEOF_ETHER
  let tcph := iph + SIZEOF_IPV4
  let b ← build_ethernet e mem ethh local_mac dstmac ETHERTYPE_IP
  let b ← build_ipv4_short_frag1 e b iph srcip dstip IPPROTO_TCP fragid
  let b ← build_tcp_syn e b iph tcph SOURCE_PORT dstport seq
  let first : Injection := ⟨b, packet_size⟩
  let packet_size := SIZEOF_ETHER + SIZEOF_IPV4 + SIZEOF_TCP - MINIMUM_FRAGMENT_SIZE
  let b ← build_ipv4_frag2 e b iph srcip dstip IPPROTO_TCP fragid
    (SIZEOF_TCP - MINIMUM_FRAGMENT_SIZE)
  let b := memmove b tcph (tcph + MINIMUM_FRAGMENT_SIZE) (SIZEOF_TCP - MINIMUM_FRAGMENT_SIZE)
  pure [first, ⟨b, packet_size⟩]

/-- The C function `do_ipv4_short_icmp_frag`. -/
def do_ipv4_short_icmp_frag (e : Endian) (mem : Buf) (local_mac : Addr)
    (dstmac : Option Addr) (srcip dstip : Addr) (fragid : Nat) :
    Except String (List Injection) := do
  let fragid := fragid % 65536
  let pinglen := 40
  let packet_size := SIZEOF_ETHER + SIZEOF_IPV4 + MINIMUM_FRAGMENT_SIZE
  let ethh := 0
  let iph := ethh + SIZEOF_ETHER
  let icmph := iph + SIZEOF_IPV4
  let b ← build_ethernet e mem ethh local_mac dstmac ETHERTYPE_IP
  let b ← build_ipv4_short_frag1 e b iph srcip dstip IPPROTO_ICMP fragid
  let b ← build_icmp_ping e b iph icmph pinglen
  let first : Injection := ⟨b, packet_size⟩
  let packet_size := SIZEOF_ETHER + SIZEOF_IPV4 + SIZEOF_PING + pinglen - MINIMUM_FRAGMENT_SIZE
  let b ← build_ipv4_frag2 e b iph srcip dstip IPPROTO_ICMP fragid
    (SIZEOF_PING + pinglen - MINIMUM_FRAGMENT_SIZE)
  let b := memmove b icmph (icmph + MINIMUM_FRAGMENT_SIZE)
    (SIZEOF_PING + pinglen - MINIMUM_FRAGMENT_SIZE)
  pure [first, ⟨b, packet_size⟩]

/-- The C function `do_ipv4_optioned_tcp_frag`. -/
def do_ipv4_optioned_tcp_frag (e : Endian) (mem : Buf) (local_mac : Addr)
    (dstmac : Option Addr) (srcip dstip : Addr) (dstport fragid seq : Nat) :
    Except String (List Injection) := do
  let fragid := fragid % 65536
  let optlen := 40
  let packet_size := SIZEOF_ETHER + SIZEOF_IPV4 + optlen + MINIMUM_FRAGMENT_SIZE
  let ethh := 0
  let iph := ethh + SIZEOF_ETHER
  let tcph := iph + SIZEOF_IPV4
  let tcph_optioned := tcph + optlen
  let b ← build_ethernet e mem ethh local_mac dstmac ETHERTYPE_IP
  let b ← build_ipv4_optioned_frag1 e b iph srcip dstip IPPROTO_TCP fragid optlen
  let b ← build_tcp_syn e b iph tcph_optioned SOURCE_PORT dstport seq
  let first : Injection := ⟨b, packet_size⟩
  let packet_size := SIZEOF_ETHER + SIZEOF_IPV4 + SIZEOF_TCP - MINIMUM_FRAGMENT_SIZE
  let b ← build_ipv4_frag2 e b iph srcip dstip IPPROTO_TCP fragid
    (SIZEOF_TCP - MINIMUM_FRAGMENT_SIZE)
  let b := memmove b tcph (tcph_optioned + MINIMUM_FRAGMENT_SIZE)
    (SIZEOF_TCP - MINIMUM_FRAGMENT_SIZE)
  pure [first, ⟨b, packet_size⟩]

/-- The C function `do_ipv4_optioned_icmp_frag`. -/
def do_ipv4_optioned_icmp_frag (e : Endian) (mem : Buf) (local_mac : Addr)
    (dstmac : Option Addr) (srcip dstip : Addr) (fragid : Nat) :
    Except String (List Injection) := do
  let fragid := fragid % 65536
  let optlen := 40
  let pinglen := 40
  let packet_size := SIZEOF_ETHER + SIZEOF_IPV4 + optlen + MINIMUM_FRAGMENT_SIZE
  let ethh := 0
  let iph := ethh + SIZEOF_ETHER
  let icmph := iph + SIZEOF_IPV4
  let icmph_optioned := icmph + optlen
  let b ← build_ethernet e mem ethh local_mac dstmac ETHERTYPE_IP
  let b ← build_ipv4_optioned_frag1 e b iph srcip dstip IPPROTO_ICMP fragid optlen
  let b ← build_icmp_ping e b iph icmph_optioned pinglen
  let first : Injection := ⟨b, packet_size⟩
  let packet_size := SIZEOF_ETHER + SIZEOF_IPV4 + SIZEOF_PING + pinglen
  let b ← build_ipv4_frag2 e b iph srcip dstip IPPROTO_ICMP fragid
    (SIZEOF_PING - MINIMUM_FRAGMENT_SIZE + pinglen)
  let b := memmove b icmph (icmph_optioned + MINIMUM_FRAGMENT_SIZE)
    (SIZEOF_PING + pinglen - MINIMUM_FRAGMENT_SIZE)
  pure [first, ⟨b, packet_size⟩]

/-- The C function `do_ipv6_syn`. -/
def do_ipv6_syn (e : Endian) (mem : Buf) (local_mac : Addr) (dstmac : Option Addr)
    (srcip dstip : Option Addr) (dstport seq : Nat) : Except String (List Injection) := do
  let packet_size := SIZEOF_ETHER + SIZEOF_IPV6 + SIZEOF_TCP
  let ethh := 0
  let ip6h := ethh + SIZEOF_ETHER
  let tcph := ip6h + SIZEOF_IPV6
  let b ← build_ethernet e mem ethh local_mac dstmac ETHERTYPE_IPV6
  let b ← build_ipv6 e b ip6h srcip dstip IPPROTO_TCP SIZEOF_TCP
  let b ← build_tcp_syn e b ip6h tcph SOURCE_PORT dstport seq
  pure [⟨b, packet_size⟩]

/-- The C function `do_ipv6_short_tcp_frag`. -/
def do_ipv6_short_tcp_frag (e : Endian) (mem : Buf) (local_mac : Addr)
    (dstmac : Option Addr) (srcip dstip : Option Addr) (dstport fragid seq : Nat) :
    Except String (List Injection) := do
  let fragid := fragid % 65536
  let packet_size := SIZEOF_ETHER + SIZEOF_IPV6 + SIZEOF_IP6_FRAG + MINIMUM_FRAGMENT_SIZE
  let ethh := 0
  let ip6h := ethh + SIZEOF_ETHER
  let tcph := ip6h + SIZEOF_IPV6 + SIZEOF_IP6_FRAG
  let b ← build_ethernet e mem ethh local_mac dstmac ETHERTYPE_IPV6
  let b ← build_ipv6_short_frag1 e b ip6h srcip dstip IPPROTO_TCP fragid
  let b ← build_tcp_syn e b ip6h tcph SOURCE_PORT dstport seq
  let first : Injection := ⟨b, packet_size⟩
  let packet_size :=
    SIZEOF_ETHER + SIZEOF_IPV6 + SIZEOF_IP6_FRAG + SIZEOF_TCP - MINIMUM_FRAGMENT_SIZE
  let b ← build_ipv6_frag2 e b ip6h srcip dstip IPPROTO_TCP fragid
    (SIZEOF_TCP - MINIMUM_FRAGMENT_SIZE)
  let b := memmove b tcph (tcph + MINIMUM_FRAGMENT_SIZE) (SIZEOF_TCP - MINIMUM_FRAGMENT_SIZE)
  pure [first, ⟨b, packet_size⟩]

/-- The C function `do_ipv6_short_icmp_frag`. -/
def do_ipv6_short_icmp_frag (e : Endian) (mem : Buf) (local_mac : Addr)
    (dstmac : Option Addr) (srcip dstip : Option Addr) (fragid : Nat) :
    Except String (List Injection) := do
  let fragid := fragid % 65536
  let pinglen := 40
  let packet_size := SIZEOF_ETHER + SIZEOF_IPV6 + SIZEOF_IP6_FRAG + MINIMUM_FRAGMENT_SIZE
  let ethh := 0
  let ip6h := ethh + SIZEOF_ETHER
  let icmp6h := ip6h + SIZEOF_IPV6 + SIZEOF_IP6_FRAG
  let b ← build_ethernet e mem ethh local_mac dstmac ETHERTYPE_IPV6
  let b ← build_ipv6_short_frag1 e b ip6h srcip dstip IPPROTO_ICMPV6 fragid
  let b ← build_icmp6_ping e b ip6h icmp6h pinglen
  let first : Injection := ⟨b, packet_size⟩
  let packet_size :=
    SIZEOF_ETHER + SIZEOF_IPV6 + SIZEOF_IP6_FRAG + SIZEOF_PING + pinglen - MINIMUM_FRAGMENT_SIZE
  let b ← build_ipv6_frag2 e b ip6h srcip dstip IPPROTO_ICMPV6 fragid
    (SIZEOF_TCP - MINIMUM_FRAGMENT_SIZE)
  let b := memmove b icmp6h (icmp6h + MINIMUM_FRAGMENT_SIZE)
    (SIZEOF_TCP - MINIMUM_FRAGMENT_SIZE)
  pure [first, ⟨b, packet_size⟩]

/-- The option length both IPv6 optioned recipes compute. -/
def ipv6_recipe_optlen : Nat :=
  fix_up_destination_options_length
    (MINIMUM_PACKET_SIZE - SIZEOF_IPV6 - SIZEOF_IP6_DEST - SIZEOF_IP6_FRAG
      - MINIMUM_FRAGMENT_SIZE)

/-- The C function `do_ipv6_optioned_icmp_frag`. -/
def do_ipv6_optioned_icmp_frag (e : Endian) (mem : Buf) (local_mac : Addr)
    (dstmac : Option Addr) (srcip dstip : Option Addr) (fragid : Nat) :
    Except String (List Injection) := do
  let fragid := fragid % 65536
  let optlen := ipv6_recipe_optlen
  let pinglen := 40
  let packet_size :=
    SIZEOF_ETHER + SIZEOF_IPV6 + SIZEOF_IP6_DEST + optlen + SIZEOF_IP6_FRAG
      + MINIMUM_FRAGMENT_SIZE
  let ethh := 0
  let ip6h := ethh + SIZEOF_ETHER
  let icmp6h := ip6h + SIZEOF_IPV6 + SIZEOF_IP6_FRAG
  let icmp6h_optioned := ip6h + SIZEOF_IPV6 + SIZEOF_IP6_DEST + optlen + SIZEOF_IP6_FRAG
  let b ← build_ethernet e mem ethh local_mac dstmac ETHERTYPE_IPV6
  let b ← build_ipv6_optioned_frag1 e b ip6h srcip dstip IPPROTO_ICMPV6 fragid optlen
  let b ← build_icmp6_ping e b ip6h icmp6h_optioned pinglen
  let first : Injection := ⟨b, packet_size⟩
  let packet_size :=
    SIZEOF_ETHER + SIZEOF_IPV6 + SIZEOF_IP6_FRAG + SIZEOF_PING + pinglen - MINIMUM_FRAGMENT_SIZE
  let b ← build_ipv6_frag2 e b ip6h srcip dstip IPPROTO_ICMPV6 fragid
    (SIZEOF_ICMP6 + pinglen - MINIMUM_FRAGMENT_SIZE)
  let b := memmove b icmp6h (icmp6h_optioned + MINIMUM_FRAGMENT_SIZE)
    (SIZEOF_ICMP6 + pinglen - MINIMUM_FRAGMENT_SIZE)
  pure [first, ⟨b, packet_size⟩]

/-- The C function `do_ipv6_optioned_tcp_frag`. -/
def do_ipv6_optioned_tcp_frag (e : Endian) (mem : Buf) (local_mac : Addr)
    (dstmac : Option Addr) (srcip dstip : Option Addr) (dstport fragid seq : Nat) :
    Except String (List Injection) := do
  let fragid := fragid % 65536
  let optlen := ipv6_recipe_optlen
  let packet_size :=
    SIZEOF_ETHER + SIZEOF_IPV6 + SIZEOF_IP6_DEST + optlen + SIZEOF_IP6_FRAG
      + MINIMUM_FRAGMENT_SIZE
  let ethh := 0
  let ip6h := ethh + SIZEOF_ETHER
  let tcph := ip6h + SIZEOF_IPV6 + SIZEOF_IP6_FRAG
  let tcph_optioned := ip6h + SIZEOF_IPV6 + SIZEOF_IP6_DEST + optlen + SIZEOF_IP6_FRAG
  let b ← build_ethernet e mem ethh local_mac dstmac ETHERTYPE_IPV6
  let b ← build_ipv6_optioned_frag1 e b ip6h srcip dstip IPPROTO_TCP fragid optlen
  let b ← build_tcp_syn e b ip6h tcph_optioned SOURCE_PORT dstport seq
  let first : Injection := ⟨b, packet_size⟩
  let packet_size :=
    SIZEOF_ETHER + SIZEOF_IPV6 + SIZEOF_IP6_FRAG + SIZEOF_TCP - MINIMUM_FRAGMENT_SIZE
  let b ← build_ipv6_frag2 e b ip6h srcip dstip IPPROTO_TCP fragid
    (SIZEOF_TCP - MINIMUM_FRAGMENT_SIZE)
  let b := memmove b tcph (tcph_optioned + MINIMUM_FRAGMENT_SIZE)
    (SIZEOF_TCP - MINIMUM_FRAGMENT_SIZE)
  pure [first, ⟨b, packet_size⟩]

/-- What one run is given: the host byte order, the fresh buffer, the MAC
addresses, the addresses as parsed for each family, the destination port and
the two values of `rand()`. -/
structure RunInput where
  e : Endian
  mem : Buf
  local_mac : Addr
  dstmac : Option Addr
  src4 : Addr
  dst4 : Addr
  src6 : Option Addr
  dst6 : Option Addr
  dstport : Nat
  fragid : Nat
  seq : Nat

/-- The `switch` of `main` that dispatches the test to its recipe. -/
def run_test (t : TEST_TYPE) (r : RunInput) : Except String (List Injection) :=
  match t with
  | .TEST_IPV4_TCP => do_ipv4_syn r.e r.mem r.local_mac r.dstmac r.src4 r.dst4 r.dstport r.seq
  | .TEST_FRAG_IPV4_TCP =>
      do_ipv4_short_tcp_frag r.e r.mem r.local_mac r.dstmac r.src4 r.dst4 r.dstport r.fragid r.seq
  | .TEST_FRAG_IPV4_ICMP =>
      do_ipv4_short_icmp_frag r.e r.mem r.local_mac r.dstmac r.src4 r.dst4 r.fragid
  | .TEST_FRAG_OPTIONED_IPV4_TCP =>
      do_ipv4_optioned_tcp_frag r.e r.mem r.local_mac r.dstmac r.src4 r.dst4 r.dstport r.fragid
        r.seq
  | .TEST_FRAG_OPTIONED_IPV4_ICMP =>
      do_ipv4_optioned_icmp_frag r.e r.mem r.local_mac r.dstmac r.src4 r.dst4 r.fragid
  | .TEST_IPV6_TCP => do_ipv6_syn r.e r.mem r.local_mac r.dstmac r.src6 r.dst6 r.dstport r.seq
  | .TEST_FRAG_IPV6_TCP =>
      do_ipv6_short_tcp_frag r.e r.mem r.local_mac r.dstmac r.src6 r.dst6 r.dstport r.fragid r.seq
  | .TEST_FRAG_IPV6_ICMP6 =>
      do_ipv6_short_icmp_frag r.e r.mem r.local_mac r.dstmac r.src6 r.dst6 r.fragid
  | .TEST_FRAG_OPTIONED_IPV6_TCP =>
      do_ipv6_optioned_tcp_frag r.e r.mem r.local_mac r.dstmac r.src6 r.dst6 r.dstport r.fragid
        r.seq
  | .TEST_FRAG_OPTIONED_IPV6_ICMP6 =>
      do_ipv6_optioned_icmp_frag r.e r.mem r.local_mac r.dstmac r.src6 r.dst6 r.fragid
  | .TEST_INVALID => .error "Unsupported test type!"

/-! ## Reply classification -/

/-- The C function `print_a_packet`, without the printing: the offset of the
layer 4 header when one of the wanted type is found, `none` when the layer 4
header found is of another type, an error where the C code calls `errx`. -/
def print_a_packet (e : Endian) (len : Nat) (packet_data : Buf) (wanted_type : Nat) :
    Except String (Option Nat) :=
  if ntohs e (load16 e packet_data 12) = ETHERTYPE_IP then
    let iph := SIZEOF_ETHER
    let s := SIZEOF_ETHER + ip_hl packet_data iph * 4
    if s > len then .error "Reply too short (IPv4)"
    else if load8 packet_data (iph + 9) = IPPROTO_TCP then
      if s + SIZEOF_TCP > len then .error "Reply too short"
      else .ok (if wanted_type = IPPROTO_TCP then some s else none)
    else if load8 packet_data (iph + 9) = IPPROTO_ICMP then
      if s + SIZEOF_PING > len then .error "Reply too short"
      else .ok (if wanted_type = IPPROTO_ICMP then some s else none)
    else .error "Unknown reply received (ip protocol)"
  else if ntohs e (load16 e packet_data 12) = ETHERTYPE_IPV6 then
    let ip6h := SIZEOF_ETHER
    let s := SIZEOF_ETHER + SIZEOF_IPV6
    if s > len then .error "Reply too short (IPv6)"
    else if load8 packet_data (ip6h + 6) = IPPROTO_TCP then
      if s + SIZEOF_TCP > len then .error "Reply too short"
      else .ok (if wanted_type = IPPROTO_TCP then some s else none)
    else if load8 packet_data (ip6h + 6) = IPPROTO_ICMPV6 then
      if s + SIZEOF_ICMP6 > len then .error "Reply too short"
      else .ok (if wanted_type = IPPROTO_ICMPV6 then some s else none)
    else .error "Unknown reply received (ip6 next header)"
  else .error "Unknown reply received (ethertype)"

/-- The C function `check_received_packet`: 1 for success, 0 for failure, an
error where `print_a_packet` calls `errx`. -/
def check_received_packet (e : Endian) (buf_len : Nat) (packet_buf : Buf)
    (test_type : TEST_TYPE) : Except String Nat := do
  if IS_TEST_IPV4 test_type.val && IS_TEST_ICMP test_type.val then
    match ← print_a_packet e buf_len packet_buf IPPROTO_ICMP with
    | none => pure 0
    | some icmph =>
      if load8 packet_buf icmph = ICMP_ECHOREPLY
          ∧ load16 e packet_buf (icmph + 4) = htons e SOURCE_PORT then pure 1
      else pure 0
  else if IS_TEST_IPV6 test_type.val && IS_TEST_ICMP test_type.val then
    match ← print_a_packet e buf_len packet_buf IPPROTO_ICMPV6 with
    | none => pure 0
    | some icmp6h =>
      if load8 packet_buf icmp6h = ICMP6_ECHO_REPLY
          ∧ load16 e packet_buf (icmp6h + 4) = htons e SOURCE_PORT then pure 1
      else pure 0
  else
    match ← print_a_packet e buf_len packet_buf IPPROTO_TCP with
    | none => pure 0
    | some tcph =>
      if (load8 packet_buf (tcph + 13) &&& (TH_SYN ||| TH_ACK)) ≠ 0
          ∧ ¬ ((load8 packet_buf (tcph + 13) &&& TH_RST) ≠ 0) then pure 1
      else pure 0


/-! ## Reading a frame off the wire -/

/-- Byte `k` of the frame an injection puts on the wire (0 past its end). -/
def Injection.wire (x : Injection) (k : Nat) : Nat :=
  if k < x.len then load8 x.mem k else 0

/-- The 16-bit field at byte `k` of the frame, in network byte order. -/
def Injection.wire16 (x : Injection) (k : Nat) : Nat := 256 * x.wire k + x.wire (k + 1)

/-- Offset in the frame of the IPv6 Fragment extension header, found from the
next-header fields: directly behind the fixed header, or behind one
Destination Options header of `8 * (Hdr Ext Len + 1)` bytes. -/
def ipv6_fragment_header (x : Injection) : Option Nat :=
  if x.wire (SIZEOF_ETHER + 6) = IPPROTO_FRAGMENT then
    some (SIZEOF_ETHER + SIZEOF_IPV6)
  else if x.wire (SIZEOF_ETHER + 6) = IPPROTO_DSTOPTS
      ∧ x.wire (SIZEOF_ETHER + SIZEOF_IPV6) = IPPROTO_FRAGMENT then
    some (SIZEOF_ETHER + SIZEOF_IPV6 + 8 * (x.wire (SIZEOF_ETHER + SIZEOF_IPV6 + 1) + 1))
  else none

/-- The More-Fragments bit of a frame: bit 13 of the IPv4 flags/offset field,
or bit 0 of the offset/flags field of the IPv6 Fragment extension. -/
def wire_more_fragments (x : Injection) : Option Nat :=
  if x.wire16 12 = ETHERTYPE_IP then some (x.wire16 (SIZEOF_ETHER + 6) / 8192 % 2)
  else if x.wire16 12 = ETHERTYPE_IPV6 then
    (ipv6_fragment_header x).map (fun fh => x.wire16 (fh + 2) % 2)
  else none

/-- The fragment offset of a frame, in units of 8 bytes: the low 13 bits of
the IPv4 flags/offset field, or the high 13 bits of the offset/flags field of
the IPv6 Fragment extension. -/
def wire_fragment_offset (x : Injection) : Option Nat :=
  if x.wire16 12 = ETHERTYPE_IP then some (x.wire16 (SIZEOF_ETHER + 6) % 8192)
  else if x.wire16 12 = ETHERTYPE_IPV6 then
    (ipv6_fragment_header x).map (fun fh => x.wire16 (fh + 2) / 8)
  else none

/-- The bytes of the identification field of a frame: the 2-byte IPv4 ID, or
the 4-byte Identification of the IPv6 Fragment extension. -/
def wire_fragment_ident (x : Injection) : Option (List Nat) :=
  if x.wire16 12 = ETHERTYPE_IP then
    some [x.wire (SIZEOF_ETHER + 4), x.wire (SIZEOF_ETHER + 5)]
  else if x.wire16 12 = ETHERTYPE_IPV6 then
    (ipv6_fragment_header x).map
      (fun fh => [x.wire (fh + 4), x.wire (fh + 5), x.wire (fh + 6), x.wire (fh + 7)])
  else none

/-- The length of the IP packet as its header declares it: the IPv4 total
length, or 40 plus the IPv6 payload length. -/
def wire_ip_length (x : Injection) : Option Nat :=
  if x.wire16 12 = ETHERTYPE_IP then some (x.wire16 (SIZEOF_ETHER + 2))
  else if x.wire16 12 = ETHERTYPE_IPV6 then some (SIZEOF_IPV6 + x.wire16 (SIZEOF_ETHER + 4))
  else none

/-! ## The recipes as a family -/

/-- The tests that send two fragments. -/
def is_fragmented (t : TEST_TYPE) : Bool :=
  match t with
  | .TEST_IPV4_TCP | .TEST_IPV6_TCP | .TEST_INVALID => false
  | _ => true

/-- The four tests whose first fragment carries options. -/
def is_optioned (t : TEST_TYPE) : Bool :=
  match t with
  | .TEST_FRAG_OPTIONED_IPV4_TCP | .TEST_FRAG_OPTIONED_IPV4_ICMP
  | .TEST_FRAG_OPTIONED_IPV6_TCP | .TEST_FRAG_OPTIONED_IPV6_ICMP6 => true
  | _ => false

/-- The strings of a run parse: the destination MAC does, and for an IPv6 test
so do the two addresses (`inet_addr` reports no error for IPv4). -/
def RunInput.parses (r : RunInput) (t : TEST_TYPE) : Prop :=
  r.dstmac.isSome = true
    ∧ (IS_TEST_IPV6 t.val = true → r.src6.isSome = true ∧ r.dst6.isSome = true)

/-- A concrete run on a little-endian host: 10.0.0.1 to 10.0.0.2 and fe80::1
to fe80::2, port 80, fragment identifier 0x1234, a zeroed buffer. -/
def example_run : RunInput where
  e := .little
  mem := fun _ => 0
  local_mac := fun i => 0xA0 + i
  dstmac := some (fun i => 0xB0 + i)
  src4 := fun i => [10, 0, 0, 1].getD i 0
  dst4 := fun i => [10, 0, 0, 2].getD i 0
  src6 := some (fun i => [0xfe, 0x80, 0, 0, 0, 0, 0, 0, 0, 0, 0, 0, 0, 0, 0, 1].getD i 0)
  dst6 := some (fun i => [0xfe, 0x80, 0, 0, 0, 0, 0, 0, 0, 0, 0, 0, 0, 0, 0, 2].getD i 0)
  dstport := 80
  fragid := 0x1234
  seq := 0x01020304

/-- A captured IPv4 TCP segment of 54 bytes whose flags byte is ACK alone
(0x10): Ethernet type 0x0800, IHL 5, protocol 6, everything else zero. -/
def ack_only_reply : Buf :=
  fun i => if i = 12 then 0x08 else if i = 14 then 0x45 else if i = 23 then 6
    else if i = 47 then 0x10 else 0

/-- A captured ICMP Echo-Reply of 42 bytes with identifier 44128 (0xAC60):
Ethernet type 0x0800, IHL 5, protocol 1, ICMP type 0. -/
def echo_reply : Buf :=
  fun i => if i = 12 then 0x08 else if i = 14 then 0x45 else if i = 23 then 1
    else if i = 38 then 0xAC else if i = 39 then 0x60 else 0

/-- The `n` bytes of the frame from byte `off` on (0 past its end). -/
def Injection.slice (x : Injection) (off n : Nat) : List Nat :=
  (List.range n).map (fun i => x.wire (off + i))

/-- Size of the layer 4 header a test sends: the TCP header, or the echo
header (`SIZEOF_PING` for ICMP, `SIZEOF_ICMP6` for ICMPv6). -/
def l4_header_size (t : TEST_TYPE) : Nat :=
  if IS_TEST_TCP t.val then SIZEOF_TCP
  else if IS_TEST_IPV4 t.val then SIZEOF_PING else SIZEOF_ICMP6

/-- Size of what a recipe assembles behind the IP headers: the TCP header, or
the echo header and the 40 payload bytes (`pinglen`). -/
def l4_total_size (t : TEST_TYPE) : Nat :=
  if IS_TEST_TCP t.val then SIZEOF_TCP else l4_header_size t + 40

/-- Offset in the buffer at which the recipe of a test builds the layer 4
header before the first injection (`tcph`, `icmph`, `icmp6h`, or their
`_optioned` variants). -/
def first_l4_offset (t : TEST_TYPE) : Nat :=
  match t with
  | .TEST_FRAG_OPTIONED_IPV4_TCP | .TEST_FRAG_OPTIONED_IPV4_ICMP =>
      SIZEOF_ETHER + SIZEOF_IPV4 + 40
  | .TEST_FRAG_IPV6_TCP | .TEST_FRAG_IPV6_ICMP6 =>
      SIZEOF_ETHER + SIZEOF_IPV6 + SIZEOF_IP6_FRAG
  | .TEST_FRAG_OPTIONED_IPV6_TCP | .TEST_FRAG_OPTIONED_IPV6_ICMP6 =>
      SIZEOF_ETHER + SIZEOF_IPV6 + SIZEOF_IP6_DEST + ipv6_recipe_optlen + SIZEOF_IP6_FRAG
  | .TEST_IPV6_TCP => SIZEOF_ETHER + SIZEOF_IPV6
  | _ => SIZEOF_ETHER + SIZEOF_IPV4

/-- Offset in the buffer to which a fragmented recipe moves the layer 4 tail
for the second injection (`tcph`, `icmph`, `icmp6h`). -/
def second_l4_offset (t : TEST_TYPE) : Nat :=
  if IS_TEST_IPV4 t.val then SIZEOF_ETHER + SIZEOF_IPV4
  else SIZEOF_ETHER + SIZEOF_IPV6 + SIZEOF_IP6_FRAG

/-- The layer 4 header straddles the fragment boundary: the first frame ends
strictly inside the header, after its first byte and before its last. -/
def straddles (t : TEST_TYPE) (first : Injection) : Prop :=
  first_l4_offset t < first.len ∧ first.len < first_l4_offset t + l4_header_size t

/-- The layer 4 bytes the first frame carries. -/
def first_l4_bytes (t : TEST_TYPE) (first : Injection) : List Nat :=
  first.slice (first_l4_offset t) (first.len - first_l4_offset t)

/-- The layer 4 bytes of the second frame, up to the end its IP length field
declares (`n` is the declared length of the IP packet). -/
def second_l4_bytes (t : TEST_TYPE) (second : Injection) (n : Nat) : List Nat :=
  second.slice (second_l4_offset t) (SIZEOF_ETHER + n - second_l4_offset t)

/-- The complete layer 4 header and payload in the buffer at the first
injection, before the recipe splits it. -/
def assembled_l4 (t : TEST_TYPE) (first : Injection) : List Nat :=
  bytes_at first.mem (first_l4_offset t) (l4_total_size t)

/-- Re-summing an IPv4 header: the one's-complement sum of the 16-bit words of
the `hlen` header bytes at `iph`, the stored checksum included, complemented.
A receiver accepts the header when this is 0. -/
def ipv4_header_resum (b : Buf) (iph hlen : Nat) : Nat := in_cksum (sum16 b iph hlen)

/-! ## More readers of a frame and of a header in memory -/

/-- The header-length field (IHL) of an IPv4 frame: the low four bits of the
first byte behind the Ethernet header, in 32-bit words. -/
def wire_ipv4_ihl (x : Injection) : Nat := x.wire SIZEOF_ETHER % 16

/-- Size in bytes of the IPv6 extension header at `exth`, from its Hdr Ext Len
field: 8 bytes more than 8 times the field. -/
def ext_header_size (b : Buf) (exth : Nat) : Nat := 8 * (load8 b (exth + 1) + 1)

/-- Size in bytes of the option at `opt` of a Destination Options header: the
type byte, the length byte and as many data bytes as the length byte says. -/
def option_size (b : Buf) (opt : Nat) : Nat := 2 + load8 b (opt + 1)

/-- The run of `example_run` with destination port 443. -/
def example_run_443 : RunInput where
  e := example_run.e
  mem := example_run.mem
  local_mac := example_run.local_mac
  dstmac := example_run.dstmac
  src4 := example_run.src4
  dst4 := example_run.dst4
  src6 := example_run.src6
  dst6 := example_run.dst6
  dstport := 443
  fragid := example_run.fragid
  seq := example_run.seq

/-! ## Capture filter -/

/-- The constant `FILTER_STR_LEN` of `receive_a_packet`: the size of the
buffer `filter_str`. -/
@[simp] def FILTER_STR_LEN : Nat := 203

/-- The conversion `%i` of `snprintf` applied to an `unsigned short` argument:
the decimal digits of its value. -/
def format_port (port : Nat) : String := Nat.repr (port % 65536)

/-- The text the `snprintf` call of `receive_a_packet` formats.  A C string is
a `String` here, one `Char` for each C `char`, so that `strlen` is
`String.length`; the conversion `%s` copies its argument. -/
def filter_text (srcip dstip : String) (srcport dstport : Nat) (test_type : TEST_TYPE) :
    String :=
  if IS_TEST_IPV4 test_type.val then
    "src " ++ srcip ++ " and dst " ++ dstip ++ " and (icmp or (tcp and src port "
      ++ format_port srcport ++ " and dst port " ++ format_port dstport ++ "))"
  else
    "src " ++ srcip ++ " and dst " ++ dstip
      ++ " and ((icmp6 and ip6[40] != 135 and ip6[40] != 136) or (tcp and src port "
      ++ format_port srcport ++ " and dst port " ++ format_port dstport ++ "))"

/-- The start of the C function `receive_a_packet`, up to the check of what
`snprintf` returned: the filter expression handed to `pcap_compile`, or the
error of the overflow check.  `snprintf` returns the length of the whole
formatted text, also when it does not fit. -/
def receive_a_packet_filter (srcip dstip : String) (srcport dstport : Nat)
    (test_type : TEST_TYPE) : Except String String :=
  let r := (filter_text srcip dstip srcport dstport test_type).length
  if r ≥ FILTER_STR_LEN then .error "snprintf for pcap filter failed"
  else .ok (filter_text srcip dstip srcport dstport test_type)

/-- The call of `receive_a_packet` in the C function `fork_pcap_listener`
(the child process), as far as the filter goes. -/
def fork_pcap_listener_filter (dstip srcip : String) (dstport _srcport : Nat)
    (test_type : TEST_TYPE) : Except String String :=
  receive_a_packet_filter dstip srcip dstport SOURCE_PORT test_type

/-- The call of `fork_pcap_listener` in `main`: the filter the listener is
armed with.  `srcip` and `dstip` are the C strings at the pointers `main` got
from `parse_args`, as the `%s` of `snprintf` reads them: the copies
`copy_arg_string` made, with what memory holds behind them up to the first NUL
(see `copy_arg_string`); `dstport` is the target port. -/
def main_filter (srcip dstip : String) (dstport : Nat) (test_type : TEST_TYPE) :
    Except String String :=
  fork_pcap_listener_filter dstip srcip dstport SOURCE_PORT test_type

/-! ## Test names -/

/-- The table `test_indexes`, with its terminating 0. -/
def test_indexes : List TEST_TYPE :=
  [.TEST_IPV4_TCP, .TEST_FRAG_IPV4_TCP, .TEST_FRAG_IPV4_ICMP, .TEST_FRAG_OPTIONED_IPV4_TCP,
   .TEST_FRAG_OPTIONED_IPV4_ICMP,
   .TEST_IPV6_TCP, .TEST_FRAG_IPV6_TCP, .TEST_FRAG_IPV6_ICMP6, .TEST_FRAG_OPTIONED_IPV6_TCP,
   .TEST_FRAG_OPTIONED_IPV6_ICMP6,
   .TEST_INVALID]

/-- The table `test_names`; the terminating `NULL` is the end of the list. -/
def test_names : List String :=
  ["v4-tcp", "v4-frag-tcp", "v4-frag-icmp", "v4-frag-optioned-tcp", "v4-frag-optioned-icmp",
   "v6-tcp", "v6-frag-tcp", "v6-frag-icmp6", "v6-frag-optioned-tcp", "v6-frag-optioned-icmp6"]

/-- The `while` loop of `parse_args` for the option `--test`: `names` is what
is left of `test_names` from index `x` on, `test_type` the value so far. -/
def test_lookup (optarg : String) (names : List String) (x : Nat) (test_type : TEST_TYPE) :
    TEST_TYPE :=
  match names with
  | [] => test_type
  | possible_match :: rest =>
    if optarg = possible_match then test_indexes.getD x .TEST_INVALID
    else test_lookup optarg rest (x + 1) test_type

/-- The test type `parse_args` finds for the argument of `--test`; `test_type`
starts as 0. -/
def parse_test_name (optarg : String) : TEST_TYPE :=
  test_lookup optarg test_names 0 .TEST_INVALID

/-- The string `s` starts with `p`. -/
def starts_with (p s : String) : Bool := s.toList.take p.length == p.toList

/-- The string `s` ends with `p`. -/
def ends_with (p s : String) : Bool := s.toList.drop (s.length - p.length) == p.toList

/-! ## The end of a run -/

/-- The end of the C function `main`, from the call of `harvest_pcap_listener`
on: the exit code of the process.  `r` is what `harvest_pcap_listener`
returned, `packet_buf` the frame it delivered; where `check_received_packet`
calls `errx( 1, ... )` through `print_a_packet` the exit code is 1. -/
def main_exit_code (e : Endian) (r : Nat) (packet_buf : Buf) (test_type : TEST_TYPE) : Nat :=
  if r = 0 then 1
  else
    match check_received_packet e r packet_buf test_type with
    | .error _ => 1
    | .ok v => if v ≠ 0 then 0 else 1

/-- The C function `harvest_pcap_listener`.  `n1` is what the first `read`
returned and `packet_buf_size` the `int` it left in the variable; `frame` is
what the second `read` delivered (`none`: it returned -1).  The first
comparison is with `sizeof( int )`, an unsigned value, so `n1` is converted to
`size_t` (64 bits here; any width gives the same result); the second is
between signed values.  The result is the length returned and the bytes of
`*packet_buf`. -/
def harvest_pcap_listener (n1 packet_buf_size : Int) (frame : Option (List Nat)) :
    Except String (Nat × List Nat) :=
  if (n1 % 18446744073709551616).toNat < 4 then
    .error "Error communicating with child process."
  else if packet_buf_size = 0 then .ok (0, [])
  else if packet_buf_size > PCAP_CAPTURE_LEN ∨ packet_buf_size < 1 then
    .error "Bad data received from child process."
  else
    let n2 : Int := match frame with
      | none => -1
      | some f => f.length
    if n2 < packet_buf_size then .error "Error communicating with child process (2)."
    else .ok (packet_buf_size.toNat, (frame.getD []).take packet_buf_size.toNat)

/-! ## Buffers of the recipes -/

/-- The size of the buffer a recipe allocates: the argument of its call of
`malloc_check`. -/
def recipe_buffer_size (t : TEST_TYPE) : Nat :=
  match t with
  | .TEST_IPV4_TCP => SIZEOF_ETHER + SIZEOF_TCP + SIZEOF_IPV4
  | .TEST_IPV6_TCP => SIZEOF_ETHER + SIZEOF_IPV6 + SIZEOF_TCP
  | _ => BIG_PACKET_SIZE

/-- An injection stays inside a buffer of `size` bytes that held `mem` when it
was allocated: the injected length is at most `size`, and memory from offset
`size` on is as it was. -/
def Injection.within (x : Injection) (size : Nat) (mem : Buf) : Prop :=
  x.len ≤ size ∧ ∀ i, size ≤ i → x.mem i = mem i

/-- A source address text of 150 characters, each the digit 1. -/
def long_address : String := String.mk (List.replicate 150 '1')

/-! ## Command line

`getopt_long` is the C library's: what it reports to the loop of `parse_args`
is an input of the embedding, the options in their order up to the first call
that returns something else than 0 or `h`. -/

/-- The C function `copy_arg_string`: `*dst = malloc( strlen( opt ) )` and a
`memcpy` of `strlen( opt )` bytes, so the block holds the characters of `opt`
and no terminating NUL.  The result is the C string a reader finds at `*dst`:
the characters of `opt` followed by `behind`, the characters memory holds
behind the block up to the first NUL.  What lies there is the allocator's
doing and an input of the embedding; a reader that meets a NUL right behind
the block (`behind` empty) finds the text of `opt`. -/
def copy_arg_string (opt behind : String) : String := opt ++ behind

/-- One turn of the option loop of `parse_args`: the option as `getopt_long`
reports it, with its argument; the argument of a numeric option is the number
`atoi` or `atol` makes of it.  An option whose argument `copy_arg_string`
copies comes with `behind`, what memory holds behind the block that this turn
allocates (see `copy_arg_string`). -/
inductive CliOption where
  | help
  | srcip (optarg behind : String)
  | dstip (optarg behind : String)
  | dstmac (optarg behind : String)
  | interface (optarg behind : String)
  | srcport (tmpport : Int)
  | dstport (tmpport : Int)
  | timeout (tmptime : Int)
  | test (optarg : String)
deriving DecidableEq

/-- The variables `parse_args` fills: the strings are `NULL` (`none`) until an
option sets them, and then the C string found at the copy `copy_arg_string`
made; the ports start as 0, `timeout` is the caller's value until
`--timeout` changes it, `x` is the index into `test_names` and `test_type`
starts as 0. -/
structure ParsedArgs where
  srcip : Option String
  dstip : Option String
  dstmac : Option String
  interface : Option String
  srcport : Nat
  dstport : Nat
  test_name : Option String
  timeout : Int
  x : Nat
  test_type : TEST_TYPE

/-- How the process ends when it does not go on: the exit code, whether the
usage text was printed, and the first line written to standard error. -/
structure ProcessExit where
  code : Nat
  usage : Bool
  message : String
deriving DecidableEq

/-- The C function `exit_with_usage`. -/
def exit_with_usage : ProcessExit := ⟨2, true, "synfrag usage:"⟩

/-- The C function `errx` with exit code 1. -/
def errx1 (message : String) : ProcessExit := ⟨1, false, message⟩

/-- The index `x` after the `while` loop of `parse_args` for the option
`--test`: where the name was found, or the end of the table. -/
def test_lookup_index (optarg : String) (names : List String) (x : Nat) : Nat :=
  match names with
  | [] => x
  | possible_match :: rest =>
    if optarg = possible_match then x else test_lookup_index optarg rest (x + 1)

/-- One turn of the option loop of `parse_args`. -/
def parse_option (st : ParsedArgs) (o : CliOption) : Except ProcessExit ParsedArgs :=
  match o with
  | .help => .error exit_with_usage
  | .srcip optarg behind => .ok { st with srcip := some (copy_arg_string optarg behind) }
  | .dstip optarg behind => .ok { st with dstip := some (copy_arg_string optarg behind) }
  | .dstmac optarg behind => .ok { st with dstmac := some (copy_arg_string optarg behind) }
  | .interface optarg behind =>
    .ok { st with interface := some (copy_arg_string optarg behind) }
  | .srcport tmpport =>
    if tmpport > 65535 ∨ tmpport < 1 then .error (errx1 "Invalid value for srcport")
    else .ok { st with srcport := tmpport.toNat }
  | .dstport tmpport =>
    if tmpport > 65535 ∨ tmpport < 1 then .error (errx1 "Invalid value for dstport")
    else .ok { st with dstport := tmpport.toNat }
  | .timeout tmptime =>
    if tmptime < 1 then .error (errx1 "Invalid value for timeout")
    else .ok { st with timeout := tmptime }
  | .test optarg =>
    .ok { st with
      test_type := test_lookup optarg (test_names.drop st.x) st.x st.test_type
      test_name :=
        if optarg ∈ test_names.drop st.x then some optarg else st.test_name
      x := test_lookup_index optarg (test_names.drop st.x) st.x }

/-- The option loop of `parse_args` over the options `getopt_long` reports
before it returns something else than 0 or `h`. -/
def parse_loop (st : ParsedArgs) : List CliOption → Except ProcessExit ParsedArgs
  | [] => .ok st
  | o :: rest =>
    match parse_option st o with
    | .error x => .error x
    | .ok st => parse_loop st rest

/-- The C function `parse_args`.  `argc` is the argument count, `opts` the
options the loop sees, `leftover` whether `optind < argc` after the loop, and
`timeout` the value the caller preset. -/
def parse_args (argc : Nat) (opts : List CliOption) (leftover : Bool) (timeout : Int) :
    Except ProcessExit ParsedArgs :=
  if argc < 2 then .error exit_with_usage
  else
    match parse_loop ⟨none, none, none, none, 0, 0, none, timeout, 0, .TEST_INVALID⟩ opts with
    | .error x => .error x
    | .ok st =>
      if leftover then .error exit_with_usage
      else if st.srcip.isNone then .error (errx1 "Missing srcip")
      else if st.dstip.isNone then .error (errx1 "Missing dstip")
      else if st.dstmac.isNone then .error (errx1 "Missing dstmac")
      else if st.interface.isNone then .error (errx1 "Missing interface")
      else if st.test_type = .TEST_INVALID then .error ⟨1, false, "Missing or invalid test type."⟩
      else if IS_TEST_TCP st.test_type.val ∧ st.dstport = 0 then .error (errx1 "Missing dstport")
      else .ok st

/-- A command line for the IPv6 SYN test with two addresses of 24 characters;
behind the copy of each address memory holds the character `!` (0x21) and then
a NUL. -/
def unterminated_args : List CliOption :=
  [.srcip "2001:db8:1111:2222::3333" "!", .dstip "2001:db8:aaaa:bbbb::cccc" "!",
   .dstmac "aa:bb:cc:dd:ee:ff" "", .interface "eth0" "", .test "v6-tcp", .dstport 80]

/-! ## The two processes after `fork`

`fork_pcap_listener` splits the run in two processes that share the pipe
`pfd`.  Each process is followed through the calls that matter for the
readiness signal, in the order of the source; which process moves next is the
scheduler's choice.  The pipe is the operating system's: a `read` from an empty
pipe blocks while a write end is open and returns 0 once none is. -/

/-- Where the listener (the child of `fork`) is. -/
inductive ListenerPc where
  /-- In `receive_a_packet`, before the filter is compiled and installed. -/
  | arming
  /-- The filter is installed; `write( pfd[1], ".", 1 )` is next. -/
  | armed
  /-- The readiness byte is written; the listener is in `select`. -/
  | waiting
  /-- The process has ended in `errx`; its descriptors are closed. -/
  | exited
deriving DecidableEq

/-- Where the orchestrator (the parent of `fork`) is. -/
inductive OrchestratorPc where
  /-- In `read( pfd[0], &buf, 1 )` of `fork_pcap_listener`; `pfd[1]` is closed. -/
  | reading
  /-- The `read` has returned, `fork_pcap_listener` returns to `main`. -/
  | returned
  /-- The recipe `main` dispatches to has called `pcap_inject`. -/
  | injecting
deriving DecidableEq

/-- The two processes and the pipe between them. -/
structure ProcessPair where
  listener : ListenerPc
  orchestrator : OrchestratorPc
  /-- Number of bytes in the pipe. -/
  pipe : Nat
  /-- The listener has installed its filter (`pcap_setfilter` returned). -/
  filter_installed : Bool
  /-- The listener has written the readiness byte. -/
  ready_written : Bool

/-- The two processes right after `fork`. -/
def after_fork : ProcessPair := ⟨.arming, .reading, 0, false, false⟩

/-- One move of the listener.  Arming is the start of `receive_a_packet`:
the filter text must pass the overflow check (`filter`), then `pcap_compile`,
`pcap_setfilter` and `pcap_fileno` must succeed (`pcap_ok`); otherwise `errx`
ends the process. -/
def listener_step (filter : Except String String) (pcap_ok : Bool) (s : ProcessPair) :
    ProcessPair :=
  match s.listener with
  | .arming =>
    match filter with
    | .error _ => { s with listener := .exited }
    | .ok _ =>
      if pcap_ok then { s with listener := .armed, filter_installed := true }
      else { s with listener := .exited }
  | .armed => { s with listener := .waiting, pipe := s.pipe + 1, ready_written := true }
  | .waiting => s
  | .exited => s

/-- One move of the orchestrator.  The `read` returns with the byte when there
is one, returns 0 when the pipe is empty and the listener has exited, and
blocks otherwise; its result is not looked at, and `main` goes on to the
recipe and its `pcap_inject`. -/
def orchestrator_step (s : ProcessPair) : ProcessPair :=
  match s.orchestrator with
  | .reading =>
    if s.pipe > 0 then { s with orchestrator := .returned, pipe := s.pipe - 1 }
    else if s.listener = .exited then { s with orchestrator := .returned }
    else s
  | .returned => { s with orchestrator := .injecting }
  | .injecting => s

/-- The process the scheduler lets move. -/
inductive Proc where
  | listener
  | orchestrator
deriving DecidableEq

/-- The two processes after the moves of a schedule. -/
def run_schedule (filter : Except String String) (pcap_ok : Bool) :
    List Proc → ProcessPair → ProcessPair
  | [], s => s
  | .listener :: rest, s => run_schedule filter pcap_ok rest (listener_step filter pcap_ok s)
  | .orchestrator :: rest, s => run_schedule filter pcap_ok rest (orchestrator_step s)

/-- What holds of the two processes as long as the listener gets its filter
installed: the listener has not exited; once the orchestrator is past its
`read`, or a byte is in the pipe, the filter is installed and the readiness
byte written; and a listener about to write has its filter installed. -/
def ready_invariant (s : ProcessPair) : Prop :=
  s.listener ≠ .exited
    ∧ (s.orchestrator ≠ .reading → s.ready_written = true ∧ s.filter_installed = true)
    ∧ (0 < s.pipe → s.ready_written = true ∧ s.filter_installed = true)
    ∧ (s.listener = .armed → s.filter_installed = true)
    ∧ (s.listener = .waiting → s.ready_written = true ∧ s.filter_installed = true)

/-! ## Frames for the reply parser -/

/-- A captured frame of 22 bytes: Ethernet type 0x0800, then eight bytes that
are at once the start of an IPv4 header with IHL 0 and an ICMP Echo-Reply with
identifier 44128 (0xAC60).  Byte 23, where the protocol field of a whole IPv4
header would be, lies past the end of the frame; the memory there holds 1. -/
def runt_reply : Buf :=
  fun i => if i = 12 then 0x08 else if i = 18 then 0xAC else if i = 19 then 0x60
    else if i = 23 then 1 else 0

/-- The same 22 bytes as `runt_reply` in memory that holds 0 at byte 23. -/
def runt_reply_zero : Buf :=
  fun i => if i = 12 then 0x08 else if i = 18 then 0xAC else if i = 19 then 0x60 else 0

/-- A captured IPv4 UDP datagram of 54 bytes: Ethernet type 0x0800, IHL 5,
protocol 17, everything else zero. -/
def udp_reply : Buf :=
  fun i => if i = 12 then 0x08 else if i = 14 then 0x45 else if i = 23 then 17 else 0

/-- A captured IPv6 TCP segment of 74 bytes whose flags byte is SYN and ACK
(0x12): Ethernet type 0x86DD, next header 6, everything else zero. -/
def syn_ack_reply6 : Buf :=
  fun i => if i = 12 then 0x86 else if i = 13 then 0xDD else if i = 20 then 6
    else if i = 67 then 0x12 else 0

/-! ## Memory lemmas -/

theorem store8_apply (b : Buf) (off v i : Nat) :
    store8 b off v i = if i = off then v % 256 else b i := rfl

theorem memset_apply (b : Buf) (off c n i : Nat) :
    memset b off c n i = if off ≤ i ∧ i < off + n then c % 256 else b i := rfl

theorem memmove_apply (b : Buf) (dst src n i : Nat) :
    memmove b dst src n i = if dst ≤ i ∧ i < dst + n then b (src + (i - dst)) else b i := rfl

theorem store_addr_apply (b : Buf) (off n : Nat) (a : Addr) (i : Nat) :
    store_addr b off n a i = if off ≤ i ∧ i < off + n then a (i - off) % 256 else b i := rfl

theorem store16_apply (e : Endian) (b : Buf) (off v i : Nat) :
    store16 e b off v i =
    if i = off then
      (match e with | .little => v % 256 | .big => v / 256 % 256)
    else if i = off + 1 then
      (match e with | .little => v / 256 % 256 | .big => v % 256)
    else b i := rfl

theorem store32_apply (e : Endian) (b : Buf) (off v i : Nat) :
    store32 e b off v i =
    if i = off then
      (match e with | .little => v % 256 | .big => v / 16777216 % 256)
    else if i = off + 1 then
      (match e with | .little => v / 256 % 256 | .big => v / 65536 % 256)
    else if i = off + 2 then
      (match e with | .little => v / 65536 % 256 | .big => v / 256 % 256)
    else if i = off + 3 then
      (match e with | .little => v / 16777216 % 256 | .big => v % 256)
    else b i := rfl

theorem store16_be_apply (b : Buf) (off v i : Nat) :
    store16_be b off v i =
    if i = off + 1 then v % 256 else if i = off then v / 256 % 256 else b i := rfl

theorem set_lo4_apply (b : Buf) (off v i : Nat) :
    set_lo4 b off v i = if i = off then ((b off % 256 / 16) * 16 + v % 16) % 256 else b i := rfl

theorem set_hi4_apply (b : Buf) (off v i : Nat) :
    set_hi4 b off v i = if i = off then ((v % 16) * 16 + b off % 256 % 16) % 256 else b i := rfl

theorem wire_eq (x : Injection) (k : Nat) :
    x.wire k = if k < x.len then x.mem k % 256 else 0 := rfl

theorem bytes_at_length (b : Buf) (off n : Nat) : (bytes_at b off n).length = n := by
  simp [bytes_at]

theorem frame_length (x : Injection) : x.frame.length = x.len := by
  simp [Injection.frame, bytes_at]

/-- Reading `wire` is reading the list of bytes on the wire. -/
theorem wire_eq_getD (x : Injection) (k : Nat) : x.wire k = x.frame.getD k 0 := by
  unfold Injection.wire Injection.frame bytes_at
  by_cases h : k < x.len
  · simp [h, List.getD_eq_getElem?_getD, load8]
  · have h2 : x.len ≤ k := Nat.le_of_not_lt h
    simp [h, List.getD_eq_getElem?_getD, List.getElem?_eq_none, h2]

theorem ipv6_recipe_optlen_eq : ipv6_recipe_optlen = 14 := by decide

/-! ## Option-length fix-up -/

theorem fix_up_eq (n : Nat) (h : n ≤ 65528) :
    fix_up_destination_options_length n = n + (6 + 8 - n % 8) % 8 := by
  unfold fix_up_destination_options_length
  split
  · simp only []
    split <;> omega
  · omega


/-! ## Reply classification -/

theorem load8_lt (b : Buf) (i : Nat) : load8 b i < 256 := Nat.mod_lt _ (by decide)

set_option maxRecDepth 100000 in
theorem flags_syn_or_ack (x : Nat) (h : x < 256) :
    (x &&& (TH_SYN ||| TH_ACK)) ≠ 0 ↔ (x &&& TH_SYN ≠ 0 ∨ x &&& TH_ACK ≠ 0) := by
  revert x
  decide

/-- The comparison `icmp_id == htons(SOURCE_PORT)` holds exactly when the two
identifier bytes, read in network order, are 44128. -/
theorem load16_eq_htons_source_port (e : Endian) (b : Buf) (off : Nat) :
    load16 e b off = htons e SOURCE_PORT
      ↔ 256 * load8 b off + load8 b (off + 1) = SOURCE_PORT := by
  have h1 := load8_lt b off
  have h2 := load8_lt b (off + 1)
  cases e
  all_goals simp only [load16, htons, SOURCE_PORT]
  all_goals omega


/-! ## Fields of a frame from its bytes -/

/-- The flags/offset field of an IPv4 frame, from its bytes. -/
theorem mf_of_ipv4_bytes (x : Injection) (mf off a b : Nat)
    (h12 : x.wire 12 = 0x08) (h13 : x.wire 13 = 0x00)
    (h20 : x.wire 20 = a) (h21 : x.wire 21 = b)
    (hmf : (256 * a + b) / 8192 % 2 = mf) (hoff : (256 * a + b) % 8192 = off) :
    wire_more_fragments x = some mf ∧ wire_fragment_offset x = some off := by
  simp [wire_more_fragments, wire_fragment_offset, Injection.wire16, h12, h13, h20, h21, hmf,
    hoff]

/-- The offset/flags field of an IPv6 frame whose Fragment extension follows
the fixed header, from its bytes. -/
theorem mf_of_ipv6_short_bytes (x : Injection) (mf off a b : Nat)
    (h12 : x.wire 12 = 0x86) (h13 : x.wire 13 = 0xDD) (h20 : x.wire 20 = 44)
    (h56 : x.wire 56 = a) (h57 : x.wire 57 = b)
    (hmf : (256 * a + b) % 2 = mf) (hoff : (256 * a + b) / 8 = off) :
    wire_more_fragments x = some mf ∧ wire_fragment_offset x = some off := by
  simp [wire_more_fragments, wire_fragment_offset, ipv6_fragment_header, Injection.wire16,
    h12, h13, h20, h56, h57, hmf, hoff]

/-- The offset/flags field of an IPv6 frame whose Fragment extension follows a
16-byte Destination Options header, from its bytes. -/
theorem mf_of_ipv6_optioned_bytes (x : Injection) (mf off a b : Nat)
    (h12 : x.wire 12 = 0x86) (h13 : x.wire 13 = 0xDD) (h20 : x.wire 20 = 60)
    (h54 : x.wire 54 = 44) (h55 : x.wire 55 = 1)
    (h72 : x.wire 72 = a) (h73 : x.wire 73 = b)
    (hmf : (256 * a + b) % 2 = mf) (hoff : (256 * a + b) / 8 = off) :
    wire_more_fragments x = some mf ∧ wire_fragment_offset x = some off := by
  simp [wire_more_fragments, wire_fragment_offset, ipv6_fragment_header, Injection.wire16,
    h12, h13, h20, h54, h55, h72, h73, hmf, hoff]

/-- The declared length of an IPv4 frame, from its bytes. -/
theorem ip_length_of_ipv4_bytes (x : Injection) (a b : Nat)
    (h12 : x.wire 12 = 0x08) (h13 : x.wire 13 = 0x00)
    (h16 : x.wire 16 = a) (h17 : x.wire 17 = b) :
    wire_ip_length x = some (256 * a + b) := by
  simp [wire_ip_length, Injection.wire16, h12, h13, h16, h17]

/-- The declared length of an IPv6 frame, from its bytes. -/
theorem ip_length_of_ipv6_bytes (x : Injection) (a b : Nat)
    (h12 : x.wire 12 = 0x86) (h13 : x.wire 13 = 0xDD)
    (h18 : x.wire 18 = a) (h19 : x.wire 19 = b) :
    wire_ip_length x = some (40 + (256 * a + b)) := by
  simp [wire_ip_length, Injection.wire16, h12, h13, h18, h19]

/-- The identification field of an IPv4 frame, from its bytes. -/
theorem ident_of_ipv4_bytes (x : Injection) (a b a' b' : Nat)
    (h12 : x.wire 12 = 0x08) (h13 : x.wire 13 = 0x00)
    (h18 : x.wire 18 = a) (h19 : x.wire 19 = b) (ha : a = a') (hb : b = b') :
    wire_fragment_ident x = some [a', b'] := by
  simp [wire_fragment_ident, Injection.wire16, h12, h13, h18, h19, ha, hb]

/-- The identification field of an IPv6 frame whose Fragment extension follows
the fixed header, from its bytes. -/
theorem ident_of_ipv6_short_bytes (x : Injection) (a b c d : Nat)
    (h12 : x.wire 12 = 0x86) (h13 : x.wire 13 = 0xDD) (h20 : x.wire 20 = 44)
    (h58 : x.wire 58 = a) (h59 : x.wire 59 = b) (h60 : x.wire 60 = c) (h61 : x.wire 61 = d) :
    wire_fragment_ident x = some [a, b, c, d] := by
  simp [wire_fragment_ident, ipv6_fragment_header, Injection.wire16, h12, h13, h20, h58, h59,
    h60, h61]

/-- The identification field of an IPv6 frame whose Fragment extension follows
a 16-byte Destination Options header, from its bytes. -/
theorem ident_of_ipv6_optioned_bytes (x : Injection) (a b c d : Nat)
    (h12 : x.wire 12 = 0x86) (h13 : x.wire 13 = 0xDD) (h20 : x.wire 20 = 60)
    (h54 : x.wire 54 = 44) (h55 : x.wire 55 = 1)
    (h74 : x.wire 74 = a) (h75 : x.wire 75 = b) (h76 : x.wire 76 = c) (h77 : x.wire 77 = d) :
    wire_fragment_ident x = some [a, b, c, d] := by
  simp [wire_fragment_ident, ipv6_fragment_header, Injection.wire16, h12, h13, h20, h54, h55,
    h74, h75, h76, h77]

/-- Unpack `RunInput.parses`: the destination MAC is parsed, and for an IPv6
test so are both addresses. -/
theorem parses_elim (r : RunInput) (t : TEST_TYPE) (hp : r.parses t) :
    (∃ m, r.dstmac = some m)
      ∧ (IS_TEST_IPV6 t.val = true → (∃ s, r.src6 = some s) ∧ (∃ d, r.dst6 = some d)) := by
  obtain ⟨hm, h6⟩ := hp
  simp only [Option.isSome_iff_exists] at hm h6
  exact ⟨hm, h6⟩


theorem swap16_lo (x : Nat) : ((x % 256) * 256 + x / 256 % 256) % 256 = x / 256 % 256 := by
  omega

theorem swap16_hi (x : Nat) : ((x % 256) * 256 + x / 256 % 256) / 256 = x % 256 := by
  omega

/-- On a little-endian host the two bytes that `store16` leaves for
`htons x` are the bytes of `x` in network order. -/
theorem htons_little_bytes (x : Nat) :
    htons .little (x % 65536) % 256 % 256 = x % 65536 / 256
      ∧ htons .little (x % 65536) / 256 % 256 % 256 = x % 65536 % 256 := by
  simp only [htons, swap16_lo, swap16_hi]
  omega

/-- On a big-endian host the two bytes that `store16` leaves for `htons x`
are the bytes of `x` in network order. -/
theorem htons_big_bytes (x : Nat) :
    htons .big (x % 65536) / 256 % 256 % 256 = x % 65536 / 256
      ∧ htons .big (x % 65536) % 256 % 256 = x % 65536 % 256 := by
  simp only [htons]
  omega


/-! ## Slices of memory and framing -/

theorem slice_eq_bytes_at (x : Injection) (off n : Nat) (h : off + n ≤ x.len) :
    x.slice off n = bytes_at x.mem off n := by
  unfold Injection.slice bytes_at
  apply List.map_congr_left
  intro i hi
  have hlt : off + i < x.len := by
    have := List.mem_range.mp hi
    omega
  simp [Injection.wire, hlt]

theorem bytes_at_add (b : Buf) (off n m : Nat) :
    bytes_at b off (n + m) = bytes_at b off n ++ bytes_at b (off + n) m := by
  unfold bytes_at
  rw [List.range_add, List.map_append, List.map_map]
  congr 1
  apply List.map_congr_left
  intro i _
  simp [Nat.add_assoc]

theorem bytes_at_congr (b1 b2 : Buf) (off n : Nat)
    (h : ∀ i, off ≤ i → i < off + n → b2 i = b1 i) :
    bytes_at b2 off n = bytes_at b1 off n := by
  unfold bytes_at
  apply List.map_congr_left
  intro i hi
  have := List.mem_range.mp hi
  simp [load8, h (off + i) (by omega) (by omega)]

theorem bytes_at_memmove (b : Buf) (dst src n : Nat) :
    bytes_at (memmove b dst src n) dst n = bytes_at b src n := by
  unfold bytes_at
  apply List.map_congr_left
  intro i hi
  have := List.mem_range.mp hi
  simp [load8, memmove, this]

/-- Reassembly of two fragments cut from one buffer: when the second frame is
the buffer with its tail of `m` bytes moved down over untouched data, the 8
bytes of the first frame and the `m` bytes of the second are the `8 + m` bytes
that were in the buffer. -/
theorem reassemble (i1 i2 : Injection) (b2 : Buf) (l4 dst m tot n : Nat)
    (hmem2 : i2.mem = memmove b2 dst (l4 + 8) m)
    (hframe : ∀ i, l4 + 8 ≤ i → b2 i = i1.mem i)
    (hlen1 : i1.len = l4 + 8) (hlen2 : dst + m ≤ i2.len)
    (htot : tot = 8 + m) (hn : 14 + n - dst = m) :
    i1.slice l4 (i1.len - l4) ++ i2.slice dst (14 + n - dst) = bytes_at i1.mem l4 tot := by
  subst htot
  rw [hn, hlen1, Nat.add_sub_cancel_left, bytes_at_add,
    slice_eq_bytes_at i1 l4 8 (by omega), slice_eq_bytes_at i2 dst m hlen2, hmem2,
    bytes_at_memmove]
  congr 1
  exact bytes_at_congr _ _ _ _ (fun i hi _ => hframe i hi)

/-- The builder `build_ipv4_frag2` writes only the 20 bytes of the IPv4 header. -/
theorem build_ipv4_frag2_frame (e : Endian) (b : Buf) (iph : Nat) (s d : Addr)
    (p f n : Nat) (b' : Buf) (h : build_ipv4_frag2 e b iph s d p f n = .ok b')
    (i : Nat) (hi : i < iph ∨ iph + 20 ≤ i) : b' i = b i := by
  simp only [build_ipv4_frag2, do_checksum, IPPROTO_IP, if_true, Except.ok.injEq] at h
  subst h
  simp only [store16_be_apply, store16_apply, build_bare_ipv4, store_addr_apply, store8_apply,
    set_lo4_apply, set_hi4_apply]
  repeat rw [if_neg (by omega)]

/-- The builder `build_ipv6_frag2` writes only the 40 bytes of the IPv6 header
and the 8 bytes of the Fragment extension. -/
theorem build_ipv6_frag2_frame (e : Endian) (b : Buf) (ip6h : Nat) (s d : Addr)
    (p f n : Nat) (b' : Buf)
    (h : build_ipv6_frag2 e b ip6h (some s) (some d) p f n = .ok b')
    (i : Nat) (hi : i < ip6h ∨ ip6h + 48 ≤ i) : b' i = b i := by
  simp only [build_ipv6_frag2, ipv6_fixed_header, bind, Except.bind, pure, Except.pure,
    Except.ok.injEq] at h
  subst h
  simp only [fill_ip6_frag, store32_apply, store16_apply, store_addr_apply, store8_apply,
    SIZEOF_IPV6]
  repeat rw [if_neg (by omega)]


/-! ## One's-complement checksum -/

theorem in_cksum_lt (s : Nat) : in_cksum s < 65536 := by
  unfold in_cksum; omega

theorem fold16_eq (hi lo : Nat) (hhi : hi < 65536) (hlo : lo < 65536) :
    fold16 (65536 * hi + lo) = if hi + lo < 65536 then hi + lo else hi + lo - 65535 := by
  have h1 : (65536 * hi + lo) / 65536 = hi := by omega
  have h2 : (65536 * hi + lo) % 65536 = lo := by omega
  unfold fold16
  simp only [h1, h2]
  split
  · have h3 : (hi + lo) / 65536 = 0 := by omega
    rw [h3]; omega
  · have h3 : (hi + lo) / 65536 = 1 := by omega
    rw [h3]; omega

/-- Adding the complement of the folded sum to the sum gives a sum that folds
to all ones, so its complement is zero. -/
theorem in_cksum_roundtrip (s : Nat) (h : s < 4294967296) :
    in_cksum (s + in_cksum s) = 0 := by
  obtain ⟨hi, lo, hhi, hlo, rfl⟩ : ∃ hi lo, hi < 65536 ∧ lo < 65536 ∧ s = 65536 * hi + lo :=
    ⟨s / 65536, s % 65536, by omega, by omega, by omega⟩
  have hf := fold16_eq hi lo hhi hlo
  unfold in_cksum
  by_cases hA : hi + lo < 65536
  · rw [if_pos hA] at hf
    rw [hf]
    have e1 : 65536 * hi + lo + (65535 - (hi + lo)) = 65536 * hi + (65535 - hi) := by omega
    rw [e1, fold16_eq hi (65535 - hi) hhi (by omega), if_pos (by omega)]
    omega
  · rw [if_neg hA] at hf
    rw [hf]
    by_cases hB : hi = 65535
    · subst hB
      have e1 : 65536 * 65535 + lo + (65535 - (65535 + lo - 65535))
          = 65536 * 65535 + 65535 := by omega
      rw [e1, fold16_eq 65535 65535 (by omega) (by omega), if_neg (by omega)]
    · have e1 : 65536 * hi + lo + (65535 - (hi + lo - 65535))
          = 65536 * (hi + 1) + (65534 - hi) := by omega
      rw [e1, fold16_eq (hi + 1) (65534 - hi) (by omega) (by omega), if_pos (by omega)]
      omega

/-- The ten words of a 20-byte header. -/
theorem sum16_20 (b : Buf) (off : Nat) :
    sum16 b off 20 =
      (256 * (b off % 256) + b (off + 1) % 256)
      + (256 * (b (off + 2) % 256) + b (off + 3) % 256)
      + (256 * (b (off + 4) % 256) + b (off + 5) % 256)
      + (256 * (b (off + 6) % 256) + b (off + 7) % 256)
      + (256 * (b (off + 8) % 256) + b (off + 9) % 256)
      + (256 * (b (off + 10) % 256) + b (off + 11) % 256)
      + (256 * (b (off + 12) % 256) + b (off + 13) % 256)
      + (256 * (b (off + 14) % 256) + b (off + 15) % 256)
      + (256 * (b (off + 16) % 256) + b (off + 17) % 256)
      + (256 * (b (off + 18) % 256) + b (off + 19) % 256) := by
  simp [sum16, List.range_succ, load8, Nat.add_assoc]

/-- For a header of 20 bytes `do_checksum` stores a checksum with which the
header re-sums to zero, and touches the checksum field only. -/
theorem do_checksum_ipv4_20 (x : Buf) (iph l4 : Nat) :
    ∃ b', do_checksum x iph IPPROTO_IP 20 l4 = some b'
      ∧ ipv4_header_resum b' iph 20 = 0
      ∧ ∀ i, i ≠ iph + 10 → i ≠ iph + 11 → b' i = x i := by
  refine ⟨store16_be (store16_be x (iph + 10) 0) (iph + 10)
    (in_cksum (sum16 (store16_be x (iph + 10) 0) iph 20)), by simp [do_checksum], ?_, ?_⟩
  · unfold ipv4_header_resum
    generalize hc : in_cksum (sum16 (store16_be x (iph + 10) 0) iph 20) = c
    have hlt : c < 65536 := hc ▸ in_cksum_lt _
    have hsum : sum16 (store16_be (store16_be x (iph + 10) 0) (iph + 10) c) iph 20
        = sum16 (store16_be x (iph + 10) 0) iph 20 + c := by
      rw [sum16_20, sum16_20]
      simp [store16_be_apply, Nat.add_assoc]
      omega
    have hbound : sum16 (store16_be x (iph + 10) 0) iph 20 < 4294967296 := by
      rw [sum16_20]
      omega
    rw [hsum, ← hc]
    exact in_cksum_roundtrip _ hbound
  · intro i h1 h2
    simp [store16_be_apply, h1, h2]


/-- The checksum step shared by the IPv4 builders, for a header whose length
field is 5: the stored checksum makes the header re-sum to zero. -/
theorem checksum_step (x : Buf) (iph : Nat) (hl : ip_hl x iph = 5) :
    ∃ b', do_checksum x iph IPPROTO_IP (ip_hl x iph * 4) iph = some b'
      ∧ ip_hl b' iph = 5 ∧ ipv4_header_resum b' iph (ip_hl b' iph * 4) = 0 := by
  obtain ⟨b', h1, h2, h3⟩ := do_checksum_ipv4_20 x iph iph
  have hl' : ip_hl b' iph = 5 := by
    unfold ip_hl load8 at hl ⊢
    rw [h3 iph (by omega) (by omega)]
    exact hl
  refine ⟨b', ?_, hl', ?_⟩
  · rw [hl]
    exact h1
  · rw [hl']
    exact h2

/-- After `build_bare_ipv4` the header length field is 5. -/
theorem ip_hl_bare (e : Endian) (b : Buf) (iph : Nat) (s d : Addr) (p : Nat) :
    ip_hl (build_bare_ipv4 e b iph s d p) iph = 5 := by
  simp only [ip_hl, load8, build_bare_ipv4, store_addr_apply, store16_apply, store8_apply,
    set_lo4_apply, set_hi4_apply]
  repeat rw [if_neg (by omega)]
  simp only [if_true]
  omega

/-- A 16-bit store behind the first header byte leaves the header length
field alone. -/
theorem ip_hl_store16 (e : Endian) (x : Buf) (iph k v : Nat) (hk : 0 < k) :
    ip_hl (store16 e x (iph + k) v) iph = ip_hl x iph := by
  simp only [ip_hl, load8, store16_apply]
  rw [if_neg (by omega), if_neg (by omega)]

/-! ## Fields of the plain and the optioned frames -/

/-- A 16-bit field of a frame, from its two bytes. -/
theorem wire16_of_bytes (x : Injection) (k a b v : Nat)
    (ha : x.wire k = a) (hb : x.wire (k + 1) = b) (hv : 256 * a + b = v) :
    x.wire16 k = v := by
  simp [Injection.wire16, ha, hb, hv]

/-- What `store16` leaves for `htons x` on a little-endian host reads back, in
network order, as `x`. -/
theorem htons_little_wire16 (x : Nat) (h : x < 65536) :
    256 * (htons .little x % 256 % 256) + htons .little x / 256 % 256 % 256 = x := by
  simp only [htons, swap16_lo, swap16_hi]
  omega

/-- What `store16` leaves for `htons x` on a big-endian host reads back, in
network order, as `x`. -/
theorem htons_big_wire16 (x : Nat) (h : x < 65536) :
    256 * (htons .big x / 256 % 256 % 256) + htons .big x % 256 % 256 = x := by
  simp only [htons]
  omega

/-- The version/IHL byte after `ip_v = 4`, `ip_hl = 5` and `ip_hl = v`, whatever
the byte `c` held before: its low four bits are those of `v`. -/
theorem ihl_of_byte (x : Injection) (c v : Nat)
    (h : x.wire 14 =
      ((((4 % 16) * 16 + c % 256 % 16) % 256 % 256 / 16 * 16 + 5 % 16) % 256 % 256 / 16 * 16
        + v % 16) % 256 % 256) :
    wire_ipv4_ihl x = v % 16 := by
  unfold wire_ipv4_ihl
  simp only [SIZEOF_ETHER]
  rw [h]
  omega

/-- What `build_ipv4_optioned_frag1` returns for an `optlen` that is a multiple
of 4: the stores of the builder in their order, then the checksum `c`. -/
theorem build_ipv4_optioned_frag1_ok (e : Endian) (b : Buf) (iph : Nat) (s d : Addr)
    (p f optlen : Nat) (h4 : optlen % 4 = 0) :
    ∃ b' c, build_ipv4_optioned_frag1 e b iph s d p f optlen = .ok b'
      ∧ b' = store16_be (store16_be
          (store8 (memset (set_lo4 (store16 e (store16 e (store16 e
            (build_bare_ipv4 e b iph s d p) (iph + 6) (htons e (1 <<< IP_FLAGS_OFFSET)))
            (iph + 4) (htons e f)) (iph + 2) (htons e (20 + optlen + 8))) iph (5 + optlen))
            (iph + 20) 0x01 optlen) (iph + 20 + optlen) 0) (iph + 10) 0) (iph + 10) c := by
  simp only [build_ipv4_optioned_frag1, do_checksum, IPPROTO_IP, if_true, SIZEOF_IPV4,
    MINIMUM_FRAGMENT_SIZE, FRAGMENT_OFFSET_TO_BYTES]
  rw [if_neg (by omega)]
  exact ⟨_, _, rfl, rfl⟩

/-- The header-length and total-length fields `build_ipv4_optioned_frag1`
writes, for every `optlen` the IPv4 header allows: the total length is
20 + optlen + 8; the header length is the low four bits of 5 + optlen, which is
5 + optlen / 4 only when there are no options. -/
theorem build_ipv4_optioned_frag1_fields (e : Endian) (b : Buf) (iph : Nat) (s d : Addr)
    (p f optlen : Nat) (h4 : optlen % 4 = 0) (h40 : optlen ≤ 40) :
    ∃ b', build_ipv4_optioned_frag1 e b iph s d p f optlen = .ok b'
      ∧ ip_hl b' iph = (5 + optlen) % 16
      ∧ 256 * load8 b' (iph + 2) + load8 b' (iph + 3) = 20 + optlen + 8
      ∧ (ip_hl b' iph = 5 + optlen / 4 ↔ optlen = 0) := by
  obtain ⟨b', c, hok, hb⟩ := build_ipv4_optioned_frag1_ok e b iph s d p f optlen h4
  have hl : ip_hl b' iph = (5 + optlen) % 16 := by
    subst hb
    simp only [ip_hl, load8, store16_be_apply, store8_apply, memset_apply, set_lo4_apply]
    repeat rw [if_neg (by omega)]
    simp only [if_true]
    omega
  have h2 : load8 b' (iph + 2) = (20 + optlen + 8) / 256 := by
    subst hb
    simp only [load8, store16_be_apply, store8_apply, memset_apply, set_lo4_apply, store16_apply]
    repeat rw [if_neg (by omega)]
    simp only [if_true]
    cases e
    · simp only [htons, swap16_lo, swap16_hi]
      omega
    · simp only [htons]
      omega
  have h3 : load8 b' (iph + 3) = (20 + optlen + 8) % 256 := by
    subst hb
    simp only [load8, store16_be_apply, store8_apply, memset_apply, set_lo4_apply, store16_apply]
    repeat rw [if_neg (by omega)]
    simp only [if_true]
    cases e
    · simp only [htons, swap16_lo, swap16_hi]
      omega
    · simp only [htons]
      omega
  have ht : 256 * load8 b' (iph + 2) + load8 b' (iph + 3) = 20 + optlen + 8 := by
    rw [h2, h3]
    omega
  refine ⟨b', hok, hl, ht, ?_⟩
  rw [hl]
  omega

/-- What `build_ipv4_optioned_frag1` leaves in and behind the options area:
every one of the `optlen` option bytes is NOP, and the zero byte it writes is
at offset `20 + optlen`, the first byte behind the options. -/
theorem build_ipv4_optioned_frag1_options (e : Endian) (b : Buf) (iph : Nat) (s d : Addr)
    (p f optlen : Nat) (h4 : optlen % 4 = 0) :
    ∃ b', build_ipv4_optioned_frag1 e b iph s d p f optlen = .ok b'
      ∧ (∀ i, i < optlen → load8 b' (iph + SIZEOF_IPV4 + i) = 1)
      ∧ load8 b' (iph + SIZEOF_IPV4 + optlen) = 0 := by
  obtain ⟨b', c, hok, hb⟩ := build_ipv4_optioned_frag1_ok e b iph s d p f optlen h4
  refine ⟨b', hok, ?_, ?_⟩
  · intro i hi
    subst hb
    simp only [load8, store16_be_apply, store8_apply, memset_apply, SIZEOF_IPV4]
    repeat rw [if_neg (by omega)]
    rw [if_pos (by omega)]
  · subst hb
    simp only [load8, store16_be_apply, store8_apply, memset_apply, SIZEOF_IPV4]
    repeat rw [if_neg (by omega)]
    simp

/-- What `build_ipv6_optioned_frag1` returns for parsed addresses and a
supported `optlen`: the stores of the builder, in their order. -/
theorem build_ipv6_optioned_frag1_ok (e : Endian) (b : Buf) (ip6h : Nat) (s d : Addr)
    (p f optlen : Nat) (h6 : optlen % 8 = 6) :
    build_ipv6_optioned_frag1 e b ip6h (some s) (some d) p f optlen = .ok
      (fill_ip6_frag e
        (memset (store8 (store8 (store8 (store8
          (store_addr (store_addr (store8 (store8 (store16 e
            (store32 e b ip6h (htonl e (0x06 <<< 28))) (ip6h + 4)
              (htons e (2 + optlen + 8 + 8))) (ip6h + 7) 64) (ip6h + 6) IPPROTO_DSTOPTS)
            (ip6h + 8) 16 s) (ip6h + 24) 16 d)
          (ip6h + 40) IPPROTO_FRAGMENT) (ip6h + 40 + 1) (optlen / 8)) (ip6h + 40 + 2) 1)
          (ip6h + 40 + 2 + 1) (optlen - 2)) (ip6h + 40 + 2 + 2) 0 (optlen - 2))
        (ip6h + 40 + 2 + optlen) p f (IP6F_MORE_FRAG e)) := by
  simp only [build_ipv6_optioned_frag1, ipv6_fixed_header, bind, Except.bind, pure, Except.pure,
    SIZEOF_IPV6, SIZEOF_IP6_DEST, SIZEOF_IP6_FRAG, MINIMUM_FRAGMENT_SIZE,
    FRAGMENT_OFFSET_TO_BYTES]
  rw [if_neg (by omega)]

/-- A first frame that ends `n` bytes into the assembled layer 4 data carries
its first `n` bytes. -/
theorem slice_eq_take (x : Injection) (l4 n tot : Nat) (hlen : x.len = l4 + n)
    (htot : n ≤ tot) :
    x.slice l4 (x.len - l4) = (bytes_at x.mem l4 tot).take n := by
  obtain ⟨m, rfl⟩ : ∃ m, tot = n + m := ⟨tot - n, by omega⟩
  rw [hlen, Nat.add_sub_cancel_left, slice_eq_bytes_at x l4 n (by omega), bytes_at_add,
    List.take_left' (bytes_at_length _ _ _)]

/-- The Fragment extension of a frame whose Destination Options header says
Hdr Ext Len 1 starts 16 bytes behind the fixed header. -/
theorem fragment_header_of_bytes (x : Injection)
    (h20 : x.wire 20 = 60) (h54 : x.wire 54 = 44) (h55 : x.wire 55 = 1) :
    ipv6_fragment_header x = some (SIZEOF_ETHER + SIZEOF_IPV6 + 16) := by
  simp [ipv6_fragment_header, h20, h54, h55]

/-! ## Capture filter -/

/-- A port is printed with at most five digits. -/
theorem format_port_length (port : Nat) : (format_port port).length ≤ 5 :=
  Nat.repr_length (port % 65536) 5 (by decide) (by omega)

/-- Length of the IPv4 filter text: 61 characters of fixed text. -/
theorem filter_text_length_ipv4 (srcip dstip : String) (srcport dstport : Nat)
    (t : TEST_TYPE) (h : IS_TEST_IPV4 t.val = true) :
    (filter_text srcip dstip srcport dstport t).length
      = 61 + srcip.length + dstip.length + (format_port srcport).length
        + (format_port dstport).length := by
  have e1 : ("src " : String).length = 4 := rfl
  have e2 : (" and dst " : String).length = 9 := rfl
  have e3 : (" and (icmp or (tcp and src port " : String).length = 32 := rfl
  have e4 : (" and dst port " : String).length = 14 := rfl
  have e5 : ("))" : String).length = 2 := rfl
  simp only [filter_text, h, if_true, String.length_append, e1, e2, e3, e4, e5]
  omega

/-- Length of the IPv6 filter text: 102 characters of fixed text. -/
theorem filter_text_length_ipv6 (srcip dstip : String) (srcport dstport : Nat)
    (t : TEST_TYPE) (h : IS_TEST_IPV4 t.val = false) :
    (filter_text srcip dstip srcport dstport t).length
      = 102 + srcip.length + dstip.length + (format_port srcport).length
        + (format_port dstport).length := by
  have e1 : ("src " : String).length = 4 := rfl
  have e2 : (" and dst " : String).length = 9 := rfl
  have e3 : (" and ((icmp6 and ip6[40] != 135 and ip6[40] != 136) or (tcp and src port "
      : String).length = 73 := rfl
  have e4 : (" and dst port " : String).length = 14 := rfl
  have e5 : ("))" : String).length = 2 := rfl
  simp only [filter_text, h, String.length_append, e1, e2, e3, e4, e5]
  simp
  omega

/-- The two family macros are complementary. -/
theorem ipv6_eq_not_ipv4 (x : Nat) : IS_TEST_IPV6 x = !IS_TEST_IPV4 x := by
  unfold IS_TEST_IPV4 IS_TEST_IPV6
  by_cases h : x ≤ 10
  · have h2 : ¬ x > 10 := by omega
    simp [h, h2]
  · have h2 : x > 10 := by omega
    simp [h, h2]

/-- With addresses no longer than a textual address of the family, the filter
text has at most 202 characters. -/
theorem filter_text_length_le (t : TEST_TYPE) (srcip dstip : String) (srcport dstport : Nat)
    (h4 : IS_TEST_IPV4 t.val = true → srcip.length ≤ 15 ∧ dstip.length ≤ 15)
    (h6 : IS_TEST_IPV6 t.val = true → srcip.length ≤ 45 ∧ dstip.length ≤ 45) :
    (filter_text srcip dstip srcport dstport t).length ≤ 202 := by
  have hs := format_port_length srcport
  have hd := format_port_length dstport
  by_cases h : IS_TEST_IPV4 t.val = true
  · rw [filter_text_length_ipv4 _ _ _ _ _ h]
    have := h4 h
    omega
  · have h' : IS_TEST_IPV4 t.val = false := by simpa using h
    rw [filter_text_length_ipv6 _ _ _ _ _ h']
    have := h6 (by rw [ipv6_eq_not_ipv4, h']; rfl)
    omega

/-- A filter text of at most 202 characters passes the overflow check of
`receive_a_packet`. -/
theorem receive_a_packet_filter_ok (t : TEST_TYPE) (srcip dstip : String)
    (srcport dstport : Nat)
    (h : (filter_text srcip dstip srcport dstport t).length ≤ 202) :
    receive_a_packet_filter srcip dstip srcport dstport t
      = .ok (filter_text srcip dstip srcport dstport t) := by
  unfold receive_a_packet_filter
  simp only [FILTER_STR_LEN]
  rw [if_neg (by omega)]

/-- The bound of 202 characters is reached: two IPv6 addresses of 45
characters and a port of five digits. -/
theorem filter_text_longest :
    (filter_text "ffff:ffff:ffff:ffff:ffff:ffff:255.255.255.255"
      "ffff:ffff:ffff:ffff:ffff:ffff:255.255.255.255" 65535 44128
      .TEST_FRAG_IPV6_TCP).length = 202 := rfl

/-! ## Test names -/

/-- A name that is not in the table leaves the test type as it was. -/
theorem test_lookup_absent (optarg : String) (names : List String) (x : Nat) (t : TEST_TYPE)
    (h : optarg ∉ names) : test_lookup optarg names x t = t := by
  induction names generalizing x with
  | nil => rfl
  | cons n rest ih =>
    have h1 : optarg ≠ n := fun he => h (he ▸ List.mem_cons_self _ _)
    have h2 : optarg ∉ rest := fun hm => h (List.mem_cons_of_mem _ hm)
    unfold test_lookup
    rw [if_neg h1]
    exact ih (x + 1) h2

/-! ## What the builders write -/

/-- What `build_tcp_syn` returns: the stores of the builder in their order,
then the checksum `c` in the checksum field. -/
theorem build_tcp_syn_ok (e : Endian) (b : Buf) (iph tcph sp dp seq : Nat) :
    ∃ c, build_tcp_syn e b iph tcph sp dp seq = .ok
      (store16_be (store16_be
        (store16 e (store16 e (store16 e (store8 (set_hi4 (set_lo4 (store32 e (store32 e
          (store16 e (store16 e b tcph (htons e sp)) (tcph + 2) (htons e dp))
          (tcph + 4) (htonl e seq)) (tcph + 8) 0) (tcph + 12) 0) (tcph + 12) 5) (tcph + 13) 2)
          (tcph + 14) 65535) (tcph + 16) 0) (tcph + 18) 0) (tcph + 16) 0) (tcph + 16) c) := by
  simp only [build_tcp_syn, do_checksum, IPPROTO_TCP, IPPROTO_IP, IPPROTO_ICMP, IPPROTO_ICMPV6,
    SIZEOF_TCP, TH_SYN, TCP_WINDOW]
  simp only [show ¬ (6 = 0) by decide, show ¬ (6 = 1) by decide, if_false, true_or, if_true]
  exact ⟨_, rfl⟩

/-- The four bytes of a 32-bit value put together from them. -/
theorem bytes32 (a b c d : Nat) (ha : a < 256) (hb : b < 256) (hc : c < 256) (hd : d < 256) :
    (a * 16777216 + b * 65536 + c * 256 + d) % 256 = d
      ∧ (a * 16777216 + b * 65536 + c * 256 + d) / 256 % 256 = c
      ∧ (a * 16777216 + b * 65536 + c * 256 + d) / 65536 % 256 = b
      ∧ (a * 16777216 + b * 65536 + c * 256 + d) / 16777216 % 256 = a := by
  refine ⟨by omega, by omega, by omega, by omega⟩

/-- On a little-endian host the four bytes `store32` leaves for `htonl x` are the bytes of `x` in network order. -/
theorem htonl_little_bytes (x : Nat) :
    htonl .little x % 256 = x / 16777216 % 256 ∧ htonl .little x / 256 % 256 = x / 65536 % 256
      ∧ htonl .little x / 65536 % 256 = x / 256 % 256
      ∧ htonl .little x / 16777216 % 256 = x % 256 := by
  simp only [htonl]
  exact bytes32 (x % 256) (x / 256 % 256) (x / 65536 % 256) (x / 16777216 % 256)
    (Nat.mod_lt _ (by decide)) (Nat.mod_lt _ (by decide)) (Nat.mod_lt _ (by decide))
    (Nat.mod_lt _ (by decide))

/-- What `build_icmp_ping` returns: the stores of the builder in their order,
then the checksum `c` in the checksum field. -/
theorem build_icmp_ping_ok (e : Endian) (b : Buf) (iph icmph n : Nat) :
    ∃ c, build_icmp_ping e b iph icmph n = .ok
      (store16_be (store16_be
        (memset (store16 e (store16 e (store16 e (store8 (store8 b icmph 8) (icmph + 1) 0)
          (icmph + 2) 0) (icmph + 4) (htons e 44128)) (icmph + 6) (htons e 1))
          (icmph + 8) 0x01 n) (icmph + 2) 0) (icmph + 2) c) := by
  simp only [build_icmp_ping, do_checksum, IPPROTO_IP, IPPROTO_ICMP, ICMP_ECHO, SOURCE_PORT,
    SIZEOF_PING]
  simp only [show ¬ (1 = 0) by decide, if_false, if_true]
  exact ⟨_, rfl⟩

/-- What `build_icmp6_ping` returns: the stores of the builder in their order,
then the checksum `c` in the checksum field. -/
theorem build_icmp6_ping_ok (e : Endian) (b : Buf) (iph icmp6h n : Nat) :
    ∃ c, build_icmp6_ping e b iph icmp6h n = .ok
      (store16_be (store16_be
        (memset (store16 e (store16 e (store16 e (store8 (store8 b icmp6h 128) (icmp6h + 1) 0)
          (icmp6h + 2) 0) (icmp6h + 4) (htons e 44128)) (icmp6h + 6) (htons e 1))
          (icmp6h + 8) 0x01 n) (icmp6h + 2) 0) (icmp6h + 2) c) := by
  simp only [build_icmp6_ping, do_checksum, IPPROTO_IP, IPPROTO_ICMP, IPPROTO_ICMPV6,
    IPPROTO_TCP, ICMP6_ECHO_REQUEST, SOURCE_PORT, SIZEOF_ICMP6]
  simp only [show ¬ (58 = 0) by decide, show ¬ (58 = 1) by decide, show ¬ (58 = 6) by decide,
    if_false, or_true, if_true]
  exact ⟨_, rfl⟩

/-- The bytes of an echo header and payload as the two echo builders leave
them, for the type byte `t`. -/
theorem echo_fields (e : Endian) (b : Buf) (h t n c : Nat) (ht : t < 256) :
    let b' := store16_be (store16_be
        (memset (store16 e (store16 e (store16 e (store8 (store8 b h t) (h + 1) 0)
          (h + 2) 0) (h + 4) (htons e 44128)) (h + 6) (htons e 1))
          (h + 8) 0x01 n) (h + 2) 0) (h + 2) c
    bytes_at b' h 2 = [t, 0] ∧ bytes_at b' (h + 4) 4 = [0xAC, 0x60, 0, 1]
      ∧ (∀ i, i < n → load8 b' (h + 8 + i) = 1)
      ∧ (∀ i, i < h ∨ h + 8 + n ≤ i → b' i = b i) := by
  intro b'
  refine ⟨?_, ?_, ?_, ?_⟩
  · cases e <;>
    simp [b', bytes_at, List.range_succ, load8, store16_be_apply, store16_apply, store8_apply,
        memset_apply, Nat.add_assoc, Nat.mod_eq_of_lt ht]
  · cases e <;>
    simp [b', bytes_at, List.range_succ, load8, store16_be_apply, store16_apply, store8_apply,
        memset_apply, Nat.add_assoc, htons]
  · intro i hi
    simp only [b', load8, store16_be_apply, memset_apply]
    repeat rw [if_neg (by omega)]
    rw [if_pos (by omega)]
  · intro i hi
    simp only [b', store16_be_apply, store16_apply, store8_apply, memset_apply]
    repeat rw [if_neg (by omega)]

/-- The builder `build_ethernet` writes only the 14 bytes of the Ethernet
header. -/
theorem build_ethernet_frame (e : Endian) (b : Buf) (ethh : Nat) (lm : Addr)
    (dm : Option Addr) (et : Nat) (b' : Buf) (h : build_ethernet e b ethh lm dm et = .ok b')
    (i : Nat) (hi : i < ethh ∨ ethh + 14 ≤ i) : b' i = b i := by
  cases dm with
  | none => exact absurd h (by simp [build_ethernet])
  | some m =>
    simp only [build_ethernet, Except.ok.injEq] at h
    subst h
    simp only [store16_apply, store_addr_apply]
    repeat rw [if_neg (by omega)]

/-- The builder `build_bare_ipv4` writes only the 20 bytes of the IPv4 header. -/
theorem build_bare_ipv4_frame (e : Endian) (b : Buf) (iph : Nat) (s d : Addr) (p : Nat)
    (i : Nat) (hi : i < iph ∨ iph + 20 ≤ i) : build_bare_ipv4 e b iph s d p i = b i := by
  simp only [build_bare_ipv4, store16_apply, store_addr_apply, store8_apply, set_lo4_apply,
    set_hi4_apply]
  repeat rw [if_neg (by omega)]

/-- The builder `build_ipv4` writes only the 20 bytes of the IPv4 header. -/
theorem build_ipv4_frame (e : Endian) (b : Buf) (iph : Nat) (s d : Addr) (p : Nat) (b' : Buf)
    (h : build_ipv4 e b iph s d p = .ok b')
    (i : Nat) (hi : i < iph ∨ iph + 20 ≤ i) : b' i = b i := by
  simp only [build_ipv4, do_checksum, IPPROTO_IP, if_true, Except.ok.injEq] at h
  subst h
  simp only [store16_be_apply]
  repeat rw [if_neg (by omega)]
  exact build_bare_ipv4_frame e b iph s d p i hi

/-- The builder `build_ipv4_short_frag1` writes only the 20 bytes of the IPv4
header. -/
theorem build_ipv4_short_frag1_frame (e : Endian) (b : Buf) (iph : Nat) (s d : Addr)
    (p f : Nat) (b' : Buf) (h : build_ipv4_short_frag1 e b iph s d p f = .ok b')
    (i : Nat) (hi : i < iph ∨ iph + 20 ≤ i) : b' i = b i := by
  simp only [build_ipv4_short_frag1, do_checksum, IPPROTO_IP, if_true, Except.ok.injEq] at h
  subst h
  simp only [store16_be_apply, store16_apply]
  repeat rw [if_neg (by omega)]
  exact build_bare_ipv4_frame e b iph s d p i hi

/-- The builder `build_ipv4_optioned_frag1` writes the 20 bytes of the IPv4
header, the `optlen` option bytes and one byte more. -/
theorem build_ipv4_optioned_frag1_frame (e : Endian) (b : Buf) (iph : Nat) (s d : Addr)
    (p f optlen : Nat) (b' : Buf)
    (h : build_ipv4_optioned_frag1 e b iph s d p f optlen = .ok b')
    (i : Nat) (hi : i < iph ∨ iph + 20 + optlen + 1 ≤ i) : b' i = b i := by
  by_cases h4 : optlen % 4 = 0
  · obtain ⟨b'', c, hok, hb⟩ := build_ipv4_optioned_frag1_ok e b iph s d p f optlen h4
    rw [hok] at h
    injection h with h
    subst h
    subst hb
    simp only [store16_be_apply, store8_apply, memset_apply, set_lo4_apply, store16_apply]
    repeat rw [if_neg (by omega)]
    exact build_bare_ipv4_frame e b iph s d p i (by omega)
  · simp only [build_ipv4_optioned_frag1] at h
    rw [if_pos h4] at h
    exact absurd h (by simp)

/-- The builder `build_tcp_syn` writes only the 20 bytes of the TCP header. -/
theorem build_tcp_syn_frame (e : Endian) (b : Buf) (iph tcph sp dp seq : Nat) (b' : Buf)
    (h : build_tcp_syn e b iph tcph sp dp seq = .ok b')
    (i : Nat) (hi : i < tcph ∨ tcph + 20 ≤ i) : b' i = b i := by
  obtain ⟨c, hok⟩ := build_tcp_syn_ok e b iph tcph sp dp seq
  rw [hok] at h
  injection h with h
  subst h
  simp only [store16_be_apply, store16_apply, store8_apply, set_hi4_apply, set_lo4_apply,
    store32_apply]
  repeat rw [if_neg (by omega)]

/-- The builder `build_icmp_ping` writes only the 8 bytes of the echo header
and the `n` payload bytes. -/
theorem build_icmp_ping_frame (e : Endian) (b : Buf) (iph h n : Nat) (b' : Buf)
    (hb : build_icmp_ping e b iph h n = .ok b')
    (i : Nat) (hi : i < h ∨ h + 8 + n ≤ i) : b' i = b i := by
  obtain ⟨c, hok⟩ := build_icmp_ping_ok e b iph h n
  rw [hok] at hb
  injection hb with hb
  subst hb
  exact (echo_fields e b h 8 n c (by decide)).2.2.2 i hi

/-- The builder `build_icmp6_ping` writes only the 8 bytes of the echo header
and the `n` payload bytes. -/
theorem build_icmp6_ping_frame (e : Endian) (b : Buf) (iph h n : Nat) (b' : Buf)
    (hb : build_icmp6_ping e b iph h n = .ok b')
    (i : Nat) (hi : i < h ∨ h + 8 + n ≤ i) : b' i = b i := by
  obtain ⟨c, hok⟩ := build_icmp6_ping_ok e b iph h n
  rw [hok] at hb
  injection hb with hb
  subst hb
  exact (echo_fields e b h 128 n c (by decide)).2.2.2 i hi

/-- The common start of the IPv6 builders writes only the 40 bytes of the
fixed header. -/
theorem ipv6_fixed_header_frame (e : Endian) (b : Buf) (ip6h : Nat) (s d : Option Addr)
    (nxt plen : Nat) (b' : Buf) (h : ipv6_fixed_header e b ip6h s d nxt plen = .ok b')
    (i : Nat) (hi : i < ip6h ∨ ip6h + 40 ≤ i) : b' i = b i := by
  cases s with
  | none => exact absurd h (by simp [ipv6_fixed_header])
  | some s =>
    cases d with
    | none => exact absurd h (by simp [ipv6_fixed_header])
    | some d =>
      simp only [ipv6_fixed_header, Except.ok.injEq] at h
      subst h
      simp only [store_addr_apply, store8_apply, store16_apply, store32_apply]
      repeat rw [if_neg (by omega)]

/-- The four assignments to the Fragment extension write only its 8 bytes. -/
theorem fill_ip6_frag_frame (e : Endian) (b : Buf) (fragh p f o : Nat)
    (i : Nat) (hi : i < fragh ∨ fragh + 8 ≤ i) : fill_ip6_frag e b fragh p f o i = b i := by
  simp only [fill_ip6_frag, store8_apply, store16_apply, store32_apply]
  repeat rw [if_neg (by omega)]

/-- The builder `build_ipv6` writes only the 40 bytes of the IPv6 header. -/
theorem build_ipv6_frame (e : Endian) (b : Buf) (ip6h : Nat) (s d : Option Addr)
    (p n : Nat) (b' : Buf) (h : build_ipv6 e b ip6h s d p n = .ok b')
    (i : Nat) (hi : i < ip6h ∨ ip6h + 40 ≤ i) : b' i = b i :=
  ipv6_fixed_header_frame e b ip6h s d p n b' h i hi

/-- The builder `build_ipv6_short_frag1` writes only the 40 bytes of the IPv6
header and the 8 bytes of the Fragment extension. -/
theorem build_ipv6_short_frag1_frame (e : Endian) (b : Buf) (ip6h : Nat) (s d : Option Addr)
    (p f : Nat) (b' : Buf) (h : build_ipv6_short_frag1 e b ip6h s d p f = .ok b')
    (i : Nat) (hi : i < ip6h ∨ ip6h + 48 ≤ i) : b' i = b i := by
  simp only [build_ipv6_short_frag1, bind, Except.bind, pure, Except.pure] at h
  split at h
  · exact absurd h (by simp)
  · rename_i b1 h1
    injection h with h
    subst h
    rw [fill_ip6_frag_frame _ _ _ _ _ _ i (by simp only [SIZEOF_IPV6]; omega)]
    exact ipv6_fixed_header_frame _ _ _ _ _ _ _ _ h1 i (by omega)

/-- The builder `build_ipv6_optioned_frag1` writes only the 40 bytes of the
IPv6 header, the `2 + optlen` bytes of the Destination Options header and the
8 bytes of the Fragment extension. -/
theorem build_ipv6_optioned_frag1_frame (e : Endian) (b : Buf) (ip6h : Nat)
    (s d : Option Addr) (p f optlen : Nat) (b' : Buf)
    (h : build_ipv6_optioned_frag1 e b ip6h s d p f optlen = .ok b')
    (i : Nat) (hi : i < ip6h ∨ ip6h + 40 + 2 + optlen + 8 ≤ i) : b' i = b i := by
  simp only [build_ipv6_optioned_frag1, bind, Except.bind, pure, Except.pure] at h
  split at h
  · exact absurd h (by simp)
  · rename_i b1 h1
    split at h
    · exact absurd h (by simp)
    · rename_i hopt
      injection h with h
      subst h
      rw [fill_ip6_frag_frame _ _ _ _ _ _ i
        (by simp only [SIZEOF_IPV6, SIZEOF_IP6_DEST]; omega)]
      simp only [memset_apply, store8_apply, SIZEOF_IPV6, SIZEOF_IP6_DEST]
      repeat rw [if_neg (by omega)]
      exact ipv6_fixed_header_frame _ _ _ _ _ _ _ _ h1 i (by omega)

/-- Bytes outside the destination of a `memmove` are left alone. -/
theorem bytes_at_memmove_outside (b : Buf) (dst src n off m : Nat)
    (h : off + m ≤ dst ∨ dst + n ≤ off) :
    bytes_at (memmove b dst src n) off m = bytes_at b off m := by
  apply bytes_at_congr
  intro i h1 h2
  rw [memmove_apply, if_neg (by omega)]

/-! ## The recipes stay inside their buffers -/

/-- The recipe `do_ipv4_syn` stays inside its buffer of 54 bytes. -/
theorem do_ipv4_syn_within (e : Endian) (mem : Buf) (lm m : Addr) (s4 d4 : Addr) (dport seq : Nat) :
    ∃ frames, do_ipv4_syn e mem lm (some m) s4 d4 dport seq = .ok frames
      ∧ ∀ x ∈ frames, x.within 54 mem := by
  have key : ∃ b1 b2 b3,
      build_ethernet e mem 0 lm (some m) ETHERTYPE_IP = .ok b1
      ∧ build_ipv4 e b1 14 s4 d4 IPPROTO_TCP = .ok b2
      ∧ build_tcp_syn e b2 14 34 SOURCE_PORT dport seq = .ok b3
      ∧ do_ipv4_syn e mem lm (some m) s4 d4 dport seq = .ok [⟨b3, 54⟩] := by
    cases e
    all_goals exact ⟨_, _, _, rfl, rfl, rfl, rfl⟩
  obtain ⟨b1, b2, b3, h1, h2, h3, hR⟩ := key
  have f1 : ∀ i, 54 ≤ i → b1 i = mem i := fun i hi =>
    build_ethernet_frame _ _ _ _ _ _ _ h1 i (by omega)
  have f2 : ∀ i, 54 ≤ i → b2 i = mem i := fun i hi =>
    (build_ipv4_frame _ _ _ _ _ _ _ h2 i (by omega)).trans (f1 i hi)
  have f3 : ∀ i, 54 ≤ i → b3 i = mem i := fun i hi =>
    (build_tcp_syn_frame _ _ _ _ _ _ _ _ h3 i (by omega)).trans (f2 i hi)
  refine ⟨_, hR, ?_⟩
  intro x hx
  simp only [List.mem_cons, List.mem_singleton, List.not_mem_nil, or_false] at hx
  subst hx
  exact ⟨by dsimp only; omega, f3⟩

/-- The recipe `do_ipv6_syn` stays inside its buffer of 74 bytes. -/
theorem do_ipv6_syn_within (e : Endian) (mem : Buf) (lm m : Addr) (s d : Addr) (dport seq : Nat) :
    ∃ frames, do_ipv6_syn e mem lm (some m) (some s) (some d) dport seq = .ok frames
      ∧ ∀ x ∈ frames, x.within 74 mem := by
  have key : ∃ b1 b2 b3,
      build_ethernet e mem 0 lm (some m) ETHERTYPE_IPV6 = .ok b1
      ∧ build_ipv6 e b1 14 (some s) (some d) IPPROTO_TCP 20 = .ok b2
      ∧ build_tcp_syn e b2 14 54 SOURCE_PORT dport seq = .ok b3
      ∧ do_ipv6_syn e mem lm (some m) (some s) (some d) dport seq = .ok [⟨b3, 74⟩] := by
    cases e
    all_goals exact ⟨_, _, _, rfl, rfl, rfl, rfl⟩
  obtain ⟨b1, b2, b3, h1, h2, h3, hR⟩ := key
  have f1 : ∀ i, 74 ≤ i → b1 i = mem i := fun i hi =>
    build_ethernet_frame _ _ _ _ _ _ _ h1 i (by omega)
  have f2 : ∀ i, 74 ≤ i → b2 i = mem i := fun i hi =>
    (build_ipv6_frame _ _ _ _ _ _ _ _ h2 i (by omega)).trans (f1 i hi)
  have f3 : ∀ i, 74 ≤ i → b3 i = mem i := fun i hi =>
    (build_tcp_syn_frame _ _ _ _ _ _ _ _ h3 i (by omega)).trans (f2 i hi)
  refine ⟨_, hR, ?_⟩
  intro x hx
  simp only [List.mem_cons, List.mem_singleton, List.not_mem_nil, or_false] at hx
  subst hx
  exact ⟨by dsimp only; omega, f3⟩

/-- The recipe `do_ipv4_short_tcp_frag` stays inside its buffer of 1500 bytes. -/
theorem do_ipv4_short_tcp_frag_within (e : Endian) (mem : Buf) (lm m : Addr) (s4 d4 : Addr) (dport fragid seq : Nat) :
    ∃ frames, do_ipv4_short_tcp_frag e mem lm (some m) s4 d4 dport fragid seq = .ok frames
      ∧ ∀ x ∈ frames, x.within 1500 mem := by
  have key : ∃ b1 b2 b3 b4,
      build_ethernet e mem 0 lm (some m) ETHERTYPE_IP = .ok b1
      ∧ build_ipv4_short_frag1 e b1 14 s4 d4 IPPROTO_TCP (fragid % 65536) = .ok b2
      ∧ build_tcp_syn e b2 14 34 SOURCE_PORT dport seq = .ok b3
      ∧ build_ipv4_frag2 e b3 14 s4 d4 IPPROTO_TCP (fragid % 65536) 12 = .ok b4
      ∧ do_ipv4_short_tcp_frag e mem lm (some m) s4 d4 dport fragid seq = .ok [⟨b3, 42⟩, ⟨memmove b4 34 42 12, 46⟩] := by
    cases e
    all_goals exact ⟨_, _, _, _, rfl, rfl, rfl, rfl, rfl⟩
  obtain ⟨b1, b2, b3, b4, h1, h2, h3, h4, hR⟩ := key
  have f1 : ∀ i, 1500 ≤ i → b1 i = mem i := fun i hi =>
    build_ethernet_frame _ _ _ _ _ _ _ h1 i (by omega)
  have f2 : ∀ i, 1500 ≤ i → b2 i = mem i := fun i hi =>
    (build_ipv4_short_frag1_frame _ _ _ _ _ _ _ _ h2 i (by omega)).trans (f1 i hi)
  have f3 : ∀ i, 1500 ≤ i → b3 i = mem i := fun i hi =>
    (build_tcp_syn_frame _ _ _ _ _ _ _ _ h3 i (by omega)).trans (f2 i hi)
  have f4 : ∀ i, 1500 ≤ i → b4 i = mem i := fun i hi =>
    (build_ipv4_frag2_frame _ _ _ _ _ _ _ _ _ h4 i (by omega)).trans (f3 i hi)
  refine ⟨_, hR, ?_⟩
  intro x hx
  simp only [List.mem_cons, List.mem_singleton, List.not_mem_nil, or_false] at hx
  rcases hx with rfl | rfl
  · exact ⟨by dsimp only; omega, f3⟩
  · refine ⟨by dsimp only; omega, fun i hi => ?_⟩
    show memmove b4 34 42 12 i = mem i
    rw [memmove_apply, if_neg (by omega)]
    exact f4 i hi

/-- The recipe `do_ipv4_short_icmp_frag` stays inside its buffer of 1500 bytes. -/
theorem do_ipv4_short_icmp_frag_within (e : Endian) (mem : Buf) (lm m : Addr) (s4 d4 : Addr) (fragid : Nat) :
    ∃ frames, do_ipv4_short_icmp_frag e mem lm (some m) s4 d4 fragid = .ok frames
      ∧ ∀ x ∈ frames, x.within 1500 mem := by
  have key : ∃ b1 b2 b3 b4,
      build_ethernet e mem 0 lm (some m) ETHERTYPE_IP = .ok b1
      ∧ build_ipv4_short_frag1 e b1 14 s4 d4 IPPROTO_ICMP (fragid % 65536) = .ok b2
      ∧ build_icmp_ping e b2 14 34 40 = .ok b3
      ∧ build_ipv4_frag2 e b3 14 s4 d4 IPPROTO_ICMP (fragid % 65536) 40 = .ok b4
      ∧ do_ipv4_short_icmp_frag e mem lm (some m) s4 d4 fragid = .ok [⟨b3, 42⟩, ⟨memmove b4 34 42 40, 74⟩] := by
    cases e
    all_goals exact ⟨_, _, _, _, rfl, rfl, rfl, rfl, rfl⟩
  obtain ⟨b1, b2, b3, b4, h1, h2, h3, h4, hR⟩ := key
  have f1 : ∀ i, 1500 ≤ i → b1 i = mem i := fun i hi =>
    build_ethernet_frame _ _ _ _ _ _ _ h1 i (by omega)
  have f2 : ∀ i, 1500 ≤ i → b2 i = mem i := fun i hi =>
    (build_ipv4_short_frag1_frame _ _ _ _ _ _ _ _ h2 i (by omega)).trans (f1 i hi)
  have f3 : ∀ i, 1500 ≤ i → b3 i = mem i := fun i hi =>
    (build_icmp_ping_frame _ _ _ _ _ _ h3 i (by omega)).trans (f2 i hi)
  have f4 : ∀ i, 1500 ≤ i → b4 i = mem i := fun i hi =>
    (build_ipv4_frag2_frame _ _ _ _ _ _ _ _ _ h4 i (by omega)).trans (f3 i hi)
  refine ⟨_, hR, ?_⟩
  intro x hx
  simp only [List.mem_cons, List.mem_singleton, List.not_mem_nil, or_false] at hx
  rcases hx with rfl | rfl
  · exact ⟨by dsimp only; omega, f3⟩
  · refine ⟨by dsimp only; omega, fun i hi => ?_⟩
    show memmove b4 34 42 40 i = mem i
    rw [memmove_apply, if_neg (by omega)]
    exact f4 i hi

/-- The recipe `do_ipv4_optioned_tcp_frag` stays inside its buffer of 1500 bytes. -/
theorem do_ipv4_optioned_tcp_frag_within (e : Endian) (mem : Buf) (lm m : Addr) (s4 d4 : Addr) (dport fragid seq : Nat) :
    ∃ frames, do_ipv4_optioned_tcp_frag e mem lm (some m) s4 d4 dport fragid seq = .ok frames
      ∧ ∀ x ∈ frames, x.within 1500 mem := by
  have key : ∃ b1 b2 b3 b4,
      build_ethernet e mem 0 lm (some m) ETHERTYPE_IP = .ok b1
      ∧ build_ipv4_optioned_frag1 e b1 14 s4 d4 IPPROTO_TCP (fragid % 65536) 40 = .ok b2
      ∧ build_tcp_syn e b2 14 74 SOURCE_PORT dport seq = .ok b3
      ∧ build_ipv4_frag2 e b3 14 s4 d4 IPPROTO_TCP (fragid % 65536) 12 = .ok b4
      ∧ do_ipv4_optioned_tcp_frag e mem lm (some m) s4 d4 dport fragid seq = .ok [⟨b3, 82⟩, ⟨memmove b4 34 82 12, 46⟩] := by
    cases e
    all_goals exact ⟨_, _, _, _, rfl, rfl, rfl, rfl, rfl⟩
  obtain ⟨b1, b2, b3, b4, h1, h2, h3, h4, hR⟩ := key
  have f1 : ∀ i, 1500 ≤ i → b1 i = mem i := fun i hi =>
    build_ethernet_frame _ _ _ _ _ _ _ h1 i (by omega)
  have f2 : ∀ i, 1500 ≤ i → b2 i = mem i := fun i hi =>
    (build_ipv4_optioned_frag1_frame _ _ _ _ _ _ _ _ _ h2 i (by omega)).trans (f1 i hi)
  have f3 : ∀ i, 1500 ≤ i → b3 i = mem i := fun i hi =>
    (build_tcp_syn_frame _ _ _ _ _ _ _ _ h3 i (by omega)).trans (f2 i hi)
  have f4 : ∀ i, 1500 ≤ i → b4 i = mem i := fun i hi =>
    (build_ipv4_frag2_frame _ _ _ _ _ _ _ _ _ h4 i (by omega)).trans (f3 i hi)
  refine ⟨_, hR, ?_⟩
  intro x hx
  simp only [List.mem_cons, List.mem_singleton, List.not_mem_nil, or_false] at hx
  rcases hx with rfl | rfl
  · exact ⟨by dsimp only; omega, f3⟩
  · refine ⟨by dsimp only; omega, fun i hi => ?_⟩
    show memmove b4 34 82 12 i = mem i
    rw [memmove_apply, if_neg (by omega)]
    exact f4 i hi

/-- The recipe `do_ipv4_optioned_icmp_frag` stays inside its buffer of 1500 bytes. -/
theorem do_ipv4_optioned_icmp_frag_within (e : Endian) (mem : Buf) (lm m : Addr) (s4 d4 : Addr) (fragid : Nat) :
    ∃ frames, do_ipv4_optioned_icmp_frag e mem lm (some m) s4 d4 fragid = .ok frames
      ∧ ∀ x ∈ frames, x.within 1500 mem := by
  have key : ∃ b1 b2 b3 b4,
      build_ethernet e mem 0 lm (some m) ETHERTYPE_IP = .ok b1
      ∧ build_ipv4_optioned_frag1 e b1 14 s4 d4 IPPROTO_ICMP (fragid % 65536) 40 = .ok b2
      ∧ build_icmp_ping e b2 14 74 40 = .ok b3
      ∧ build_ipv4_frag2 e b3 14 s4 d4 IPPROTO_ICMP (fragid % 65536) 40 = .ok b4
      ∧ do_ipv4_optioned_icmp_frag e mem lm (some m) s4 d4 fragid = .ok [⟨b3, 82⟩, ⟨memmove b4 34 82 40, 82⟩] := by
    cases e
    all_goals exact ⟨_, _, _, _, rfl, rfl, rfl, rfl, rfl⟩
  obtain ⟨b1, b2, b3, b4, h1, h2, h3, h4, hR⟩ := key
  have f1 : ∀ i, 1500 ≤ i → b1 i = mem i := fun i hi =>
    build_ethernet_frame _ _ _ _ _ _ _ h1 i (by omega)
  have f2 : ∀ i, 1500 ≤ i → b2 i = mem i := fun i hi =>
    (build_ipv4_optioned_frag1_frame _ _ _ _ _ _ _ _ _ h2 i (by omega)).trans (f1 i hi)
  have f3 : ∀ i, 1500 ≤ i → b3 i = mem i := fun i hi =>
    (build_icmp_ping_frame _ _ _ _ _ _ h3 i (by omega)).trans (f2 i hi)
  have f4 : ∀ i, 1500 ≤ i → b4 i = mem i := fun i hi =>
    (build_ipv4_frag2_frame _ _ _ _ _ _ _ _ _ h4 i (by omega)).trans (f3 i hi)
  refine ⟨_, hR, ?_⟩
  intro x hx
  simp only [List.mem_cons, List.mem_singleton, List.not_mem_nil, or_false] at hx
  rcases hx with rfl | rfl
  · exact ⟨by dsimp only; omega, f3⟩
  · refine ⟨by dsimp only; omega, fun i hi => ?_⟩
    show memmove b4 34 82 40 i = mem i
    rw [memmove_apply, if_neg (by omega)]
    exact f4 i hi

/-- The recipe `do_ipv6_short_tcp_frag` stays inside its buffer of 1500 bytes. -/
theorem do_ipv6_short_tcp_frag_within (e : Endian) (mem : Buf) (lm m : Addr) (s d : Addr) (dport fragid seq : Nat) :
    ∃ frames, do_ipv6_short_tcp_frag e mem lm (some m) (some s) (some d) dport fragid seq = .ok frames
      ∧ ∀ x ∈ frames, x.within 1500 mem := by
  have key : ∃ b1 b2 b3 b4,
      build_ethernet e mem 0 lm (some m) ETHERTYPE_IPV6 = .ok b1
      ∧ build_ipv6_short_frag1 e b1 14 (some s) (some d) IPPROTO_TCP (fragid % 65536) = .ok b2
      ∧ build_tcp_syn e b2 14 62 SOURCE_PORT dport seq = .ok b3
      ∧ build_ipv6_frag2 e b3 14 (some s) (some d) IPPROTO_TCP (fragid % 65536) 12 = .ok b4
      ∧ do_ipv6_short_tcp_frag e mem lm (some m) (some s) (some d) dport fragid seq = .ok [⟨b3, 70⟩, ⟨memmove b4 62 70 12, 74⟩] := by
    cases e
    all_goals exact ⟨_, _, _, _, rfl, rfl, rfl, rfl, rfl⟩
  obtain ⟨b1, b2, b3, b4, h1, h2, h3, h4, hR⟩ := key
  have f1 : ∀ i, 1500 ≤ i → b1 i = mem i := fun i hi =>
    build_ethernet_frame _ _ _ _ _ _ _ h1 i (by omega)
  have f2 : ∀ i, 1500 ≤ i → b2 i = mem i := fun i hi =>
    (build_ipv6_short_frag1_frame _ _ _ _ _ _ _ _ h2 i (by omega)).trans (f1 i hi)
  have f3 : ∀ i, 1500 ≤ i → b3 i = mem i := fun i hi =>
    (build_tcp_syn_frame _ _ _ _ _ _ _ _ h3 i (by omega)).trans (f2 i hi)
  have f4 : ∀ i, 1500 ≤ i → b4 i = mem i := fun i hi =>
    (build_ipv6_frag2_frame _ _ _ _ _ _ _ _ _ h4 i (by omega)).trans (f3 i hi)
  refine ⟨_, hR, ?_⟩
  intro x hx
  simp only [List.mem_cons, List.mem_singleton, List.not_mem_nil, or_false] at hx
  rcases hx with rfl | rfl
  · exact ⟨by dsimp only; omega, f3⟩
  · refine ⟨by dsimp only; omega, fun i hi => ?_⟩
    show memmove b4 62 70 12 i = mem i
    rw [memmove_apply, if_neg (by omega)]
    exact f4 i hi

/-- The recipe `do_ipv6_short_icmp_frag` stays inside its buffer of 1500 bytes. -/
theorem do_ipv6_short_icmp_frag_within (e : Endian) (mem : Buf) (lm m : Addr) (s d : Addr) (fragid : Nat) :
    ∃ frames, do_ipv6_short_icmp_frag e mem lm (some m) (some s) (some d) fragid = .ok frames
      ∧ ∀ x ∈ frames, x.within 1500 mem := by
  have key : ∃ b1 b2 b3 b4,
      build_ethernet e mem 0 lm (some m) ETHERTYPE_IPV6 = .ok b1
      ∧ build_ipv6_short_frag1 e b1 14 (some s) (some d) IPPROTO_ICMPV6 (fragid % 65536) = .ok b2
      ∧ build_icmp6_ping e b2 14 62 40 = .ok b3
      ∧ build_ipv6_frag2 e b3 14 (some s) (some d) IPPROTO_ICMPV6 (fragid % 65536) 12 = .ok b4
      ∧ do_ipv6_short_icmp_frag e mem lm (some m) (some s) (some d) fragid = .ok [⟨b3, 70⟩, ⟨memmove b4 62 70 12, 102⟩] := by
    cases e
    all_goals exact ⟨_, _, _, _, rfl, rfl, rfl, rfl, rfl⟩
  obtain ⟨b1, b2, b3, b4, h1, h2, h3, h4, hR⟩ := key
  have f1 : ∀ i, 1500 ≤ i → b1 i = mem i := fun i hi =>
    build_ethernet_frame _ _ _ _ _ _ _ h1 i (by omega)
  have f2 : ∀ i, 1500 ≤ i → b2 i = mem i := fun i hi =>
    (build_ipv6_short_frag1_frame _ _ _ _ _ _ _ _ h2 i (by omega)).trans (f1 i hi)
  have f3 : ∀ i, 1500 ≤ i → b3 i = mem i := fun i hi =>
    (build_icmp6_ping_frame _ _ _ _ _ _ h3 i (by omega)).trans (f2 i hi)
  have f4 : ∀ i, 1500 ≤ i → b4 i = mem i := fun i hi =>
    (build_ipv6_frag2_frame _ _ _ _ _ _ _ _ _ h4 i (by omega)).trans (f3 i hi)
  refine ⟨_, hR, ?_⟩
  intro x hx
  simp only [List.mem_cons, List.mem_singleton, List.not_mem_nil, or_false] at hx
  rcases hx with rfl | rfl
  · exact ⟨by dsimp only; omega, f3⟩
  · refine ⟨by dsimp only; omega, fun i hi => ?_⟩
    show memmove b4 62 70 12 i = mem i
    rw [memmove_apply, if_neg (by omega)]
    exact f4 i hi

/-- The recipe `do_ipv6_optioned_tcp_frag` stays inside its buffer of 1500 bytes. -/
theorem do_ipv6_optioned_tcp_frag_within (e : Endian) (mem : Buf) (lm m : Addr) (s d : Addr) (dport fragid seq : Nat) :
    ∃ frames, do_ipv6_optioned_tcp_frag e mem lm (some m) (some s) (some d) dport fragid seq = .ok frames
      ∧ ∀ x ∈ frames, x.within 1500 mem := by
  have key : ∃ b1 b2 b3 b4,
      build_ethernet e mem 0 lm (some m) ETHERTYPE_IPV6 = .ok b1
      ∧ build_ipv6_optioned_frag1 e b1 14 (some s) (some d) IPPROTO_TCP (fragid % 65536) 14 = .ok b2
      ∧ build_tcp_syn e b2 14 78 SOURCE_PORT dport seq = .ok b3
      ∧ build_ipv6_frag2 e b3 14 (some s) (some d) IPPROTO_TCP (fragid % 65536) 12 = .ok b4
      ∧ do_ipv6_optioned_tcp_frag e mem lm (some m) (some s) (some d) dport fragid seq = .ok [⟨b3, 86⟩, ⟨memmove b4 62 86 12, 74⟩] := by
    cases e
    all_goals exact ⟨_, _, _, _, rfl, rfl, rfl, rfl, rfl⟩
  obtain ⟨b1, b2, b3, b4, h1, h2, h3, h4, hR⟩ := key
  have f1 : ∀ i, 1500 ≤ i → b1 i = mem i := fun i hi =>
    build_ethernet_frame _ _ _ _ _ _ _ h1 i (by omega)
  have f2 : ∀ i, 1500 ≤ i → b2 i = mem i := fun i hi =>
    (build_ipv6_optioned_frag1_frame _ _ _ _ _ _ _ _ _ h2 i (by omega)).trans (f1 i hi)
  have f3 : ∀ i, 1500 ≤ i → b3 i = mem i := fun i hi =>
    (build_tcp_syn_frame _ _ _ _ _ _ _ _ h3 i (by omega)).trans (f2 i hi)
  have f4 : ∀ i, 1500 ≤ i → b4 i = mem i := fun i hi =>
    (build_ipv6_frag2_frame _ _ _ _ _ _ _ _ _ h4 i (by omega)).trans (f3 i hi)
  refine ⟨_, hR, ?_⟩
  intro x hx
  simp only [List.mem_cons, List.mem_singleton, List.not_mem_nil, or_false] at hx
  rcases hx with rfl | rfl
  · exact ⟨by dsimp only; omega, f3⟩
  · refine ⟨by dsimp only; omega, fun i hi => ?_⟩
    show memmove b4 62 86 12 i = mem i
    rw [memmove_apply, if_neg (by omega)]
    exact f4 i hi

/-- The recipe `do_ipv6_optioned_icmp_frag` stays inside its buffer of 1500 bytes. -/
theorem do_ipv6_optioned_icmp_frag_within (e : Endian) (mem : Buf) (lm m : Addr) (s d : Addr) (fragid : Nat) :
    ∃ frames, do_ipv6_optioned_icmp_frag e mem lm (some m) (some s) (some d) fragid = .ok frames
      ∧ ∀ x ∈ frames, x.within 1500 mem := by
  have key : ∃ b1 b2 b3 b4,
      build_ethernet e mem 0 lm (some m) ETHERTYPE_IPV6 = .ok b1
      ∧ build_ipv6_optioned_frag1 e b1 14 (some s) (some d) IPPROTO_ICMPV6 (fragid % 65536) 14 = .ok b2
      ∧ build_icmp6_ping e b2 14 78 40 = .ok b3
      ∧ build_ipv6_frag2 e b3 14 (some s) (some d) IPPROTO_ICMPV6 (fragid % 65536) 40 = .ok b4
      ∧ do_ipv6_optioned_icmp_frag e mem lm (some m) (some s) (some d) fragid = .ok [⟨b3, 86⟩, ⟨memmove b4 62 86 40, 102⟩] := by
    cases e
    all_goals exact ⟨_, _, _, _, rfl, rfl, rfl, rfl, rfl⟩
  obtain ⟨b1, b2, b3, b4, h1, h2, h3, h4, hR⟩ := key
  have f1 : ∀ i, 1500 ≤ i → b1 i = mem i := fun i hi =>
    build_ethernet_frame _ _ _ _ _ _ _ h1 i (by omega)
  have f2 : ∀ i, 1500 ≤ i → b2 i = mem i := fun i hi =>
    (build_ipv6_optioned_frag1_frame _ _ _ _ _ _ _ _ _ h2 i (by omega)).trans (f1 i hi)
  have f3 : ∀ i, 1500 ≤ i → b3 i = mem i := fun i hi =>
    (build_icmp6_ping_frame _ _ _ _ _ _ h3 i (by omega)).trans (f2 i hi)
  have f4 : ∀ i, 1500 ≤ i → b4 i = mem i := fun i hi =>
    (build_ipv6_frag2_frame _ _ _ _ _ _ _ _ _ h4 i (by omega)).trans (f3 i hi)
  refine ⟨_, hR, ?_⟩
  intro x hx
  simp only [List.mem_cons, List.mem_singleton, List.not_mem_nil, or_false] at hx
  rcases hx with rfl | rfl
  · exact ⟨by dsimp only; omega, f3⟩
  · refine ⟨by dsimp only; omega, fun i hi => ?_⟩
    show memmove b4 62 86 40 i = mem i
    rw [memmove_apply, if_neg (by omega)]
    exact f4 i hi

/-! ## The end of a run -/

/-- The result of `check_received_packet` is 0 or 1. -/
theorem check_received_packet_result (e : Endian) (len : Nat) (buf : Buf) (t : TEST_TYPE)
    (v : Nat) (h : check_received_packet e len buf t = .ok v) : v = 0 ∨ v = 1 := by
  unfold check_received_packet at h
  simp only [bind, Except.bind, pure, Except.pure] at h
  split at h
  · split at h
    · exact absurd h (by simp)
    · split at h
      · left; injection h with h; exact h.symm
      · split at h
        · right; injection h with h; exact h.symm
        · left; injection h with h; exact h.symm
  · split at h
    · split at h
      · exact absurd h (by simp)
      · split at h
        · left; injection h with h; exact h.symm
        · split at h
          · right; injection h with h; exact h.symm
          · left; injection h with h; exact h.symm
    · split at h
      · exact absurd h (by simp)
      · split at h
        · left; injection h with h; exact h.symm
        · split at h
          · right; injection h with h; exact h.symm
          · left; injection h with h; exact h.symm

/-- The IPv4 filter text for a source address of 150 characters has 226
characters. -/
theorem long_filter_length :
    (filter_text "10.0.0.2" long_address 80 44128 .TEST_IPV4_TCP).length = 226 := rfl

/-- For a source address of 150 characters the listener's filter fails the
overflow check. -/
theorem long_filter_error :
    main_filter long_address "10.0.0.2" 80 .TEST_IPV4_TCP
      = .error "snprintf for pcap filter failed" := by
  unfold main_filter fork_pcap_listener_filter receive_a_packet_filter
  simp only [SOURCE_PORT, FILTER_STR_LEN, long_filter_length]
  rfl

/-! ## Command line -/

/-- The three cases in which `parse_args` prints usage and exits with code 2. -/
theorem usage_exits (argc : Nat) (opts : List CliOption) (leftover : Bool) (timeout : Int) :
    (argc < 2 → parse_args argc opts leftover timeout = .error exit_with_usage)
      ∧ (2 ≤ argc → parse_args argc (.help :: opts) leftover timeout = .error exit_with_usage)
      ∧ (2 ≤ argc → leftover = true →
          (∃ st, parse_loop ⟨none, none, none, none, 0, 0, none, timeout, 0, .TEST_INVALID⟩ opts
            = .ok st) →
          parse_args argc opts leftover timeout = .error exit_with_usage) := by
  refine ⟨?_, ?_, ?_⟩
  · intro h
    unfold parse_args
    rw [if_pos h]
  · intro h
    unfold parse_args
    rw [if_neg (by omega)]
    rfl
  · rintro h rfl ⟨st, hst⟩
    unfold parse_args
    rw [if_neg (by omega), hst]
    rfl

/-! ## Readiness -/

/-- A move of a listener whose arming succeeds keeps the invariant. -/
theorem listener_step_invariant (t : String) (s : ProcessPair) (h : ready_invariant s) :
    ready_invariant (listener_step (.ok t) true s) := by
  obtain ⟨l, o, n, fi, rw'⟩ := s
  obtain ⟨h1, h2, h3, h4, h5⟩ := h
  simp only at h1 h2 h3 h4 h5
  cases l with
  | arming =>
    refine ⟨by simp [listener_step], ?_, ?_, ?_, ?_⟩
    · intro ho
      exact ⟨(h2 ho).1, rfl⟩
    · intro hn
      exact ⟨(h3 hn).1, rfl⟩
    · intro _
      rfl
    · intro hl
      exact absurd hl (by simp [listener_step])
  | armed =>
    have hfi : fi = true := h4 rfl
    refine ⟨by simp [listener_step], ?_, ?_, ?_, ?_⟩
    · intro _
      exact ⟨rfl, hfi⟩
    · intro _
      exact ⟨rfl, hfi⟩
    · intro hl
      exact absurd hl (by simp [listener_step])
    · intro _
      exact ⟨rfl, hfi⟩
  | waiting => exact ⟨h1, h2, h3, h4, h5⟩
  | exited => exact absurd rfl h1

/-- A move of the orchestrator keeps the invariant. -/
theorem orchestrator_step_invariant (s : ProcessPair) (h : ready_invariant s) :
    ready_invariant (orchestrator_step s) := by
  obtain ⟨l, o, n, fi, rw'⟩ := s
  obtain ⟨h1, h2, h3, h4, h5⟩ := h
  simp only at h1 h2 h3 h4 h5
  cases o with
  | reading =>
    by_cases hn : 0 < n
    · have hs : orchestrator_step ⟨l, .reading, n, fi, rw'⟩ = ⟨l, .returned, n - 1, fi, rw'⟩ := by
        simp [orchestrator_step, hn]
      rw [hs]
      exact ⟨h1, fun _ => h3 hn, fun _ => h3 hn, h4, h5⟩
    · have hs : orchestrator_step ⟨l, .reading, n, fi, rw'⟩ = ⟨l, .reading, n, fi, rw'⟩ := by
        simp [orchestrator_step, hn, h1]
      rw [hs]
      exact ⟨h1, h2, h3, h4, h5⟩
  | returned =>
    have hr := h2 (by simp)
    exact ⟨h1, fun _ => hr, h3, h4, h5⟩
  | injecting => exact ⟨h1, h2, h3, h4, h5⟩

/-- With a filter that fits and pcap calls that succeed, every schedule keeps
the invariant. -/
theorem run_schedule_invariant (t : String) (sched : List Proc) (s : ProcessPair)
    (h : ready_invariant s) : ready_invariant (run_schedule (.ok t) true sched s) := by
  induction sched generalizing s with
  | nil => exact h
  | cons p rest ih =>
    cases p with
    | listener => exact ih _ (listener_step_invariant t s h)
    | orchestrator => exact ih _ (orchestrator_step_invariant s h)

/-- Readiness ordering when the listener gets its filter installed: under
every schedule, an orchestrator that is past its `read`, and so one that has
called `pcap_inject`, finds the filter installed and the readiness byte
written. -/
theorem ready_before_inject (src dst : String) (dstport : Nat) (t : TEST_TYPE)
    (sched : List Proc) (text : String) (hf : main_filter src dst dstport t = .ok text) :
    (run_schedule (main_filter src dst dstport t) true sched after_fork).orchestrator
        = .injecting →
      (run_schedule (main_filter src dst dstport t) true sched after_fork).filter_installed
          = true
        ∧ (run_schedule (main_filter src dst dstport t) true sched after_fork).ready_written
          = true := by
  rw [hf]
  intro ho
  have hinv := run_schedule_invariant text sched after_fork
    ⟨by simp [after_fork], by simp [after_fork], by simp [after_fork], by simp [after_fork],
      by simp [after_fork]⟩
  have := hinv.2.1 (by rw [ho]; simp)
  exact ⟨this.2, this.1⟩

/-! ## Frame lengths and reply parsing -/

/-- A recipe result of one frame whose length agrees with its IP header. -/
theorem agree_one (R : Except String (List Injection)) (n : Nat)
    (h : ∃ i, R = .ok [i] ∧ wire_ip_length i = some n ∧ i.len = 14 + n) :
    ∃ frames, R = .ok frames ∧ ∀ x ∈ frames, ∃ n, wire_ip_length x = some n ∧ x.len = SIZEOF_ETHER + n := by
  obtain ⟨i, hR, h, hl⟩ := h
  refine ⟨_, hR, ?_⟩
  intro x hx
  simp only [List.mem_singleton] at hx
  subst hx
  exact ⟨n, h, hl⟩

/-- A recipe result of two frames whose lengths agree with their IP headers. -/
theorem agree_two (R : Except String (List Injection)) (n1 n2 : Nat)
    (h : ∃ i1 i2, R = .ok [i1, i2] ∧ wire_ip_length i1 = some n1 ∧ i1.len = 14 + n1
      ∧ wire_ip_length i2 = some n2 ∧ i2.len = 14 + n2) :
    ∃ frames, R = .ok frames ∧ ∀ x ∈ frames, ∃ n, wire_ip_length x = some n ∧ x.len = SIZEOF_ETHER + n := by
  obtain ⟨i1, i2, hR, h1, hl1, h2, hl2⟩ := h
  refine ⟨_, hR, ?_⟩
  intro x hx
  simp only [List.mem_cons, List.mem_singleton, List.not_mem_nil, or_false] at hx
  rcases hx with rfl | rfl
  · exact ⟨n1, h1, hl1⟩
  · exact ⟨n2, h2, hl2⟩

/-- Reading a byte gives the same in two memories that agree there. -/
theorem load8_congr (b b2 : Buf) (i : Nat) (h : b i = b2 i) : load8 b i = load8 b2 i := by
  unfold load8
  rw [h]

/-- Reading a 16-bit value gives the same in two memories that agree on its two
bytes. -/
theorem load16_congr (e : Endian) (b b2 : Buf) (i : Nat) (h : b i = b2 i)
    (h1 : b (i + 1) = b2 (i + 1)) : load16 e b i = load16 e b2 i := by
  cases e <;> simp only [load16, load8, h, h1]

/-- With 24 bytes or more in the frame, `print_a_packet` takes its decisions
from bytes of the frame alone. -/
theorem print_a_packet_congr (e : Endian) (len : Nat) (pkt pkt2 : Buf) (w : Nat)
    (hlen : 24 ≤ len) (h : ∀ i, i < len → pkt i = pkt2 i) :
    print_a_packet e len pkt w = print_a_packet e len pkt2 w := by
  have h12 := load16_congr e pkt pkt2 12 (h 12 (by omega)) (h 13 (by omega))
  have h14 : ip_hl pkt 14 = ip_hl pkt2 14 := by
    unfold ip_hl
    rw [load8_congr pkt pkt2 14 (h 14 (by omega))]
  have h23 := load8_congr pkt pkt2 23 (h 23 (by omega))
  have h20 := load8_congr pkt pkt2 20 (h 20 (by omega))
  simp only [print_a_packet, SIZEOF_ETHER, h12, h14, h23, h20]

/-- A layer 4 header that `print_a_packet` returns lies within the frame: at
least 8 bytes for one of ICMP or ICMPv6, 20 for one of TCP. -/
theorem print_a_packet_some (e : Endian) (len : Nat) (pkt : Buf) (w s : Nat)
    (h : print_a_packet e len pkt w = .ok (some s)) :
    s + 8 ≤ len ∧ (w = IPPROTO_TCP → s + 20 ≤ len) := by
  unfold print_a_packet at h
  simp only [SIZEOF_ETHER, SIZEOF_TCP, SIZEOF_PING, SIZEOF_ICMP6, SIZEOF_IPV6, IPPROTO_TCP,
    IPPROTO_ICMP, IPPROTO_ICMPV6] at h ⊢
  split_ifs at h <;> simp at h <;> omega

/-- With 24 bytes or more in the frame, the result of `check_received_packet`
depends on bytes of the frame alone.  (The printing that the C code does on
the way, left out here, reads the whole fixed IPv4 header, up to byte 33.) -/
theorem check_received_packet_congr (e : Endian) (len : Nat) (pkt pkt2 : Buf) (t : TEST_TYPE)
    (hlen : 24 ≤ len) (h : ∀ i, i < len → pkt i = pkt2 i) :
    check_received_packet e len pkt t = check_received_packet e len pkt2 t := by
  have hp := fun w => print_a_packet_congr e len pkt pkt2 w hlen h
  unfold check_received_packet
  simp only [bind, Except.bind, pure, Except.pure, ← hp]
  split_ifs
  · cases hq : print_a_packet e len pkt IPPROTO_ICMP with
    | error m => rfl
    | ok o =>
      cases o with
      | none => rfl
      | some s =>
        have hs := (print_a_packet_some e len pkt _ s hq).1
        simp only [load8_congr pkt pkt2 s (h s (by omega)),
          load16_congr e pkt pkt2 (s + 4) (h _ (by omega)) (h _ (by omega))]
  · cases hq : print_a_packet e len pkt IPPROTO_ICMPV6 with
    | error m => rfl
    | ok o =>
      cases o with
      | none => rfl
      | some s =>
        have hs := (print_a_packet_some e len pkt _ s hq).1
        simp only [load8_congr pkt pkt2 s (h s (by omega)),
          load16_congr e pkt pkt2 (s + 4) (h _ (by omega)) (h _ (by omega))]
  · cases hq : print_a_packet e len pkt IPPROTO_TCP with
    | error m => rfl
    | ok o =>
      cases o with
      | none => rfl
      | some s =>
        have hs := (print_a_packet_some e len pkt _ s hq).2 rfl
        simp only [load8_congr pkt pkt2 (s + 13) (h _ (by omega))]

/-- What `print_a_packet` answers when a TCP header is wanted, read off the
frame. -/
theorem print_a_packet_tcp (e : Endian) (len : Nat) (pkt : Buf) :
    (∀ tcph, print_a_packet e len pkt IPPROTO_TCP = .ok (some tcph)
      ↔ ((ntohs e (load16 e pkt 12) = ETHERTYPE_IP ∧ load8 pkt 23 = IPPROTO_TCP
            ∧ tcph = 14 + ip_hl pkt 14 * 4 ∧ tcph + 20 ≤ len)
          ∨ (ntohs e (load16 e pkt 12) = ETHERTYPE_IPV6 ∧ load8 pkt 20 = IPPROTO_TCP
            ∧ tcph = 54 ∧ 74 ≤ len)))
    ∧ (print_a_packet e len pkt IPPROTO_TCP = .ok none
      ↔ ((ntohs e (load16 e pkt 12) = ETHERTYPE_IP ∧ load8 pkt 23 = IPPROTO_ICMP
            ∧ 14 + ip_hl pkt 14 * 4 + 8 ≤ len)
          ∨ (ntohs e (load16 e pkt 12) = ETHERTYPE_IPV6 ∧ load8 pkt 20 = IPPROTO_ICMPV6
            ∧ 62 ≤ len))) := by
  unfold print_a_packet
  simp only [SIZEOF_ETHER, SIZEOF_TCP, SIZEOF_PING, SIZEOF_ICMP6, SIZEOF_IPV6, IPPROTO_TCP,
    IPPROTO_ICMP, IPPROTO_ICMPV6, ETHERTYPE_IP, ETHERTYPE_IPV6]
  constructor
  · intro tcph
    split_ifs <;> simp_all <;> omega
  · split_ifs <;> simp_all <;> omega

/-! ## The filter and the copied arguments -/

/-- The filter text spelled out, for a 16-bit source port and the destination
port 44128. -/
theorem filter_text_spelled (t : TEST_TYPE) (srcip dstip : String) (srcport : Nat)
    (hport : srcport < 65536) :
    filter_text srcip dstip srcport SOURCE_PORT t
      = (if IS_TEST_IPV4 t.val then
          "src " ++ srcip ++ " and dst " ++ dstip ++ " and (icmp or (tcp and src port "
            ++ Nat.repr srcport ++ " and dst port 44128))"
        else
          "src " ++ srcip ++ " and dst " ++ dstip
            ++ " and ((icmp6 and ip6[40] != 135 and ip6[40] != 136) or (tcp and src port "
            ++ Nat.repr srcport ++ " and dst port 44128))") := by
  have htail : (" and dst port " : String) ++ "44128" ++ "))" = " and dst port 44128))" := rfl
  unfold filter_text
  simp only [format_port, Nat.mod_eq_of_lt hport]
  split
  · rw [← htail]
    simp only [String.append_assoc]
    rfl
  · rw [← htail]
    simp only [String.append_assoc]
    rfl

/-- The filter `main` arms the listener with, for C strings no longer than a
textual address of the family. -/
theorem main_filter_text (t : TEST_TYPE) (srcip dstip : String) (dstport : Nat)
    (h4 : IS_TEST_IPV4 t.val = true → srcip.length ≤ 15 ∧ dstip.length ≤ 15)
    (h6 : IS_TEST_IPV6 t.val = true → srcip.length ≤ 45 ∧ dstip.length ≤ 45) :
    main_filter srcip dstip dstport t = .ok (filter_text dstip srcip dstport SOURCE_PORT t) := by
  have hlen := filter_text_length_le t dstip srcip dstport SOURCE_PORT
    (fun h => (h4 h).symm) (fun h => (h6 h).symm)
  unfold main_filter fork_pcap_listener_filter
  rw [receive_a_packet_filter_ok t dstip srcip dstport SOURCE_PORT hlen]

/-- A string of length 0 is the empty string. -/
theorem string_empty_of_length (s : String) (h : s.length = 0) : s = "" :=
  String.ext (List.length_eq_zero.mp h)

/-- Two filter texts for the same ports and test are equal only when nothing
was appended to either address. -/
theorem filter_text_append_eq (t : TEST_TYPE) (a b x y : String) (p q : Nat) :
    filter_text (a ++ x) (b ++ y) p q t = filter_text a b p q t ↔ x = "" ∧ y = "" := by
  constructor
  · intro h
    have hl := congrArg String.length h
    have hx : x.length = 0 ∧ y.length = 0 := by
      by_cases h4 : IS_TEST_IPV4 t.val = true
      · rw [filter_text_length_ipv4 _ _ _ _ _ h4, filter_text_length_ipv4 _ _ _ _ _ h4] at hl
        simp only [String.length_append] at hl
        omega
      · have h4 : IS_TEST_IPV4 t.val = false := by simpa using h4
        rw [filter_text_length_ipv6 _ _ _ _ _ h4, filter_text_length_ipv6 _ _ _ _ _ h4] at hl
        simp only [String.length_append] at hl
        omega
    exact ⟨string_empty_of_length x hx.1, string_empty_of_length y hx.2⟩
  · rintro ⟨rfl, rfl⟩
    simp only [String.append_empty]

/-! ## Claims -/

/-! ### C1 — fragment conservation -/

/-- C1 (the code at the failing input): in the IPv6 short-fragment ICMPv6 test
the 8 layer 4 bytes of the first frame followed by the layer 4 bytes of the
second frame, as its payload length field delimits them, are 20 bytes, while
the recipe assembled 48 bytes (echo header and 40 payload bytes) before
splitting: the reassembly is not what was assembled. -/
theorem ipv6_short_icmp_not_conserved :
    ∃ i1 i2 n, run_test .TEST_FRAG_IPV6_ICMP6 example_run = .ok [i1, i2]
      ∧ wire_ip_length i2 = some n
      ∧ (first_l4_bytes .TEST_FRAG_IPV6_ICMP6 i1
          ++ second_l4_bytes .TEST_FRAG_IPV6_ICMP6 i2 n).length = 20
      ∧ (assembled_l4 .TEST_FRAG_IPV6_ICMP6 i1).length = 48
      ∧ first_l4_bytes .TEST_FRAG_IPV6_ICMP6 i1 ++ second_l4_bytes .TEST_FRAG_IPV6_ICMP6 i2 n
          ≠ assembled_l4 .TEST_FRAG_IPV6_ICMP6 i1 :=
  ⟨_, _, 60, rfl, ip_length_of_ipv6_bytes _ 0 20 rfl rfl rfl rfl, rfl, rfl,
    fun h => absurd (congrArg List.length h) (by decide)⟩

/-- Fragment conservation in the seven other fragmented recipes: the 8 layer 4
bytes the first frame carries behind the headers the recipe laid out, followed
by the layer 4 bytes of the second frame up to the end its IP length field
declares, are exactly the layer 4 header and payload assembled before
splitting.  (In the two IPv4 optioned recipes the 8 bytes are taken where the
recipe put them, behind 20 + 40 header bytes.) -/
theorem fragment_conservation_other_recipes (t : TEST_TYPE) (r : RunInput)
    (hf : is_fragmented t = true) (hne : t ≠ .TEST_FRAG_IPV6_ICMP6) (hp : r.parses t) :
    ∃ i1 i2 n, run_test t r = .ok [i1, i2] ∧ wire_ip_length i2 = some n
      ∧ first_l4_bytes t i1 ++ second_l4_bytes t i2 n = assembled_l4 t i1 := by
  obtain ⟨e, mem, lm, dm, s4, d4, s6, d6, dport, fragid, seq⟩ := r
  obtain ⟨⟨m, hm⟩, h6⟩ := parses_elim _ _ hp
  simp only at hm h6
  subst hm
  cases t <;> simp [is_fragmented] at hf hne
  all_goals simp [TEST_TYPE.val, IS_TEST_IPV6] at h6
  all_goals try (obtain ⟨⟨s, rfl⟩, ⟨d, rfl⟩⟩ := h6)
  all_goals dsimp only [run_test]
  · have key : ∃ i1 b2, 
        do_ipv4_short_tcp_frag e mem lm (some m) s4 d4 dport fragid seq = .ok [i1, ⟨memmove b2 34 42 12, 46⟩]
        ∧ build_ipv4_frag2 e i1.mem 14 s4 d4 IPPROTO_TCP (fragid % 65536) 12 = .ok b2
        ∧ wire_ip_length ⟨memmove b2 34 42 12, 46⟩ = some 32 ∧ i1.len = 42 := by
      cases e
      all_goals exact ⟨_, _, rfl, rfl, ip_length_of_ipv4_bytes _ 0 32 rfl rfl rfl rfl, rfl⟩
    obtain ⟨i1, b2, hR, hb2, hlen, hl1⟩ := key
    exact ⟨i1, _, 32, hR, hlen,
      reassemble i1 _ b2 34 34 12 20 32 rfl
        (fun i hi => build_ipv4_frag2_frame _ _ _ _ _ _ _ _ _ hb2 i (by omega)) hl1
        (show (34 : ℕ) + 12 ≤ 46 by decide) rfl rfl⟩
  · have key : ∃ i1 b2, 
        do_ipv4_optioned_tcp_frag e mem lm (some m) s4 d4 dport fragid seq = .ok [i1, ⟨memmove b2 34 82 12, 46⟩]
        ∧ build_ipv4_frag2 e i1.mem 14 s4 d4 IPPROTO_TCP (fragid % 65536) 12 = .ok b2
        ∧ wire_ip_length ⟨memmove b2 34 82 12, 46⟩ = some 32 ∧ i1.len = 82 := by
      cases e
      all_goals exact ⟨_, _, rfl, rfl, ip_length_of_ipv4_bytes _ 0 32 rfl rfl rfl rfl, rfl⟩
    obtain ⟨i1, b2, hR, hb2, hlen, hl1⟩ := key
    exact ⟨i1, _, 32, hR, hlen,
      reassemble i1 _ b2 74 34 12 20 32 rfl
        (fun i hi => build_ipv4_frag2_frame _ _ _ _ _ _ _ _ _ hb2 i (by omega)) hl1
        (show (34 : ℕ) + 12 ≤ 46 by decide) rfl rfl⟩
  · have key : ∃ i1 b2, 
        do_ipv4_short_icmp_frag e mem lm (some m) s4 d4 fragid = .ok [i1, ⟨memmove b2 34 42 40, 74⟩]
        ∧ build_ipv4_frag2 e i1.mem 14 s4 d4 IPPROTO_ICMP (fragid % 65536) 40 = .ok b2
        ∧ wire_ip_length ⟨memmove b2 34 42 40, 74⟩ = some 60 ∧ i1.len = 42 := by
      cases e
      all_goals exact ⟨_, _, rfl, rfl, ip_length_of_ipv4_bytes _ 0 60 rfl rfl rfl rfl, rfl⟩
    obtain ⟨i1, b2, hR, hb2, hlen, hl1⟩ := key
    exact ⟨i1, _, 60, hR, hlen,
      reassemble i1 _ b2 34 34 40 48 60 rfl
        (fun i hi => build_ipv4_frag2_frame _ _ _ _ _ _ _ _ _ hb2 i (by omega)) hl1
        (show (34 : ℕ) + 40 ≤ 74 by decide) rfl rfl⟩
  · have key : ∃ i1 b2, 
        do_ipv4_optioned_icmp_frag e mem lm (some m) s4 d4 fragid = .ok [i1, ⟨memmove b2 34 82 40, 82⟩]
        ∧ build_ipv4_frag2 e i1.mem 14 s4 d4 IPPROTO_ICMP (fragid % 65536) 40 = .ok b2
        ∧ wire_ip_length ⟨memmove b2 34 82 40, 82⟩ = some 60 ∧ i1.len = 82 := by
      cases e
      all_goals exact ⟨_, _, rfl, rfl, ip_length_of_ipv4_bytes _ 0 60 rfl rfl rfl rfl, rfl⟩
    obtain ⟨i1, b2, hR, hb2, hlen, hl1⟩ := key
    exact ⟨i1, _, 60, hR, hlen,
      reassemble i1 _ b2 74 34 40 48 60 rfl
        (fun i hi => build_ipv4_frag2_frame _ _ _ _ _ _ _ _ _ hb2 i (by omega)) hl1
        (show (34 : ℕ) + 40 ≤ 82 by decide) rfl rfl⟩
  · have key : ∃ i1 b2, 
        do_ipv6_short_tcp_frag e mem lm (some m) (some s) (some d) dport fragid seq = .ok [i1, ⟨memmove b2 62 70 12, 74⟩]
        ∧ build_ipv6_frag2 e i1.mem 14 (some s) (some d) IPPROTO_TCP (fragid % 65536) 12 = .ok b2
        ∧ wire_ip_length ⟨memmove b2 62 70 12, 74⟩ = some 60 ∧ i1.len = 70 := by
      cases e
      all_goals exact ⟨_, _, rfl, rfl, ip_length_of_ipv6_bytes _ 0 20 rfl rfl rfl rfl, rfl⟩
    obtain ⟨i1, b2, hR, hb2, hlen, hl1⟩ := key
    exact ⟨i1, _, 60, hR, hlen,
      reassemble i1 _ b2 62 62 12 20 60 rfl
        (fun i hi => build_ipv6_frag2_frame _ _ _ _ _ _ _ _ _ hb2 i (by omega)) hl1
        (show (62 : ℕ) + 12 ≤ 74 by decide) rfl rfl⟩
  · have key : ∃ i1 b2, 
        do_ipv6_optioned_tcp_frag e mem lm (some m) (some s) (some d) dport fragid seq = .ok [i1, ⟨memmove b2 62 86 12, 74⟩]
        ∧ build_ipv6_frag2 e i1.mem 14 (some s) (some d) IPPROTO_TCP (fragid % 65536) 12 = .ok b2
        ∧ wire_ip_length ⟨memmove b2 62 86 12, 74⟩ = some 60 ∧ i1.len = 86 := by
      cases e
      all_goals exact ⟨_, _, rfl, rfl, ip_length_of_ipv6_bytes _ 0 20 rfl rfl rfl rfl, rfl⟩
    obtain ⟨i1, b2, hR, hb2, hlen, hl1⟩ := key
    exact ⟨i1, _, 60, hR, hlen,
      reassemble i1 _ b2 78 62 12 20 60 rfl
        (fun i hi => build_ipv6_frag2_frame _ _ _ _ _ _ _ _ _ hb2 i (by omega)) hl1
        (show (62 : ℕ) + 12 ≤ 74 by decide) rfl rfl⟩
  · have key : ∃ i1 b2, 
        do_ipv6_optioned_icmp_frag e mem lm (some m) (some s) (some d) fragid = .ok [i1, ⟨memmove b2 62 86 40, 102⟩]
        ∧ build_ipv6_frag2 e i1.mem 14 (some s) (some d) IPPROTO_ICMPV6 (fragid % 65536) 40 = .ok b2
        ∧ wire_ip_length ⟨memmove b2 62 86 40, 102⟩ = some 88 ∧ i1.len = 86 := by
      cases e
      all_goals exact ⟨_, _, rfl, rfl, ip_length_of_ipv6_bytes _ 0 48 rfl rfl rfl rfl, rfl⟩
    obtain ⟨i1, b2, hR, hb2, hlen, hl1⟩ := key
    exact ⟨i1, _, 88, hR, hlen,
      reassemble i1 _ b2 78 62 40 48 88 rfl
        (fun i hi => build_ipv6_frag2_frame _ _ _ _ _ _ _ _ _ hb2 i (by omega)) hl1
        (show (62 : ℕ) + 40 ≤ 102 by decide) rfl rfl⟩

/-! ### C2 — More-Fragments discipline -/

/-- C2: for every fragmented recipe, the first transmitted fragment has
More-Fragments = 1 and fragment offset 0 and the second has More-Fragments = 0
and fragment offset 1, read from the bytes on the wire (IPv4 flags/offset
field, or the offset/flags field of the IPv6 Fragment extension found through
the next-header chain). -/
theorem more_fragments_discipline (t : TEST_TYPE) (r : RunInput)
    (hf : is_fragmented t = true) (hp : r.parses t) :
    ∃ i1 i2, run_test t r = .ok [i1, i2]
      ∧ (wire_more_fragments i1 = some 1 ∧ wire_fragment_offset i1 = some 0)
      ∧ (wire_more_fragments i2 = some 0 ∧ wire_fragment_offset i2 = some 1) := by
  obtain ⟨e, mem, lm, dm, s4, d4, s6, d6, dport, fragid, seq⟩ := r
  obtain ⟨⟨m, hm⟩, h6⟩ := parses_elim _ _ hp
  simp only at hm h6
  subst hm
  cases t <;> simp [is_fragmented] at hf
  all_goals simp [TEST_TYPE.val, IS_TEST_IPV6] at h6
  all_goals try (obtain ⟨⟨s, rfl⟩, ⟨d, rfl⟩⟩ := h6)
  all_goals cases e
  all_goals dsimp only [run_test]
  all_goals first
    | exact ⟨_, _, rfl, mf_of_ipv4_bytes _ 1 0 32 0 rfl rfl rfl rfl rfl rfl,
        mf_of_ipv4_bytes _ 0 1 0 1 rfl rfl rfl rfl rfl rfl⟩
    | exact ⟨_, _, rfl, mf_of_ipv6_short_bytes _ 1 0 0 1 rfl rfl rfl rfl rfl rfl rfl,
        mf_of_ipv6_short_bytes _ 0 1 0 8 rfl rfl rfl rfl rfl rfl rfl⟩
    | exact ⟨_, _, rfl, mf_of_ipv6_optioned_bytes _ 1 0 0 1 rfl rfl rfl rfl rfl rfl rfl rfl rfl,
        mf_of_ipv6_short_bytes _ 0 1 0 8 rfl rfl rfl rfl rfl rfl rfl⟩

/-- Witness of C2: the IPv6 optioned ICMPv6 test on the example run. -/
theorem more_fragments_discipline_witness :
    is_fragmented .TEST_FRAG_OPTIONED_IPV6_ICMP6 = true
      ∧ example_run.parses .TEST_FRAG_OPTIONED_IPV6_ICMP6
      ∧ ∃ i1 i2, run_test .TEST_FRAG_OPTIONED_IPV6_ICMP6 example_run = .ok [i1, i2]
          ∧ (wire_more_fragments i1 = some 1 ∧ wire_fragment_offset i1 = some 0)
          ∧ (wire_more_fragments i2 = some 0 ∧ wire_fragment_offset i2 = some 1) :=
  ⟨rfl, ⟨rfl, fun _ => ⟨rfl, rfl⟩⟩,
    more_fragments_discipline .TEST_FRAG_OPTIONED_IPV6_ICMP6 example_run rfl
      ⟨rfl, fun _ => ⟨rfl, rfl⟩⟩⟩

/-! ### C3 — shared fragment identifier -/

/-- C3: for every fragmented recipe and every fragment identifier of the run,
the identification field of the first transmitted fragment equals that of the
second byte for byte (IPv4 ID field, or Identification of the IPv6 Fragment
extension), and for IPv4 it is the run's 16-bit fragment identifier in network
byte order. -/
theorem shared_fragment_identifier (t : TEST_TYPE) (r : RunInput)
    (hf : is_fragmented t = true) (hp : r.parses t) :
    ∃ i1 i2 id, run_test t r = .ok [i1, i2]
      ∧ wire_fragment_ident i1 = some id ∧ wire_fragment_ident i2 = some id
      ∧ (IS_TEST_IPV4 t.val = true
          → id = [r.fragid % 65536 / 256, r.fragid % 65536 % 256]) := by
  obtain ⟨e, mem, lm, dm, s4, d4, s6, d6, dport, fragid, seq⟩ := r
  obtain ⟨⟨m, hm⟩, h6⟩ := parses_elim _ _ hp
  simp only at hm h6
  subst hm
  cases t <;> simp [is_fragmented] at hf
  all_goals simp [TEST_TYPE.val, IS_TEST_IPV6] at h6
  all_goals try (obtain ⟨⟨s, rfl⟩, ⟨d, rfl⟩⟩ := h6)
  all_goals dsimp only [run_test]
  · cases e
    · exact ⟨_, _, _, rfl,
        ident_of_ipv4_bytes _ _ _ _ _ rfl rfl rfl rfl
          (htons_little_bytes fragid).1 (htons_little_bytes fragid).2,
        ident_of_ipv4_bytes _ _ _ _ _ rfl rfl rfl rfl
          (htons_little_bytes fragid).1 (htons_little_bytes fragid).2, fun _ => rfl⟩
    · exact ⟨_, _, _, rfl,
        ident_of_ipv4_bytes _ _ _ _ _ rfl rfl rfl rfl
          (htons_big_bytes fragid).1 (htons_big_bytes fragid).2,
        ident_of_ipv4_bytes _ _ _ _ _ rfl rfl rfl rfl
          (htons_big_bytes fragid).1 (htons_big_bytes fragid).2, fun _ => rfl⟩
  · cases e
    · exact ⟨_, _, _, rfl,
        ident_of_ipv4_bytes _ _ _ _ _ rfl rfl rfl rfl
          (htons_little_bytes fragid).1 (htons_little_bytes fragid).2,
        ident_of_ipv4_bytes _ _ _ _ _ rfl rfl rfl rfl
          (htons_little_bytes fragid).1 (htons_little_bytes fragid).2, fun _ => rfl⟩
    · exact ⟨_, _, _, rfl,
        ident_of_ipv4_bytes _ _ _ _ _ rfl rfl rfl rfl
          (htons_big_bytes fragid).1 (htons_big_bytes fragid).2,
        ident_of_ipv4_bytes _ _ _ _ _ rfl rfl rfl rfl
          (htons_big_bytes fragid).1 (htons_big_bytes fragid).2, fun _ => rfl⟩
  · cases e
    · exact ⟨_, _, _, rfl,
        ident_of_ipv4_bytes _ _ _ _ _ rfl rfl rfl rfl
          (htons_little_bytes fragid).1 (htons_little_bytes fragid).2,
        ident_of_ipv4_bytes _ _ _ _ _ rfl rfl rfl rfl
          (htons_little_bytes fragid).1 (htons_little_bytes fragid).2, fun _ => rfl⟩
    · exact ⟨_, _, _, rfl,
        ident_of_ipv4_bytes _ _ _ _ _ rfl rfl rfl rfl
          (htons_big_bytes fragid).1 (htons_big_bytes fragid).2,
        ident_of_ipv4_bytes _ _ _ _ _ rfl rfl rfl rfl
          (htons_big_bytes fragid).1 (htons_big_bytes fragid).2, fun _ => rfl⟩
  · cases e
    · exact ⟨_, _, _, rfl,
        ident_of_ipv4_bytes _ _ _ _ _ rfl rfl rfl rfl
          (htons_little_bytes fragid).1 (htons_little_bytes fragid).2,
        ident_of_ipv4_bytes _ _ _ _ _ rfl rfl rfl rfl
          (htons_little_bytes fragid).1 (htons_little_bytes fragid).2, fun _ => rfl⟩
    · exact ⟨_, _, _, rfl,
        ident_of_ipv4_bytes _ _ _ _ _ rfl rfl rfl rfl
          (htons_big_bytes fragid).1 (htons_big_bytes fragid).2,
        ident_of_ipv4_bytes _ _ _ _ _ rfl rfl rfl rfl
          (htons_big_bytes fragid).1 (htons_big_bytes fragid).2, fun _ => rfl⟩
  · cases e
    · exact ⟨_, _, _, rfl,
        ident_of_ipv6_short_bytes _
          (htons .little (fragid % 65536) % 256 % 256)
          (htons .little (fragid % 65536) / 256 % 256 % 256)
          (htons .little (fragid % 65536) / 65536 % 256 % 256)
          (htons .little (fragid % 65536) / 16777216 % 256 % 256)
          rfl rfl rfl rfl rfl rfl rfl,
        ident_of_ipv6_short_bytes _
          (htons .little (fragid % 65536) % 256 % 256)
          (htons .little (fragid % 65536) / 256 % 256 % 256)
          (htons .little (fragid % 65536) / 65536 % 256 % 256)
          (htons .little (fragid % 65536) / 16777216 % 256 % 256)
          rfl rfl rfl rfl rfl rfl rfl,
        fun h => absurd h (by decide)⟩
    · exact ⟨_, _, _, rfl,
        ident_of_ipv6_short_bytes _
          (htons .big (fragid % 65536) / 16777216 % 256 % 256)
          (htons .big (fragid % 65536) / 65536 % 256 % 256)
          (htons .big (fragid % 65536) / 256 % 256 % 256)
          (htons .big (fragid % 65536) % 256 % 256)
          rfl rfl rfl rfl rfl rfl rfl,
        ident_of_ipv6_short_bytes _
          (htons .big (fragid % 65536) / 16777216 % 256 % 256)
          (htons .big (fragid % 65536) / 65536 % 256 % 256)
          (htons .big (fragid % 65536) / 256 % 256 % 256)
          (htons .big (fragid % 65536) % 256 % 256)
          rfl rfl rfl rfl rfl rfl rfl,
        fun h => absurd h (by decide)⟩
  · cases e
    · exact ⟨_, _, _, rfl,
        ident_of_ipv6_optioned_bytes _
          (htons .little (fragid % 65536) % 256 % 256)
          (htons .little (fragid % 65536) / 256 % 256 % 256)
          (htons .little (fragid % 65536) / 65536 % 256 % 256)
          (htons .little (fragid % 65536) / 16777216 % 256 % 256)
          rfl rfl rfl rfl rfl rfl rfl rfl rfl,
        ident_of_ipv6_short_bytes _
          (htons .little (fragid % 65536) % 256 % 256)
          (htons .little (fragid % 65536) / 256 % 256 % 256)
          (htons .little (fragid % 65536) / 65536 % 256 % 256)
          (htons .little (fragid % 65536) / 16777216 % 256 % 256)
          rfl rfl rfl rfl rfl rfl rfl,
        fun h => absurd h (by decide)⟩
    · exact ⟨_, _, _, rfl,
        ident_of_ipv6_optioned_bytes _
          (htons .big (fragid % 65536) / 16777216 % 256 % 256)
          (htons .big (fragid % 65536) / 65536 % 256 % 256)
          (htons .big (fragid % 65536) / 256 % 256 % 256)
          (htons .big (fragid % 65536) % 256 % 256)
          rfl rfl rfl rfl rfl rfl rfl rfl rfl,
        ident_of_ipv6_short_bytes _
          (htons .big (fragid % 65536) / 16777216 % 256 % 256)
          (htons .big (fragid % 65536) / 65536 % 256 % 256)
          (htons .big (fragid % 65536) / 256 % 256 % 256)
          (htons .big (fragid % 65536) % 256 % 256)
          rfl rfl rfl rfl rfl rfl rfl,
        fun h => absurd h (by decide)⟩
  · cases e
    · exact ⟨_, _, _, rfl,
        ident_of_ipv6_short_bytes _
          (htons .little (fragid % 65536) % 256 % 256)
          (htons .little (fragid % 65536) / 256 % 256 % 256)
          (htons .little (fragid % 65536) / 65536 % 256 % 256)
          (htons .little (fragid % 65536) / 16777216 % 256 % 256)
          rfl rfl rfl rfl rfl rfl rfl,
        ident_of_ipv6_short_bytes _
          (htons .little (fragid % 65536) % 256 % 256)
          (htons .little (fragid % 65536) / 256 % 256 % 256)
          (htons .little (fragid % 65536) / 65536 % 256 % 256)
          (htons .little (fragid % 65536) / 16777216 % 256 % 256)
          rfl rfl rfl rfl rfl rfl rfl,
        fun h => absurd h (by decide)⟩
    · exact ⟨_, _, _, rfl,
        ident_of_ipv6_short_bytes _
          (htons .big (fragid % 65536) / 16777216 % 256 % 256)
          (htons .big (fragid % 65536) / 65536 % 256 % 256)
          (htons .big (fragid % 65536) / 256 % 256 % 256)
          (htons .big (fragid % 65536) % 256 % 256)
          rfl rfl rfl rfl rfl rfl rfl,
        ident_of_ipv6_short_bytes _
          (htons .big (fragid % 65536) / 16777216 % 256 % 256)
          (htons .big (fragid % 65536) / 65536 % 256 % 256)
          (htons .big (fragid % 65536) / 256 % 256 % 256)
          (htons .big (fragid % 65536) % 256 % 256)
          rfl rfl rfl rfl rfl rfl rfl,
        fun h => absurd h (by decide)⟩
  · cases e
    · exact ⟨_, _, _, rfl,
        ident_of_ipv6_optioned_bytes _
          (htons .little (fragid % 65536) % 256 % 256)
          (htons .little (fragid % 65536) / 256 % 256 % 256)
          (htons .little (fragid % 65536) / 65536 % 256 % 256)
          (htons .little (fragid % 65536) / 16777216 % 256 % 256)
          rfl rfl rfl rfl rfl rfl rfl rfl rfl,
        ident_of_ipv6_short_bytes _
          (htons .little (fragid % 65536) % 256 % 256)
          (htons .little (fragid % 65536) / 256 % 256 % 256)
          (htons .little (fragid % 65536) / 65536 % 256 % 256)
          (htons .little (fragid % 65536) / 16777216 % 256 % 256)
          rfl rfl rfl rfl rfl rfl rfl,
        fun h => absurd h (by decide)⟩
    · exact ⟨_, _, _, rfl,
        ident_of_ipv6_optioned_bytes _
          (htons .big (fragid % 65536) / 16777216 % 256 % 256)
          (htons .big (fragid % 65536) / 65536 % 256 % 256)
          (htons .big (fragid % 65536) / 256 % 256 % 256)
          (htons .big (fragid % 65536) % 256 % 256)
          rfl rfl rfl rfl rfl rfl rfl rfl rfl,
        ident_of_ipv6_short_bytes _
          (htons .big (fragid % 65536) / 16777216 % 256 % 256)
          (htons .big (fragid % 65536) / 65536 % 256 % 256)
          (htons .big (fragid % 65536) / 256 % 256 % 256)
          (htons .big (fragid % 65536) % 256 % 256)
          rfl rfl rfl rfl rfl rfl rfl,
        fun h => absurd h (by decide)⟩

/-- Witness of C3: the IPv4 short-fragment TCP test on the example run. -/
theorem shared_fragment_identifier_witness :
    is_fragmented .TEST_FRAG_IPV4_TCP = true
      ∧ example_run.parses .TEST_FRAG_IPV4_TCP
      ∧ ∃ i1 i2 id, run_test .TEST_FRAG_IPV4_TCP example_run = .ok [i1, i2]
          ∧ wire_fragment_ident i1 = some id ∧ wire_fragment_ident i2 = some id
          ∧ (IS_TEST_IPV4 TEST_TYPE.TEST_FRAG_IPV4_TCP.val = true
              → id = [example_run.fragid % 65536 / 256, example_run.fragid % 65536 % 256]) :=
  ⟨rfl, ⟨rfl, fun _ => ⟨rfl, rfl⟩⟩,
    shared_fragment_identifier .TEST_FRAG_IPV4_TCP example_run rfl
      ⟨rfl, fun _ => ⟨rfl, rfl⟩⟩⟩

/-! ### C4 — minimum-packet bound -/

/-- C4: for each of the four optioned recipes, the first transmitted fragment
without its 14-byte Ethernet header is at least 68 octets long, both as the
number of bytes injected and as the IP header declares it (IPv4 total length,
or 40 plus the IPv6 payload length). -/
theorem minimum_packet_bound (t : TEST_TYPE) (r : RunInput)
    (ho : is_optioned t = true) (hp : r.parses t) :
    ∃ i1 i2 n, run_test t r = .ok [i1, i2]
      ∧ MINIMUM_PACKET_SIZE ≤ i1.frame.length - SIZEOF_ETHER
      ∧ wire_ip_length i1 = some n ∧ MINIMUM_PACKET_SIZE ≤ n := by
  obtain ⟨e, mem, lm, dm, s4, d4, s6, d6, dport, fragid, seq⟩ := r
  obtain ⟨⟨m, hm⟩, h6⟩ := parses_elim _ _ hp
  simp only at hm h6
  subst hm
  cases t <;> simp [is_optioned] at ho
  all_goals simp [TEST_TYPE.val, IS_TEST_IPV6] at h6
  all_goals try (obtain ⟨⟨s, rfl⟩, ⟨d, rfl⟩⟩ := h6)
  all_goals cases e
  all_goals dsimp only [run_test]
  all_goals first
    | exact ⟨_, _, _, rfl, (frame_length _).symm ▸ (by decide : 68 ≤ 82 - 14),
        ip_length_of_ipv4_bytes _ 0 68 rfl rfl rfl rfl, by decide⟩
    | exact ⟨_, _, _, rfl, (frame_length _).symm ▸ (by decide : 68 ≤ 86 - 14),
        ip_length_of_ipv6_bytes _ 0 32 rfl rfl rfl rfl, by decide⟩

/-- Witness of C4: the IPv4 optioned TCP test on the example run. -/
theorem minimum_packet_bound_witness :
    is_optioned .TEST_FRAG_OPTIONED_IPV4_TCP = true
      ∧ example_run.parses .TEST_FRAG_OPTIONED_IPV4_TCP
      ∧ ∃ i1 i2 n, run_test .TEST_FRAG_OPTIONED_IPV4_TCP example_run = .ok [i1, i2]
          ∧ MINIMUM_PACKET_SIZE ≤ i1.frame.length - SIZEOF_ETHER
          ∧ wire_ip_length i1 = some n ∧ MINIMUM_PACKET_SIZE ≤ n :=
  ⟨rfl, ⟨rfl, fun _ => ⟨rfl, rfl⟩⟩,
    minimum_packet_bound .TEST_FRAG_OPTIONED_IPV4_TCP example_run rfl
      ⟨rfl, fun _ => ⟨rfl, rfl⟩⟩⟩

/-! ### C5 — split policy -/

/-- C5 (counterexample): in the IPv4 short-fragment ICMP test the first frame
does not end strictly inside the echo header: it ends exactly where the 8-byte
header ends. -/
theorem icmp_header_not_straddled :
    ∃ i1 i2, run_test .TEST_FRAG_IPV4_ICMP example_run = .ok [i1, i2]
      ∧ ¬ straddles .TEST_FRAG_IPV4_ICMP i1 :=
  ⟨_, _, rfl, fun h => absurd h.2 (by decide)⟩

/-- C5 (amended): in every fragmented test the first frame carries exactly the
first 8 bytes of the layer 4 data.  For the TCP tests that boundary lies
strictly inside the 20-byte TCP header: the first frame carries the ports (and
the sequence number) and the second frame carries the rest of the header
(acknowledgement number, flags, window, ...).  For the ICMP and
ICMPv6 tests the boundary is the end of the 8-byte echo header: the first
frame carries the whole echo header and the second frame, up to the end its
IP length field declares, carries only payload bytes (0x01). -/
theorem split_policy (t : TEST_TYPE) (r : RunInput)
    (hf : is_fragmented t = true) (hp : r.parses t) :
    ∃ i1 i2 n, run_test t r = .ok [i1, i2] ∧ wire_ip_length i2 = some n
      ∧ i1.len = first_l4_offset t + MINIMUM_FRAGMENT_SIZE
      ∧ (IS_TEST_TCP t.val = true →
          straddles t i1
          ∧ i1.slice (first_l4_offset t) 2 = [0xAC, 0x60]
          ∧ i2.slice (second_l4_offset t) 4 = [0, 0, 0, 0]
          ∧ i2.slice (second_l4_offset t + 5) 3 = [TH_SYN, 0xFF, 0xFF])
      ∧ (IS_TEST_ICMP t.val = true →
          i1.len = first_l4_offset t + l4_header_size t
          ∧ i1.slice (first_l4_offset t) 2
              = [if IS_TEST_IPV4 t.val = true then ICMP_ECHO else ICMP6_ECHO_REQUEST, 0]
          ∧ i1.slice (first_l4_offset t + 4) 4 = [0xAC, 0x60, 0, 1]
          ∧ second_l4_bytes t i2 n
              = List.replicate (SIZEOF_ETHER + n - second_l4_offset t) 0x01) := by
  obtain ⟨e, mem, lm, dm, s4, d4, s6, d6, dport, fragid, seq⟩ := r
  obtain ⟨⟨m, hm⟩, h6⟩ := parses_elim _ _ hp
  simp only at hm h6
  subst hm
  cases t <;> simp [is_fragmented] at hf
  all_goals simp [TEST_TYPE.val, IS_TEST_IPV6] at h6
  all_goals try (obtain ⟨⟨s, rfl⟩, ⟨d, rfl⟩⟩ := h6)
  all_goals dsimp only [run_test]
  · cases e
    all_goals exact ⟨_, _, 32, rfl, ip_length_of_ipv4_bytes _ 0 32 rfl rfl rfl rfl, rfl,
        fun _ => ⟨(by decide : (34 : ℕ) < 42 ∧ 42 < 34 + 20), rfl, rfl, rfl⟩,
        fun h => absurd h (by decide)⟩
  · cases e
    all_goals exact ⟨_, _, 32, rfl, ip_length_of_ipv4_bytes _ 0 32 rfl rfl rfl rfl, rfl,
        fun _ => ⟨(by decide : (74 : ℕ) < 82 ∧ 82 < 74 + 20), rfl, rfl, rfl⟩,
        fun h => absurd h (by decide)⟩
  · cases e
    all_goals exact ⟨_, _, 60, rfl, ip_length_of_ipv4_bytes _ 0 60 rfl rfl rfl rfl, rfl,
        fun h => absurd h (by decide),
        fun _ => ⟨rfl, rfl, rfl, rfl⟩⟩
  · cases e
    all_goals exact ⟨_, _, 60, rfl, ip_length_of_ipv4_bytes _ 0 60 rfl rfl rfl rfl, rfl,
        fun h => absurd h (by decide),
        fun _ => ⟨rfl, rfl, rfl, rfl⟩⟩
  · cases e
    all_goals exact ⟨_, _, 60, rfl, ip_length_of_ipv6_bytes _ 0 20 rfl rfl rfl rfl, rfl,
        fun _ => ⟨(by decide : (62 : ℕ) < 70 ∧ 70 < 62 + 20), rfl, rfl, rfl⟩,
        fun h => absurd h (by decide)⟩
  · cases e
    all_goals exact ⟨_, _, 60, rfl, ip_length_of_ipv6_bytes _ 0 20 rfl rfl rfl rfl, rfl,
        fun _ => ⟨(by decide : (78 : ℕ) < 86 ∧ 86 < 78 + 20), rfl, rfl, rfl⟩,
        fun h => absurd h (by decide)⟩
  · cases e
    all_goals exact ⟨_, _, 60, rfl, ip_length_of_ipv6_bytes _ 0 20 rfl rfl rfl rfl, rfl,
        fun h => absurd h (by decide),
        fun _ => ⟨rfl, rfl, rfl, rfl⟩⟩
  · cases e
    all_goals exact ⟨_, _, 88, rfl, ip_length_of_ipv6_bytes _ 0 48 rfl rfl rfl rfl, rfl,
        fun h => absurd h (by decide),
        fun _ => ⟨rfl, rfl, rfl, rfl⟩⟩

/-- Witness of C5 (amended): the IPv6 short-fragment ICMPv6 test on the example
run. -/
theorem split_policy_witness :
    is_fragmented .TEST_FRAG_IPV6_ICMP6 = true
      ∧ example_run.parses .TEST_FRAG_IPV6_ICMP6
      ∧ ∃ i1 i2 n, run_test .TEST_FRAG_IPV6_ICMP6 example_run = .ok [i1, i2]
          ∧ wire_ip_length i2 = some n
          ∧ i1.len = first_l4_offset .TEST_FRAG_IPV6_ICMP6 + MINIMUM_FRAGMENT_SIZE
          ∧ (IS_TEST_TCP TEST_TYPE.TEST_FRAG_IPV6_ICMP6.val = true →
              straddles .TEST_FRAG_IPV6_ICMP6 i1
              ∧ i1.slice (first_l4_offset .TEST_FRAG_IPV6_ICMP6) 2 = [0xAC, 0x60]
              ∧ i2.slice (second_l4_offset .TEST_FRAG_IPV6_ICMP6) 4 = [0, 0, 0, 0]
              ∧ i2.slice (second_l4_offset .TEST_FRAG_IPV6_ICMP6 + 5) 3
                  = [TH_SYN, 0xFF, 0xFF])
          ∧ (IS_TEST_ICMP TEST_TYPE.TEST_FRAG_IPV6_ICMP6.val = true →
              i1.len = first_l4_offset .TEST_FRAG_IPV6_ICMP6
                  + l4_header_size .TEST_FRAG_IPV6_ICMP6
              ∧ i1.slice (first_l4_offset .TEST_FRAG_IPV6_ICMP6) 2
                  = [if IS_TEST_IPV4 TEST_TYPE.TEST_FRAG_IPV6_ICMP6.val = true then ICMP_ECHO
                      else ICMP6_ECHO_REQUEST, 0]
              ∧ i1.slice (first_l4_offset .TEST_FRAG_IPV6_ICMP6 + 4) 4 = [0xAC, 0x60, 0, 1]
              ∧ second_l4_bytes .TEST_FRAG_IPV6_ICMP6 i2 n
                  = List.replicate
                      (SIZEOF_ETHER + n - second_l4_offset .TEST_FRAG_IPV6_ICMP6) 0x01) :=
  ⟨rfl, ⟨rfl, fun _ => ⟨rfl, rfl⟩⟩,
    split_policy .TEST_FRAG_IPV6_ICMP6 example_run rfl ⟨rfl, fun _ => ⟨rfl, rfl⟩⟩⟩

/-! ### C6, C7 — option-length fix-up -/

/-- C6: for every `n` in `[0, 1500]`, `fix_up_destination_options_length n` is
the least `m ≥ n` with `m mod 8 = 6`: it is at least `n`, at most `n + 7`,
congruent to 6 modulo 8, and below every other such number. -/
theorem fix_up_is_least (n : Nat) (h : n ≤ 1500) :
    n ≤ fix_up_destination_options_length n
      ∧ fix_up_destination_options_length n % 8 = 6
      ∧ fix_up_destination_options_length n ≤ n + 7
      ∧ ∀ m, n ≤ m → m % 8 = 6 → fix_up_destination_options_length n ≤ m := by
  rw [fix_up_eq n (by omega)]
  refine ⟨by omega, by omega, by omega, ?_⟩
  intro m h1 h2
  omega

/-- Witness of C6 at `n = 10`, the length the IPv6 optioned recipes ask for. -/
theorem fix_up_is_least_witness :
    10 ≤ 1500 ∧ (10 ≤ fix_up_destination_options_length 10
      ∧ fix_up_destination_options_length 10 % 8 = 6
      ∧ fix_up_destination_options_length 10 ≤ 10 + 7
      ∧ ∀ m, 10 ≤ m → m % 8 = 6 → fix_up_destination_options_length 10 ≤ m) :=
  ⟨by decide, fix_up_is_least 10 (by decide)⟩

/-- C7: for every `n` in `[0, 1500]`, applying
`fix_up_destination_options_length` twice gives the same as applying it once. -/
theorem fix_up_idempotent (n : Nat) (h : n ≤ 1500) :
    fix_up_destination_options_length (fix_up_destination_options_length n)
      = fix_up_destination_options_length n := by
  rw [fix_up_eq n (by omega), fix_up_eq _ (by omega)]
  omega

/-- Witness of C7 at `n = 1500`, the upper end of the range. -/
theorem fix_up_idempotent_witness :
    1500 ≤ 1500 ∧ fix_up_destination_options_length (fix_up_destination_options_length 1500)
      = fix_up_destination_options_length 1500 :=
  ⟨by decide, fix_up_idempotent 1500 (by decide)⟩

/-! ### C8 — TCP reply classification -/

/-- C8 (counterexample): an IPv4 reply that parses to a TCP header whose flags
are ACK alone is classified as success by a TCP test, although SYN is not
set. -/
theorem tcp_reply_ack_only_accepted :
    print_a_packet .little 54 ack_only_reply IPPROTO_TCP = .ok (some 34)
      ∧ ¬ (check_received_packet .little 54 ack_only_reply .TEST_IPV4_TCP = .ok 1
            ↔ (load8 ack_only_reply (34 + 13) &&& TH_SYN ≠ 0
                ∧ load8 ack_only_reply (34 + 13) &&& TH_RST = 0)) :=
  ⟨rfl, fun h => absurd (h.mp rfl).1 (by decide)⟩

/-- C8 (amended): for every TCP test and every captured frame that parses to a
TCP header, `check_received_packet` reports success if and only if the TCP
header has at least one of SYN and ACK set and RST clear; otherwise it reports
failure. -/
theorem tcp_reply_classification (e : Endian) (len : Nat) (pkt : Buf) (t : TEST_TYPE)
    (tcph : Nat) (ht : IS_TEST_TCP t.val = true)
    (hparse : print_a_packet e len pkt IPPROTO_TCP = .ok (some tcph)) :
    (check_received_packet e len pkt t = .ok 1
      ↔ ((load8 pkt (tcph + 13) &&& TH_SYN ≠ 0 ∨ load8 pkt (tcph + 13) &&& TH_ACK ≠ 0)
          ∧ load8 pkt (tcph + 13) &&& TH_RST = 0))
    ∧ (check_received_packet e len pkt t = .ok 1
        ∨ check_received_packet e len pkt t = .ok 0) := by
  have hf := flags_syn_or_ack (load8 pkt (tcph + 13)) (load8_lt _ _)
  cases t <;> simp [IS_TEST_TCP, TEST_TYPE.val] at ht <;>
    simp only [check_received_packet, IS_TEST_IPV4, IS_TEST_IPV6, IS_TEST_ICMP, TEST_TYPE.val,
      hparse, bind, Except.bind, pure, Except.pure] <;>
    by_cases h1 : (load8 pkt (tcph + 13) &&& (TH_SYN ||| TH_ACK)) ≠ 0 <;>
    by_cases h2 : load8 pkt (tcph + 13) &&& TH_RST = 0 <;>
    simp [h1, h2] <;> simp_all

/-- Witness of C8 (amended): the ACK-only IPv4 reply under the plain IPv4 SYN
test. -/
theorem tcp_reply_classification_witness :
    IS_TEST_TCP TEST_TYPE.TEST_IPV4_TCP.val = true
      ∧ print_a_packet .little 54 ack_only_reply IPPROTO_TCP = .ok (some 34)
      ∧ ((check_received_packet .little 54 ack_only_reply .TEST_IPV4_TCP = .ok 1
          ↔ ((load8 ack_only_reply (34 + 13) &&& TH_SYN ≠ 0
                ∨ load8 ack_only_reply (34 + 13) &&& TH_ACK ≠ 0)
              ∧ load8 ack_only_reply (34 + 13) &&& TH_RST = 0))
        ∧ (check_received_packet .little 54 ack_only_reply .TEST_IPV4_TCP = .ok 1
            ∨ check_received_packet .little 54 ack_only_reply .TEST_IPV4_TCP = .ok 0)) :=
  ⟨rfl, rfl, tcp_reply_classification .little 54 ack_only_reply .TEST_IPV4_TCP 34 rfl rfl⟩

/-! ### C9 — ICMP reply classification -/

/-- C9: for every ICMP test of either family and every captured frame that
parses to the ICMP header of that family (ICMP for an IPv4 test, ICMPv6 for an
IPv6 test), `check_received_packet` reports success if and only if the type is
Echo-Reply (0 for IPv4, 129 for IPv6) and the identifier, read in network byte
order, is 44128; any other type or identifier is a failure. -/
theorem icmp_reply_classification (e : Endian) (len : Nat) (pkt : Buf) (t : TEST_TYPE)
    (icmph : Nat) (ht : IS_TEST_ICMP t.val = true)
    (hparse : print_a_packet e len pkt
      (if IS_TEST_IPV4 t.val = true then IPPROTO_ICMP else IPPROTO_ICMPV6) = .ok (some icmph)) :
    (check_received_packet e len pkt t = .ok 1
      ↔ (load8 pkt icmph
            = (if IS_TEST_IPV4 t.val = true then ICMP_ECHOREPLY else ICMP6_ECHO_REPLY)
          ∧ 256 * load8 pkt (icmph + 4) + load8 pkt (icmph + 5) = SOURCE_PORT))
    ∧ (check_received_packet e len pkt t = .ok 1
        ∨ check_received_packet e len pkt t = .ok 0) := by
  have hid := load16_eq_htons_source_port e pkt (icmph + 4)
  cases t <;> simp [IS_TEST_ICMP, TEST_TYPE.val] at ht <;>
    simp only [IS_TEST_IPV4, TEST_TYPE.val] at hparse <;>
    simp only [check_received_packet, IS_TEST_IPV4, IS_TEST_IPV6, IS_TEST_ICMP, TEST_TYPE.val,
      bind, Except.bind, pure, Except.pure] <;>
    simp at hparse ⊢ <;>
    simp only [hparse] <;>
    by_cases h1 : load16 e pkt (icmph + 4) = htons e 44128 <;>
    simp_all <;>
    exact Decidable.em _

/-- Witness of C9: an ICMP Echo-Reply with identifier 44128 under the IPv4
short-fragment ICMP test. -/
theorem icmp_reply_classification_witness :
    IS_TEST_ICMP TEST_TYPE.TEST_FRAG_IPV4_ICMP.val = true
      ∧ print_a_packet .little 42 echo_reply
          (if IS_TEST_IPV4 TEST_TYPE.TEST_FRAG_IPV4_ICMP.val = true then IPPROTO_ICMP
            else IPPROTO_ICMPV6) = .ok (some 34)
      ∧ ((check_received_packet .little 42 echo_reply .TEST_FRAG_IPV4_ICMP = .ok 1
          ↔ (load8 echo_reply 34
                = (if IS_TEST_IPV4 TEST_TYPE.TEST_FRAG_IPV4_ICMP.val = true then ICMP_ECHOREPLY
                    else ICMP6_ECHO_REPLY)
              ∧ 256 * load8 echo_reply (34 + 4) + load8 echo_reply (34 + 5) = SOURCE_PORT))
        ∧ (check_received_packet .little 42 echo_reply .TEST_FRAG_IPV4_ICMP = .ok 1
            ∨ check_received_packet .little 42 echo_reply .TEST_FRAG_IPV4_ICMP = .ok 0)) :=
  ⟨rfl, rfl, icmp_reply_classification .little 42 echo_reply .TEST_FRAG_IPV4_ICMP 34 rfl rfl⟩

/-! ### C10 — IPv4 header checksum -/

/-- C10 (the code at the failing input): `build_ipv4_optioned_frag1` with the
option length 40 that both IPv4 optioned recipes pass writes a header of
20 + 40 bytes (total length 68 = 60 + 8), but stores 13 in the 4-bit header
length field (5 + 40 truncated, not 5 + 40 / 4 = 15) and sums only 13 * 4 = 52
bytes: re-summing the 60 header bytes with the stored checksum gives 0xFBFB,
not zero.  With option length 12 the field holds 1, and neither the 4 bytes it
declares nor the 32 header bytes re-sum to zero. -/
theorem ipv4_optioned_header_checksum_invalid :
    (∃ b', build_ipv4_optioned_frag1 .little example_run.mem 14 example_run.src4
          example_run.dst4 IPPROTO_TCP 0x1234 40 = .ok b'
        ∧ ip_hl b' 14 = 13
        ∧ 256 * load8 b' 16 + load8 b' 17 = 20 + 40 + 8
        ∧ ipv4_header_resum b' 14 (20 + 40) = 0xFBFB)
    ∧ (∃ b', build_ipv4_optioned_frag1 .little example_run.mem 14 example_run.src4
          example_run.dst4 IPPROTO_TCP 0x1234 12 = .ok b'
        ∧ ip_hl b' 14 = 1
        ∧ ipv4_header_resum b' 14 (ip_hl b' 14 * 4) ≠ 0
        ∧ ipv4_header_resum b' 14 (20 + 12) ≠ 0) :=
  ⟨⟨_, rfl, rfl, rfl, rfl⟩, ⟨_, rfl, rfl, by decide, by decide⟩⟩

/-- Supporting C10: the headers written by `build_ipv4`,
`build_ipv4_short_frag1` and `build_ipv4_frag2` have header length 5 and
re-sum, stored checksum included, to zero, for all addresses, protocols,
fragment identifiers and payload lengths. -/
theorem ipv4_header_checksum_roundtrip (e : Endian) (b : Buf) (iph : Nat) (s d : Addr)
    (p f n : Nat) :
    (∃ b', build_ipv4 e b iph s d p = .ok b'
        ∧ ip_hl b' iph = 5 ∧ ipv4_header_resum b' iph (ip_hl b' iph * 4) = 0)
    ∧ (∃ b', build_ipv4_short_frag1 e b iph s d p f = .ok b'
        ∧ ip_hl b' iph = 5 ∧ ipv4_header_resum b' iph (ip_hl b' iph * 4) = 0)
    ∧ (∃ b', build_ipv4_frag2 e b iph s d p f n = .ok b'
        ∧ ip_hl b' iph = 5 ∧ ipv4_header_resum b' iph (ip_hl b' iph * 4) = 0) := by
  refine ⟨?_, ?_, ?_⟩
  · obtain ⟨b', h1, h2, h3⟩ := checksum_step _ iph (ip_hl_bare e b iph s d p)
    exact ⟨b', by simp only [build_ipv4, h1], h2, h3⟩
  · obtain ⟨b', h1, h2, h3⟩ := checksum_step
      (store16 e (store16 e (store16 e (build_bare_ipv4 e b iph s d p) (iph + 6)
        (htons e (1 <<< IP_FLAGS_OFFSET))) (iph + 4) (htons e f)) (iph + 2)
        (htons e (SIZEOF_IPV4 + MINIMUM_FRAGMENT_SIZE))) iph
      (by rw [ip_hl_store16 _ _ _ _ _ (by omega), ip_hl_store16 _ _ _ _ _ (by omega),
            ip_hl_store16 _ _ _ _ _ (by omega)]; exact ip_hl_bare e b iph s d p)
    exact ⟨b', by simp only [build_ipv4_short_frag1, h1], h2, h3⟩
  · obtain ⟨b', h1, h2, h3⟩ := checksum_step
      (store16 e (store16 e (store16 e (build_bare_ipv4 e b iph s d p) (iph + 6)
        (htons e 1)) (iph + 4) (htons e f)) (iph + 2)
        (htons e (SIZEOF_IPV4 + n))) iph
      (by rw [ip_hl_store16 _ _ _ _ _ (by omega), ip_hl_store16 _ _ _ _ _ (by omega),
            ip_hl_store16 _ _ _ _ _ (by omega)]; exact ip_hl_bare e b iph s d p)
    exact ⟨b', by simp only [build_ipv4_frag2, h1], h2, h3⟩

/-! ### C11 — plain IPv4 SYN -/

/-- C11: for every run whose destination MAC parses and every 16-bit
destination port, `do_ipv4_syn` injects exactly one frame; it is 54 bytes long,
its IPv4 total length is 40, its TCP flags byte is exactly SYN, its TCP
destination port is the given port and its TCP source port is 44128. -/
theorem ipv4_syn_layout (r : RunInput) (hp : r.parses .TEST_IPV4_TCP)
    (hport : r.dstport < 65536) :
    ∃ i, run_test .TEST_IPV4_TCP r = .ok [i]
      ∧ i.len = 54
      ∧ wire_ip_length i = some 40
      ∧ i.wire (SIZEOF_ETHER + SIZEOF_IPV4 + 13) = TH_SYN
      ∧ i.wire16 (SIZEOF_ETHER + SIZEOF_IPV4 + 2) = r.dstport
      ∧ i.wire16 (SIZEOF_ETHER + SIZEOF_IPV4) = SOURCE_PORT := by
  obtain ⟨e, mem, lm, dm, s4, d4, s6, d6, dport, fragid, seq⟩ := r
  obtain ⟨⟨m, hm⟩, -⟩ := parses_elim _ _ hp
  simp only at hm hport
  subst hm
  dsimp only [run_test]
  cases e
  · exact ⟨_, rfl, rfl, ip_length_of_ipv4_bytes _ 0 40 rfl rfl rfl rfl, rfl,
      wire16_of_bytes _ 36 (htons .little dport % 256 % 256)
        (htons .little dport / 256 % 256 % 256) dport rfl rfl (htons_little_wire16 dport hport),
      wire16_of_bytes _ 34 172 96 44128 rfl rfl rfl⟩
  · exact ⟨_, rfl, rfl, ip_length_of_ipv4_bytes _ 0 40 rfl rfl rfl rfl, rfl,
      wire16_of_bytes _ 36 (htons .big dport / 256 % 256 % 256)
        (htons .big dport % 256 % 256) dport rfl rfl (htons_big_wire16 dport hport),
      wire16_of_bytes _ 34 172 96 44128 rfl rfl rfl⟩

/-- The plain IPv4 SYN layout on the run 10.0.0.1 to 10.0.0.2, port 80. -/
theorem ipv4_syn_layout_witness :
    example_run.parses .TEST_IPV4_TCP ∧ example_run.dstport < 65536
      ∧ ∃ i, run_test .TEST_IPV4_TCP example_run = .ok [i]
        ∧ i.len = 54
        ∧ wire_ip_length i = some 40
        ∧ i.wire (SIZEOF_ETHER + SIZEOF_IPV4 + 13) = TH_SYN
        ∧ i.wire16 (SIZEOF_ETHER + SIZEOF_IPV4 + 2) = example_run.dstport
        ∧ i.wire16 (SIZEOF_ETHER + SIZEOF_IPV4) = SOURCE_PORT :=
  ⟨⟨rfl, fun h => absurd h (by decide)⟩, by decide,
    ipv4_syn_layout example_run ⟨rfl, fun h => absurd h (by decide)⟩ (by decide)⟩

/-! ### C12 — IPv4 short-fragmented SYN -/

/-- C12: for every run whose destination MAC parses, `do_ipv4_short_tcp_frag`
injects exactly two frames; the first is 42 bytes long with IPv4 total length
28, the second 46 bytes long with IPv4 total length 32. -/
theorem ipv4_short_tcp_frag_layout (r : RunInput) (hp : r.parses .TEST_FRAG_IPV4_TCP) :
    ∃ i1 i2, run_test .TEST_FRAG_IPV4_TCP r = .ok [i1, i2]
      ∧ i1.len = 42 ∧ wire_ip_length i1 = some 28
      ∧ i2.len = 46 ∧ wire_ip_length i2 = some 32 := by
  obtain ⟨e, mem, lm, dm, s4, d4, s6, d6, dport, fragid, seq⟩ := r
  obtain ⟨⟨m, hm⟩, -⟩ := parses_elim _ _ hp
  simp only at hm
  subst hm
  dsimp only [run_test]
  cases e
  all_goals exact ⟨_, _, rfl, rfl, ip_length_of_ipv4_bytes _ 0 28 rfl rfl rfl rfl, rfl,
    ip_length_of_ipv4_bytes _ 0 32 rfl rfl rfl rfl⟩

/-- The IPv4 short-fragmented SYN layout on the run 10.0.0.1 to 10.0.0.2. -/
theorem ipv4_short_tcp_frag_layout_witness :
    example_run.parses .TEST_FRAG_IPV4_TCP
      ∧ ∃ i1 i2, run_test .TEST_FRAG_IPV4_TCP example_run = .ok [i1, i2]
        ∧ i1.len = 42 ∧ wire_ip_length i1 = some 28
        ∧ i2.len = 46 ∧ wire_ip_length i2 = some 32 :=
  ⟨⟨rfl, fun h => absurd h (by decide)⟩,
    ipv4_short_tcp_frag_layout example_run ⟨rfl, fun h => absurd h (by decide)⟩⟩

/-! ### C13 — IPv4 optioned first fragment: header length -/

/-- C13 (the code on every run of the test v4-frag-optioned-tcp, whose recipe
passes optlen = 40): the first frame is 82 bytes long with IPv4 total length
68 and the second 46 bytes long with total length 32, as the claim says, but
the header-length field of the first frame is 13, the low four bits of
5 + 40, and not 15 = 5 + 40 / 4. -/
theorem ipv4_optioned_ihl_field (r : RunInput) (hp : r.parses .TEST_FRAG_OPTIONED_IPV4_TCP) :
    ∃ i1 i2, run_test .TEST_FRAG_OPTIONED_IPV4_TCP r = .ok [i1, i2]
      ∧ i1.len = 82 ∧ wire_ip_length i1 = some 68
      ∧ wire_ipv4_ihl i1 = 13 ∧ wire_ipv4_ihl i1 ≠ 5 + 40 / 4
      ∧ i2.len = 46 ∧ wire_ip_length i2 = some 32 := by
  obtain ⟨e, mem, lm, dm, s4, d4, s6, d6, dport, fragid, seq⟩ := r
  obtain ⟨⟨m, hm⟩, -⟩ := parses_elim _ _ hp
  simp only at hm
  subst hm
  dsimp only [run_test]
  have key : ∃ i1 i2, do_ipv4_optioned_tcp_frag e mem lm (some m) s4 d4 dport fragid seq
        = .ok [i1, i2]
      ∧ i1.len = 82 ∧ wire_ip_length i1 = some 68
      ∧ wire_ipv4_ihl i1 = (5 + 40) % 16
      ∧ i2.len = 46 ∧ wire_ip_length i2 = some 32 := by
    cases e
    all_goals exact ⟨_, _, rfl, rfl, ip_length_of_ipv4_bytes _ 0 68 rfl rfl rfl rfl,
      ihl_of_byte _ (mem 14) (5 + 40) rfl, rfl, ip_length_of_ipv4_bytes _ 0 32 rfl rfl rfl rfl⟩
  obtain ⟨i1, i2, h1, h2, h3, h4, h5, h6⟩ := key
  exact ⟨i1, i2, h1, h2, h3, h4, by rw [h4]; decide, h5, h6⟩

/-- The header-length field of the IPv4 optioned SYN test on the run 10.0.0.1
to 10.0.0.2. -/
theorem ipv4_optioned_ihl_field_witness :
    example_run.parses .TEST_FRAG_OPTIONED_IPV4_TCP
      ∧ ∃ i1 i2, run_test .TEST_FRAG_OPTIONED_IPV4_TCP example_run = .ok [i1, i2]
        ∧ i1.len = 82 ∧ wire_ip_length i1 = some 68
        ∧ wire_ipv4_ihl i1 = 13 ∧ wire_ipv4_ihl i1 ≠ 5 + 40 / 4
        ∧ i2.len = 46 ∧ wire_ip_length i2 = some 32 :=
  ⟨⟨rfl, fun h => absurd h (by decide)⟩,
    ipv4_optioned_ihl_field example_run ⟨rfl, fun h => absurd h (by decide)⟩⟩

/-! ### C14 — IPv4 options content -/

/-- C14 (the code on every run of the two IPv4 optioned tests): in the first
frame all 40 bytes of the options area, between the 20-byte fixed header and
the layer 4 header, are NOP (0x01), and none is End-of-Options (0x00).  The
byte at which the builder wrote its zero is the first byte behind the options
area; on the wire it holds the first byte of the layer 4 header, the high byte
of the source port 44128 or the ICMP type 8. -/
theorem ipv4_options_content (t : TEST_TYPE) (r : RunInput)
    (ht : t = .TEST_FRAG_OPTIONED_IPV4_TCP ∨ t = .TEST_FRAG_OPTIONED_IPV4_ICMP)
    (hp : r.parses t) :
    ∃ i1 i2, run_test t r = .ok [i1, i2]
      ∧ i1.len = SIZEOF_ETHER + SIZEOF_IPV4 + 40 + MINIMUM_FRAGMENT_SIZE
      ∧ i1.slice (SIZEOF_ETHER + SIZEOF_IPV4) 40 = List.replicate 40 1
      ∧ 0 ∉ i1.slice (SIZEOF_ETHER + SIZEOF_IPV4) 40
      ∧ i1.wire (SIZEOF_ETHER + SIZEOF_IPV4 + 40)
          = (if IS_TEST_TCP t.val then SOURCE_PORT / 256 else ICMP_ECHO) := by
  obtain ⟨e, mem, lm, dm, s4, d4, s6, d6, dport, fragid, seq⟩ := r
  obtain ⟨⟨m, hm⟩, -⟩ := parses_elim _ _ hp
  simp only at hm
  subst hm
  have key : ∃ i1 i2, run_test t ⟨e, mem, lm, some m, s4, d4, s6, d6, dport, fragid, seq⟩
        = .ok [i1, i2]
      ∧ i1.len = 82
      ∧ i1.slice 34 40 = List.replicate 40 1
      ∧ i1.wire 74 = (if IS_TEST_TCP t.val then 172 else 8) := by
    rcases ht with rfl | rfl
    all_goals dsimp only [run_test]
    all_goals cases e
    all_goals exact ⟨_, _, rfl, rfl, rfl, rfl⟩
  obtain ⟨i1, i2, h1, h2, h3, h4⟩ := key
  refine ⟨i1, i2, h1, h2, h3, ?_, h4⟩
  simp only [SIZEOF_ETHER, SIZEOF_IPV4]
  rw [h3]
  decide

/-- The options area of the IPv4 optioned SYN test on the run 10.0.0.1 to
10.0.0.2. -/
theorem ipv4_options_content_witness :
    (TEST_TYPE.TEST_FRAG_OPTIONED_IPV4_TCP = .TEST_FRAG_OPTIONED_IPV4_TCP
        ∨ TEST_TYPE.TEST_FRAG_OPTIONED_IPV4_TCP = .TEST_FRAG_OPTIONED_IPV4_ICMP)
      ∧ example_run.parses .TEST_FRAG_OPTIONED_IPV4_TCP
      ∧ ∃ i1 i2, run_test .TEST_FRAG_OPTIONED_IPV4_TCP example_run = .ok [i1, i2]
        ∧ i1.len = SIZEOF_ETHER + SIZEOF_IPV4 + 40 + MINIMUM_FRAGMENT_SIZE
        ∧ i1.slice (SIZEOF_ETHER + SIZEOF_IPV4) 40 = List.replicate 40 1
        ∧ 0 ∉ i1.slice (SIZEOF_ETHER + SIZEOF_IPV4) 40
        ∧ i1.wire (SIZEOF_ETHER + SIZEOF_IPV4 + 40)
            = (if IS_TEST_TCP TEST_TYPE.TEST_FRAG_OPTIONED_IPV4_TCP.val then SOURCE_PORT / 256
                else ICMP_ECHO) :=
  ⟨Or.inl rfl, ⟨rfl, fun h => absurd h (by decide)⟩,
    ipv4_options_content .TEST_FRAG_OPTIONED_IPV4_TCP example_run (Or.inl rfl)
      ⟨rfl, fun h => absurd h (by decide)⟩⟩

/-! ### C15 — IPv6 short-fragmented SYN -/

/-- C15: for every run whose destination MAC and IPv6 addresses parse,
`do_ipv6_short_tcp_frag` sends two frames; in the first the IPv6 next header is
44 (Fragment), the payload length is 16 and the next header of the Fragment
extension is 6 (TCP); in the second the IPv6 next header is 44 and the payload
length is 20. -/
theorem ipv6_short_tcp_frag_layout (r : RunInput) (hp : r.parses .TEST_FRAG_IPV6_TCP) :
    ∃ i1 i2, run_test .TEST_FRAG_IPV6_TCP r = .ok [i1, i2]
      ∧ i1.wire (SIZEOF_ETHER + 6) = IPPROTO_FRAGMENT
      ∧ i1.wire16 (SIZEOF_ETHER + 4) = 16
      ∧ i1.wire (SIZEOF_ETHER + SIZEOF_IPV6) = IPPROTO_TCP
      ∧ i2.wire (SIZEOF_ETHER + 6) = IPPROTO_FRAGMENT
      ∧ i2.wire16 (SIZEOF_ETHER + 4) = 20 := by
  obtain ⟨e, mem, lm, dm, s4, d4, s6, d6, dport, fragid, seq⟩ := r
  obtain ⟨⟨m, hm⟩, h6⟩ := parses_elim _ _ hp
  simp only at hm h6
  subst hm
  obtain ⟨⟨s, rfl⟩, ⟨d, rfl⟩⟩ := h6 (by decide)
  dsimp only [run_test]
  cases e
  all_goals exact ⟨_, _, rfl, rfl, wire16_of_bytes _ 18 0 16 16 rfl rfl rfl, rfl, rfl,
    wire16_of_bytes _ 18 0 20 20 rfl rfl rfl⟩

/-- The IPv6 short-fragmented SYN layout on the run fe80::1 to fe80::2, port
443. -/
theorem ipv6_short_tcp_frag_layout_witness :
    example_run_443.parses .TEST_FRAG_IPV6_TCP
      ∧ ∃ i1 i2, run_test .TEST_FRAG_IPV6_TCP example_run_443 = .ok [i1, i2]
        ∧ i1.wire (SIZEOF_ETHER + 6) = IPPROTO_FRAGMENT
        ∧ i1.wire16 (SIZEOF_ETHER + 4) = 16
        ∧ i1.wire (SIZEOF_ETHER + SIZEOF_IPV6) = IPPROTO_TCP
        ∧ i2.wire (SIZEOF_ETHER + 6) = IPPROTO_FRAGMENT
        ∧ i2.wire16 (SIZEOF_ETHER + 4) = 20 :=
  ⟨⟨rfl, fun _ => ⟨rfl, rfl⟩⟩,
    ipv6_short_tcp_frag_layout example_run_443 ⟨rfl, fun _ => ⟨rfl, rfl⟩⟩⟩

/-! ### C16 — IPv6 Destination Options encoding -/

/-- C16 (the claim fails at optlen = 262, which is 6 modulo 8 and which the
builder accepts): the length byte of the Pad-N option is 4, not 262 - 2; the
option then covers 6 of the 262 option bytes, while the header is 264 bytes
long. -/
theorem pad_n_length_wraps :
    ∃ b', build_ipv6_optioned_frag1 .little (fun _ => 0) SIZEOF_ETHER example_run.src6
        example_run.dst6 IPPROTO_ICMPV6 0x1234 262 = .ok b'
      ∧ 262 % 8 = 6
      ∧ load8 b' (SIZEOF_ETHER + SIZEOF_IPV6 + 3) = 4
      ∧ load8 b' (SIZEOF_ETHER + SIZEOF_IPV6 + 3) ≠ 262 - 2
      ∧ ext_header_size b' (SIZEOF_ETHER + SIZEOF_IPV6) = 264
      ∧ option_size b' (SIZEOF_ETHER + SIZEOF_IPV6 + 2) = 6 :=
  ⟨_, rfl, rfl, rfl, by decide, rfl, rfl⟩

/-- C16 (amended): for every optlen that is 6 modulo 8 and at most 257, so
that optlen - 2 fits the length byte of an option, `build_ipv6_optioned_frag1`
succeeds and writes a Destination Options header whose next header is
Fragment, whose Hdr Ext Len is optlen / 8, which so is 2 + optlen bytes long,
and whose options are one Pad-N option: type byte 1, length byte optlen - 2,
optlen - 2 zero data bytes, ending where the header ends.  The Fragment
extension starts right behind the header: there are its next-header byte (the
protocol), its reserved byte 0 and its offset/flags field with only
More-Fragments set. -/
theorem dest_options_encoding (e : Endian) (b : Buf) (ip6h : Nat) (s d : Addr)
    (p f optlen : Nat) (h6 : optlen % 8 = 6) (hmax : optlen ≤ 257) :
    ∃ b', build_ipv6_optioned_frag1 e b ip6h (some s) (some d) p f optlen = .ok b'
      ∧ load8 b' (ip6h + SIZEOF_IPV6) = IPPROTO_FRAGMENT
      ∧ load8 b' (ip6h + SIZEOF_IPV6 + 1) = optlen / 8
      ∧ ext_header_size b' (ip6h + SIZEOF_IPV6) = 2 + optlen
      ∧ load8 b' (ip6h + SIZEOF_IPV6 + 2) = 1
      ∧ load8 b' (ip6h + SIZEOF_IPV6 + 3) = optlen - 2
      ∧ (∀ i, i < optlen - 2 → load8 b' (ip6h + SIZEOF_IPV6 + 4 + i) = 0)
      ∧ 2 + option_size b' (ip6h + SIZEOF_IPV6 + 2) = ext_header_size b' (ip6h + SIZEOF_IPV6)
      ∧ bytes_at b' (ip6h + SIZEOF_IPV6 + ext_header_size b' (ip6h + SIZEOF_IPV6)) 4
          = [p % 256, 0, 0, 1] := by
  refine ⟨_, build_ipv6_optioned_frag1_ok e b ip6h s d p f optlen h6, ?_⟩
  generalize hb : fill_ip6_frag e _ _ p f _ = b'
  have h40 : load8 b' (ip6h + 40) = 44 := by
    subst hb
    simp only [load8, fill_ip6_frag, store32_apply, store16_apply, store8_apply, memset_apply]
    repeat rw [if_neg (by omega)]
    simp
  have h41 : load8 b' (ip6h + 40 + 1) = optlen / 8 := by
    subst hb
    simp only [load8, fill_ip6_frag, store32_apply, store16_apply, store8_apply, memset_apply]
    repeat rw [if_neg (by omega)]
    simp only [if_true]
    omega
  have h42 : load8 b' (ip6h + 40 + 2) = 1 := by
    subst hb
    simp only [load8, fill_ip6_frag, store32_apply, store16_apply, store8_apply, memset_apply]
    repeat rw [if_neg (by omega)]
    simp
  have h43 : load8 b' (ip6h + 40 + 3) = optlen - 2 := by
    subst hb
    simp only [load8, fill_ip6_frag, store32_apply, store16_apply, store8_apply, memset_apply]
    repeat rw [if_neg (by omega)]
    simp only [if_true]
    omega
  have hz : ∀ i, i < optlen - 2 → load8 b' (ip6h + 40 + 4 + i) = 0 := by
    intro i hi
    subst hb
    simp only [load8, fill_ip6_frag, store32_apply, store16_apply, store8_apply, memset_apply]
    repeat rw [if_neg (by omega)]
    rw [if_pos (by omega)]
  have hsz : ext_header_size b' (ip6h + 40) = 2 + optlen := by
    unfold ext_header_size
    rw [h41]
    omega
  have hf0 : load8 b' (ip6h + 40 + (2 + optlen)) = p % 256 := by
    subst hb
    simp only [load8, fill_ip6_frag, store32_apply, store16_apply, store8_apply, memset_apply]
    repeat rw [if_neg (by omega)]
    rw [if_pos (by omega)]
    omega
  have hf1 : load8 b' (ip6h + 40 + (2 + optlen) + 1) = 0 := by
    subst hb
    simp only [load8, fill_ip6_frag, store32_apply, store16_apply, store8_apply, memset_apply]
    repeat rw [if_neg (by omega)]
    rw [if_pos (by omega)]
  have hf2 : load8 b' (ip6h + 40 + (2 + optlen) + 2) = 0 := by
    subst hb
    simp only [load8, fill_ip6_frag, store32_apply, store16_apply, store8_apply, memset_apply]
    rw [if_pos (by omega)]
    cases e <;> rfl
  have hf3 : load8 b' (ip6h + 40 + (2 + optlen) + 3) = 1 := by
    subst hb
    simp only [load8, fill_ip6_frag, store32_apply, store16_apply, store8_apply, memset_apply]
    rw [if_neg (by omega), if_pos (by omega)]
    cases e <;> rfl
  simp only [SIZEOF_IPV6, IPPROTO_FRAGMENT]
  refine ⟨h40, h41, hsz, h42, h43, hz, ?_, ?_⟩
  · rw [hsz]
    unfold option_size
    rw [show ip6h + 40 + 2 + 1 = ip6h + 40 + 3 by omega, h43]
    omega
  · rw [hsz]
    simp [bytes_at, List.range_succ, hf0, hf1, hf2, hf3]

/-- The Destination Options header for optlen = 14, the value both IPv6
optioned recipes pass, on a little-endian host with a zeroed buffer. -/
theorem dest_options_encoding_witness :
    14 % 8 = 6 ∧ 14 ≤ 257
      ∧ ∃ b', build_ipv6_optioned_frag1 .little (fun _ => 0) 14 (some (fun _ => 0))
          (some (fun _ => 0)) IPPROTO_ICMPV6 0x1234 14 = .ok b'
        ∧ load8 b' (14 + SIZEOF_IPV6) = IPPROTO_FRAGMENT
        ∧ load8 b' (14 + SIZEOF_IPV6 + 1) = 14 / 8
        ∧ ext_header_size b' (14 + SIZEOF_IPV6) = 2 + 14
        ∧ load8 b' (14 + SIZEOF_IPV6 + 2) = 1
        ∧ load8 b' (14 + SIZEOF_IPV6 + 3) = 14 - 2
        ∧ (∀ i, i < 14 - 2 → load8 b' (14 + SIZEOF_IPV6 + 4 + i) = 0)
        ∧ 2 + option_size b' (14 + SIZEOF_IPV6 + 2) = ext_header_size b' (14 + SIZEOF_IPV6)
        ∧ bytes_at b' (14 + SIZEOF_IPV6 + ext_header_size b' (14 + SIZEOF_IPV6)) 4
            = [IPPROTO_ICMPV6 % 256, 0, 0, 1] :=
  ⟨by decide, by decide,
    dest_options_encoding .little (fun _ => 0) 14 (fun _ => 0) (fun _ => 0) IPPROTO_ICMPV6
      0x1234 14 (by decide) (by decide)⟩

/-! ### C17 — IPv6 optioned ICMPv6 first fragment -/

/-- C17: for every run whose destination MAC and IPv6 addresses parse, the
first frame of `do_ipv6_optioned_icmp_frag` is an Ethernet header of type
0x86DD, an IPv6 header with next header 60, a Destination Options header of 16
bytes with next header 44, behind it the Fragment extension with next header
58, and then 8 bytes: ICMPv6 type 128, code 0, two checksum bytes, identifier
44128 and sequence number 1.  The injected length is 14 + 40 + 16 + 8 + 8, and
these last 8 bytes are the first 8 of the echo request assembled in the
buffer. -/
theorem ipv6_optioned_icmp_first_frame (r : RunInput)
    (hp : r.parses .TEST_FRAG_OPTIONED_IPV6_ICMP6) :
    ∃ i1 i2, run_test .TEST_FRAG_OPTIONED_IPV6_ICMP6 r = .ok [i1, i2]
      ∧ i1.wire16 12 = ETHERTYPE_IPV6
      ∧ i1.wire (SIZEOF_ETHER + 6) = IPPROTO_DSTOPTS
      ∧ i1.wire (SIZEOF_ETHER + SIZEOF_IPV6) = IPPROTO_FRAGMENT
      ∧ ipv6_fragment_header i1 = some (SIZEOF_ETHER + SIZEOF_IPV6 + 16)
      ∧ i1.wire (SIZEOF_ETHER + SIZEOF_IPV6 + 16) = IPPROTO_ICMPV6
      ∧ i1.wire (SIZEOF_ETHER + SIZEOF_IPV6 + 16 + SIZEOF_IP6_FRAG) = ICMP6_ECHO_REQUEST
      ∧ i1.wire (SIZEOF_ETHER + SIZEOF_IPV6 + 16 + SIZEOF_IP6_FRAG + 1) = 0
      ∧ i1.wire16 (SIZEOF_ETHER + SIZEOF_IPV6 + 16 + SIZEOF_IP6_FRAG + 4) = SOURCE_PORT
      ∧ i1.wire16 (SIZEOF_ETHER + SIZEOF_IPV6 + 16 + SIZEOF_IP6_FRAG + 6) = 1
      ∧ i1.len = SIZEOF_ETHER + SIZEOF_IPV6 + 16 + SIZEOF_IP6_FRAG + 8
      ∧ first_l4_bytes .TEST_FRAG_OPTIONED_IPV6_ICMP6 i1
          = (assembled_l4 .TEST_FRAG_OPTIONED_IPV6_ICMP6 i1).take 8 := by
  obtain ⟨e, mem, lm, dm, s4, d4, s6, d6, dport, fragid, seq⟩ := r
  obtain ⟨⟨m, hm⟩, h6⟩ := parses_elim _ _ hp
  simp only at hm h6
  subst hm
  obtain ⟨⟨s, rfl⟩, ⟨d, rfl⟩⟩ := h6 (by decide)
  dsimp only [run_test]
  have key : ∃ i1 i2, do_ipv6_optioned_icmp_frag e mem lm (some m) (some s) (some d) fragid
        = .ok [i1, i2]
      ∧ i1.wire16 12 = 0x86DD ∧ i1.wire 20 = 60 ∧ i1.wire 54 = 44 ∧ i1.wire 55 = 1
      ∧ i1.wire 70 = 58 ∧ i1.wire 78 = 128 ∧ i1.wire 79 = 0
      ∧ i1.wire16 82 = 44128 ∧ i1.wire16 84 = 1 ∧ i1.len = 78 + 8 := by
    cases e
    all_goals exact ⟨_, _, rfl, wire16_of_bytes _ 12 0x86 0xDD _ rfl rfl rfl, rfl, rfl, rfl, rfl,
      rfl, rfl, wire16_of_bytes _ 82 172 96 _ rfl rfl rfl, wire16_of_bytes _ 84 0 1 _ rfl rfl rfl,
      rfl⟩
  obtain ⟨i1, i2, hR, h12, h20, h54, h55, h70, h78, h79, h82, h84, hlen⟩ := key
  refine ⟨i1, i2, hR, h12, h20, h54, fragment_header_of_bytes i1 h20 h54 h55, h70, h78, h79,
    h82, h84, hlen, ?_⟩
  exact slice_eq_take i1 78 8 48 hlen (by decide)

/-- The first frame of the IPv6 optioned ICMPv6 test on the run fe80::1 to
fe80::2. -/
theorem ipv6_optioned_icmp_first_frame_witness :
    example_run.parses .TEST_FRAG_OPTIONED_IPV6_ICMP6
      ∧ ∃ i1 i2, run_test .TEST_FRAG_OPTIONED_IPV6_ICMP6 example_run = .ok [i1, i2]
        ∧ i1.wire16 12 = ETHERTYPE_IPV6
        ∧ i1.wire (SIZEOF_ETHER + 6) = IPPROTO_DSTOPTS
        ∧ i1.wire (SIZEOF_ETHER + SIZEOF_IPV6) = IPPROTO_FRAGMENT
        ∧ ipv6_fragment_header i1 = some (SIZEOF_ETHER + SIZEOF_IPV6 + 16)
        ∧ i1.wire (SIZEOF_ETHER + SIZEOF_IPV6 + 16) = IPPROTO_ICMPV6
        ∧ i1.wire (SIZEOF_ETHER + SIZEOF_IPV6 + 16 + SIZEOF_IP6_FRAG) = ICMP6_ECHO_REQUEST
        ∧ i1.wire (SIZEOF_ETHER + SIZEOF_IPV6 + 16 + SIZEOF_IP6_FRAG + 1) = 0
        ∧ i1.wire16 (SIZEOF_ETHER + SIZEOF_IPV6 + 16 + SIZEOF_IP6_FRAG + 4) = SOURCE_PORT
        ∧ i1.wire16 (SIZEOF_ETHER + SIZEOF_IPV6 + 16 + SIZEOF_IP6_FRAG + 6) = 1
        ∧ i1.len = SIZEOF_ETHER + SIZEOF_IPV6 + 16 + SIZEOF_IP6_FRAG + 8
        ∧ first_l4_bytes .TEST_FRAG_OPTIONED_IPV6_ICMP6 i1
            = (assembled_l4 .TEST_FRAG_OPTIONED_IPV6_ICMP6 i1).take 8 :=
  ⟨⟨rfl, fun _ => ⟨rfl, rfl⟩⟩,
    ipv6_optioned_icmp_first_frame example_run ⟨rfl, fun _ => ⟨rfl, rfl⟩⟩⟩

/-! ### C18 — filter safety -/

/-- C18: for every test type, every source and destination address text of at
most 15 characters for an IPv4 test and at most 45 for an IPv6 test, and every
pair of 16-bit ports, the filter expression `receive_a_packet` generates passes
its overflow check and is at most 202 characters long, so that with its
terminator it fits the `FILTER_STR_LEN` = 203 bytes of the buffer. -/
theorem filter_fits (t : TEST_TYPE) (srcip dstip : String) (srcport dstport : Nat)
    (h4 : IS_TEST_IPV4 t.val = true → srcip.length ≤ 15 ∧ dstip.length ≤ 15)
    (h6 : IS_TEST_IPV6 t.val = true → srcip.length ≤ 45 ∧ dstip.length ≤ 45) :
    ∃ s, receive_a_packet_filter srcip dstip srcport dstport t = .ok s
      ∧ s.length ≤ 202 ∧ s.length + 1 ≤ FILTER_STR_LEN := by
  have hlen := filter_text_length_le t srcip dstip srcport dstport h4 h6
  refine ⟨_, receive_a_packet_filter_ok t srcip dstip srcport dstport hlen, hlen, ?_⟩
  simp only [FILTER_STR_LEN]
  omega

/-- The filter of an IPv6 test between fe80::1 and fe80::2, ports 443 and
44128, fits. -/
theorem filter_fits_witness :
    (IS_TEST_IPV4 TEST_TYPE.TEST_FRAG_IPV6_TCP.val = true →
        ("fe80::1" : String).length ≤ 15 ∧ ("fe80::2" : String).length ≤ 15)
      ∧ (IS_TEST_IPV6 TEST_TYPE.TEST_FRAG_IPV6_TCP.val = true →
        ("fe80::1" : String).length ≤ 45 ∧ ("fe80::2" : String).length ≤ 45)
      ∧ ∃ s, receive_a_packet_filter "fe80::1" "fe80::2" 443 44128 .TEST_FRAG_IPV6_TCP = .ok s
        ∧ s.length ≤ 202 ∧ s.length + 1 ≤ FILTER_STR_LEN :=
  ⟨fun h => absurd h (by decide), fun _ => ⟨by decide, by decide⟩,
    filter_fits .TEST_FRAG_IPV6_TCP "fe80::1" "fe80::2" 443 44128
      (fun h => absurd h (by decide)) (fun _ => ⟨by decide, by decide⟩)⟩

/-! ### C19 — filter direction and grammar -/

/-- C19 (refuted on the code): `main` arms the listener with the C strings found
at the copies `copy_arg_string` made of the two address arguments, and those
copies have no terminating NUL.  For address arguments `src` and `dst`, with
`behind_src` and `behind_dst` what memory holds behind the two copies (C
strings of at most 15 characters for IPv4, 45 for IPv6) and a 16-bit target
port, the filter text is
`src DST and dst SRC and (icmp or (tcp and src port DSTPORT and dst port 44128))`
(for IPv6 with `(icmp6 and ip6[40] != 135 and ip6[40] != 136)` in the place of
`icmp`) with `behind_dst` appended to the target address and `behind_src` to
the source address; it is the text of the claim if and only if nothing lies
behind either copy. -/
theorem filter_direction_unterminated (t : TEST_TYPE) (src dst behind_src behind_dst : String)
    (dstport : Nat) (hport : dstport < 65536)
    (h4 : IS_TEST_IPV4 t.val = true →
      (src ++ behind_src).length ≤ 15 ∧ (dst ++ behind_dst).length ≤ 15)
    (h6 : IS_TEST_IPV6 t.val = true →
      (src ++ behind_src).length ≤ 45 ∧ (dst ++ behind_dst).length ≤ 45) :
    main_filter (copy_arg_string src behind_src) (copy_arg_string dst behind_dst) dstport t
        = .ok
          (if IS_TEST_IPV4 t.val then
            "src " ++ (dst ++ behind_dst) ++ " and dst " ++ (src ++ behind_src)
              ++ " and (icmp or (tcp and src port " ++ Nat.repr dstport
              ++ " and dst port 44128))"
          else
            "src " ++ (dst ++ behind_dst) ++ " and dst " ++ (src ++ behind_src)
              ++ " and ((icmp6 and ip6[40] != 135 and ip6[40] != 136) or (tcp and src port "
              ++ Nat.repr dstport ++ " and dst port 44128))")
      ∧ (main_filter (copy_arg_string src behind_src) (copy_arg_string dst behind_dst) dstport t
          = .ok
            (if IS_TEST_IPV4 t.val then
              "src " ++ dst ++ " and dst " ++ src ++ " and (icmp or (tcp and src port "
                ++ Nat.repr dstport ++ " and dst port 44128))"
            else
              "src " ++ dst ++ " and dst " ++ src
                ++ " and ((icmp6 and ip6[40] != 135 and ip6[40] != 136) or (tcp and src port "
                ++ Nat.repr dstport ++ " and dst port 44128))")
        ↔ behind_src = "" ∧ behind_dst = "") := by
  have hm := main_filter_text t (src ++ behind_src) (dst ++ behind_dst) dstport h4 h6
  have hm2 : main_filter (copy_arg_string src behind_src) (copy_arg_string dst behind_dst)
      dstport t = .ok (filter_text (dst ++ behind_dst) (src ++ behind_src) dstport SOURCE_PORT t) :=
    hm
  rw [← filter_text_spelled t (dst ++ behind_dst) (src ++ behind_src) dstport hport,
    ← filter_text_spelled t dst src dstport hport, hm2]
  refine ⟨rfl, ?_⟩
  rw [Except.ok.injEq, filter_text_append_eq]
  exact And.comm

/-- Witness of C19: the IPv6 SYN test with two addresses of 24 characters and
the character `!` behind each copy.  `parse_args` hands `main` the addresses
with the `!`, and the filter has them with the `!`; it is not the text of the
claim. -/
theorem filter_direction_unterminated_witness :
    (80 : Nat) < 65536
      ∧ (∃ st, parse_args 13 unterminated_args false 10 = .ok st
          ∧ st.srcip = some (copy_arg_string "2001:db8:1111:2222::3333" "!")
          ∧ st.dstip = some (copy_arg_string "2001:db8:aaaa:bbbb::cccc" "!")
          ∧ st.dstport = 80 ∧ st.test_type = .TEST_IPV6_TCP)
      ∧ main_filter (copy_arg_string "2001:db8:1111:2222::3333" "!")
          (copy_arg_string "2001:db8:aaaa:bbbb::cccc" "!") 80 .TEST_IPV6_TCP
        = .ok ("src 2001:db8:aaaa:bbbb::cccc! and dst 2001:db8:1111:2222::3333! and "
            ++ "((icmp6 and ip6[40] != 135 and ip6[40] != 136) or "
            ++ "(tcp and src port 80 and dst port 44128))")
      ∧ ¬ main_filter (copy_arg_string "2001:db8:1111:2222::3333" "!")
          (copy_arg_string "2001:db8:aaaa:bbbb::cccc" "!") 80 .TEST_IPV6_TCP
        = .ok ("src 2001:db8:aaaa:bbbb::cccc and dst 2001:db8:1111:2222::3333 and "
            ++ "((icmp6 and ip6[40] != 135 and ip6[40] != 136) or "
            ++ "(tcp and src port 80 and dst port 44128))") :=
  ⟨by decide, ⟨_, rfl, rfl, rfl, rfl, rfl⟩,
    (filter_direction_unterminated .TEST_IPV6_TCP "2001:db8:1111:2222::3333"
      "2001:db8:aaaa:bbbb::cccc" "!" "!" 80 (by decide) (fun h => absurd h (by decide))
      (fun _ => ⟨by decide, by decide⟩)).1,
    fun h => absurd ((filter_direction_unterminated .TEST_IPV6_TCP "2001:db8:1111:2222::3333"
      "2001:db8:aaaa:bbbb::cccc" "!" "!" 80 (by decide) (fun h => absurd h (by decide))
      (fun _ => ⟨by decide, by decide⟩)).2.mp h).1 (by decide)⟩

/-! ### C20 — test identifier predicates -/

/-- C20: for each of the ten names of `test_names`, the tag `parse_args` finds
through `test_indexes` is non-zero and differs from the tag of every other
name; `IS_TEST_IPV4` holds exactly for the names that start with `v4-` and
`IS_TEST_IPV6` exactly for those that start with `v6-`, one of the two and not
the other; `IS_TEST_TCP` holds exactly for the names that end with `tcp` and
`IS_TEST_ICMP` exactly for those that end with `icmp` or `icmp6`, one of the
two and not the other.  A name that is not in the table gives `TEST_INVALID`. -/
theorem test_identifier_predicates :
    (∀ n ∈ test_names,
        (parse_test_name n).val ≠ 0
        ∧ (∀ m ∈ test_names, m ≠ n → (parse_test_name m).val ≠ (parse_test_name n).val)
        ∧ IS_TEST_IPV4 (parse_test_name n).val = starts_with "v4-" n
        ∧ IS_TEST_IPV6 (parse_test_name n).val = starts_with "v6-" n
        ∧ IS_TEST_IPV4 (parse_test_name n).val ≠ IS_TEST_IPV6 (parse_test_name n).val
        ∧ IS_TEST_TCP (parse_test_name n).val = ends_with "tcp" n
        ∧ IS_TEST_ICMP (parse_test_name n).val = (ends_with "icmp" n || ends_with "icmp6" n)
        ∧ IS_TEST_TCP (parse_test_name n).val ≠ IS_TEST_ICMP (parse_test_name n).val)
      ∧ (∀ s, s ∉ test_names → parse_test_name s = .TEST_INVALID) :=
  ⟨by decide, fun s hs => test_lookup_absent s test_names 0 .TEST_INVALID hs⟩

/-- The name `v6-frag-icmp6` is in the table and gives the IPv6 ICMP tag 12;
the name `v5-tcp` is not and gives `TEST_INVALID`. -/
theorem test_identifier_predicates_witness :
    "v6-frag-icmp6" ∈ test_names ∧ "v5-tcp" ∉ test_names
      ∧ (parse_test_name "v6-frag-icmp6").val ≠ 0
      ∧ IS_TEST_IPV6 (parse_test_name "v6-frag-icmp6").val = starts_with "v6-" "v6-frag-icmp6"
      ∧ parse_test_name "v5-tcp" = .TEST_INVALID :=
  ⟨by decide, by decide,
    (test_identifier_predicates.1 "v6-frag-icmp6" (by decide)).1,
    (test_identifier_predicates.1 "v6-frag-icmp6" (by decide)).2.2.2.1,
    test_identifier_predicates.2 "v5-tcp" (by decide)⟩

/-! ### C21 — run outcome -/

/-- C21: after the transmission `main` exits with code 0 exactly when
`harvest_pcap_listener` returned a non-zero length and `check_received_packet`
classified the frame as success (returned 1); it exits with code 1 when the
length is 0 (timeout) and when the frame was classified as failure (returned
0); and it exits with no other code than 0 or 1. -/
theorem run_outcome (e : Endian) (r : Nat) (packet_buf : Buf) (t : TEST_TYPE) :
    (main_exit_code e r packet_buf t = 0
        ↔ r ≠ 0 ∧ check_received_packet e r packet_buf t = .ok 1)
      ∧ (r = 0 → main_exit_code e r packet_buf t = 1)
      ∧ (check_received_packet e r packet_buf t = .ok 0 → main_exit_code e r packet_buf t = 1)
      ∧ (main_exit_code e r packet_buf t = 0 ∨ main_exit_code e r packet_buf t = 1) := by
  unfold main_exit_code
  by_cases hr : r = 0
  · simp [hr]
  · simp only [hr, if_false, ne_eq, not_false_eq_true, true_and, false_implies, true_and]
    cases hc : check_received_packet e r packet_buf t with
    | error m => simp
    | ok v =>
      rcases check_received_packet_result e r packet_buf t v hc with rfl | rfl <;> simp

/-- The outcome for an ICMP Echo-Reply with identifier 44128 in an IPv4 ICMP
test is exit code 0; for no reply it is 1. -/
theorem run_outcome_witness :
    main_exit_code .little 42 echo_reply .TEST_FRAG_IPV4_ICMP = 0
      ∧ main_exit_code .little 0 echo_reply .TEST_FRAG_IPV4_ICMP = 1 :=
  ⟨(run_outcome .little 42 echo_reply .TEST_FRAG_IPV4_ICMP).1.mpr ⟨by decide, rfl⟩,
    (run_outcome .little 0 echo_reply .TEST_FRAG_IPV4_ICMP).2.1 rfl⟩

/-! ### C22 — usage errors -/

/-- C23: when the `read` of the length header does not fail (it returns 0 to 4),
`harvest_pcap_listener` returns 0, the timeout, exactly when the whole header
arrived and the length in it is 0; it ends with a child-communication error
when fewer than 4 header bytes arrived, when the length is not 0 and outside
1..1500, and when fewer frame bytes than the length arrive; otherwise it
returns the length and exactly that many frame bytes. -/
theorem harvest_validation (n1 size : Int) (frame : Option (List Nat))
    (h0 : 0 ≤ n1) (h4 : n1 ≤ 4) :
    ((∃ bytes, harvest_pcap_listener n1 size frame = .ok (0, bytes)) ↔ n1 = 4 ∧ size = 0)
      ∧ (n1 < 4 → harvest_pcap_listener n1 size frame
          = .error "Error communicating with child process.")
      ∧ (n1 = 4 → size ≠ 0 → size < 1 ∨ size > 1500 →
          harvest_pcap_listener n1 size frame = .error "Bad data received from child process.")
      ∧ (n1 = 4 → 1 ≤ size → size ≤ 1500 →
          (frame = none ∨ ∃ f, frame = some f ∧ (f.length : Int) < size) →
          harvest_pcap_listener n1 size frame
            = .error "Error communicating with child process (2).")
      ∧ (∀ f, n1 = 4 → 1 ≤ size → size ≤ 1500 → frame = some f → size ≤ (f.length : Int) →
          harvest_pcap_listener n1 size frame = .ok (size.toNat, f.take size.toNat)
            ∧ ((f.take size.toNat).length : Int) = size) := by
  have hconv : (n1 % 18446744073709551616).toNat < 4 ↔ n1 < 4 := by omega
  unfold harvest_pcap_listener
  simp only [hconv, PCAP_CAPTURE_LEN, BIG_PACKET_SIZE, Nat.cast_ofNat]
  refine ⟨?_, ?_, ?_, ?_, ?_⟩
  · constructor
    · rintro ⟨bytes, h⟩
      split at h
      · exact absurd h (by simp)
      · split at h
        · exact ⟨by omega, by assumption⟩
        · split at h
          · exact absurd h (by simp)
          · split at h
            · exact absurd h (by simp)
            · injection h with h
              injection h with h1 h2
              omega
    · rintro ⟨rfl, rfl⟩
      exact ⟨[], by simp⟩
  · intro h
    rw [if_pos h]
  · intro h1 h2 h3
    rw [if_neg (by omega), if_neg h2, if_pos (by omega)]
  · intro h1 h2 h3 h5
    rw [if_neg (by omega), if_neg (by omega), if_neg (by omega)]
    rcases h5 with rfl | ⟨f, rfl, hf⟩
    · simp only []
      rw [if_pos (by omega)]
    · simp only []
      rw [if_pos hf]
  · intro f h1 h2 h3 h5 h6
    subst h5
    rw [if_neg (by omega), if_neg (by omega), if_neg (by omega)]
    simp only []
    rw [if_neg (by omega)]
    refine ⟨by simp, ?_⟩
    rw [List.length_take]
    omega

/-- A listener that sends the length 3 and three bytes: the orchestrator
gets 3 and the three bytes. -/
theorem harvest_validation_witness :
    (0 : Int) ≤ 4 ∧ (4 : Int) ≤ 4
      ∧ harvest_pcap_listener 4 3 (some [1, 2, 3]) = .ok (3, [1, 2, 3])
      ∧ harvest_pcap_listener 2 3 (some [1, 2, 3])
          = .error "Error communicating with child process." :=
  ⟨by decide, by decide,
    ((harvest_validation 4 3 (some [1, 2, 3]) (by decide) (by decide)).2.2.2.2 [1, 2, 3] rfl
      (by decide) (by decide) rfl (by decide)).1,
    (harvest_validation 2 3 (some [1, 2, 3]) (by decide) (by decide)).2.1 (by decide)⟩

/-! ### C24 — packet buffer bound -/

/-- C24: in every one of the ten recipes, for every run whose strings parse,
what the recipe assembles (the headers up to the layer 4 header, that header
and the payload) fits the buffer the recipe allocated, 1500 bytes for the
fragmented recipes and the frame size for the two plain SYN recipes; every
injected length is at most the buffer size; and at every injection the memory
from the end of the buffer on is what it was before the recipe ran, so that no
builder, `memset` or `memmove` has written at an offset outside the buffer. -/
theorem packet_buffer_bound (t : TEST_TYPE) (r : RunInput) (ht : t ≠ .TEST_INVALID)
    (hp : r.parses t) :
    first_l4_offset t + l4_total_size t ≤ recipe_buffer_size t
      ∧ ∃ frames, run_test t r = .ok frames
        ∧ ∀ x ∈ frames, x.within (recipe_buffer_size t) r.mem := by
  obtain ⟨e, mem, lm, dm, s4, d4, s6, d6, dport, fragid, seq⟩ := r
  obtain ⟨⟨m, hm⟩, h6⟩ := parses_elim _ _ hp
  simp only at hm h6
  subst hm
  cases t
  case TEST_INVALID => exact absurd rfl ht
  case TEST_IPV4_TCP => exact ⟨by decide, do_ipv4_syn_within e mem lm m s4 d4 dport seq⟩
  case TEST_FRAG_IPV4_TCP =>
    exact ⟨by decide, do_ipv4_short_tcp_frag_within e mem lm m s4 d4 dport fragid seq⟩
  case TEST_FRAG_OPTIONED_IPV4_TCP =>
    exact ⟨by decide, do_ipv4_optioned_tcp_frag_within e mem lm m s4 d4 dport fragid seq⟩
  case TEST_FRAG_IPV4_ICMP =>
    exact ⟨by decide, do_ipv4_short_icmp_frag_within e mem lm m s4 d4 fragid⟩
  case TEST_FRAG_OPTIONED_IPV4_ICMP =>
    exact ⟨by decide, do_ipv4_optioned_icmp_frag_within e mem lm m s4 d4 fragid⟩
  case TEST_IPV6_TCP =>
    obtain ⟨⟨s, rfl⟩, ⟨d, rfl⟩⟩ := h6 (by decide)
    exact ⟨by decide, do_ipv6_syn_within e mem lm m s d dport seq⟩
  case TEST_FRAG_IPV6_TCP =>
    obtain ⟨⟨s, rfl⟩, ⟨d, rfl⟩⟩ := h6 (by decide)
    exact ⟨by decide, do_ipv6_short_tcp_frag_within e mem lm m s d dport fragid seq⟩
  case TEST_FRAG_OPTIONED_IPV6_TCP =>
    obtain ⟨⟨s, rfl⟩, ⟨d, rfl⟩⟩ := h6 (by decide)
    exact ⟨by decide, do_ipv6_optioned_tcp_frag_within e mem lm m s d dport fragid seq⟩
  case TEST_FRAG_IPV6_ICMP6 =>
    obtain ⟨⟨s, rfl⟩, ⟨d, rfl⟩⟩ := h6 (by decide)
    exact ⟨by decide, do_ipv6_short_icmp_frag_within e mem lm m s d fragid⟩
  case TEST_FRAG_OPTIONED_IPV6_ICMP6 =>
    obtain ⟨⟨s, rfl⟩, ⟨d, rfl⟩⟩ := h6 (by decide)
    exact ⟨by decide, do_ipv6_optioned_icmp_frag_within e mem lm m s d fragid⟩

/-- The buffer bound of the IPv6 optioned ICMPv6 test on the run fe80::1 to
fe80::2. -/
theorem packet_buffer_bound_witness :
    TEST_TYPE.TEST_FRAG_OPTIONED_IPV6_ICMP6 ≠ .TEST_INVALID
      ∧ example_run.parses .TEST_FRAG_OPTIONED_IPV6_ICMP6
      ∧ first_l4_offset .TEST_FRAG_OPTIONED_IPV6_ICMP6
          + l4_total_size .TEST_FRAG_OPTIONED_IPV6_ICMP6
          ≤ recipe_buffer_size .TEST_FRAG_OPTIONED_IPV6_ICMP6
      ∧ ∃ frames, run_test .TEST_FRAG_OPTIONED_IPV6_ICMP6 example_run = .ok frames
        ∧ ∀ x ∈ frames,
            x.within (recipe_buffer_size .TEST_FRAG_OPTIONED_IPV6_ICMP6) example_run.mem :=
  ⟨by decide, ⟨rfl, fun _ => ⟨rfl, rfl⟩⟩,
    packet_buffer_bound .TEST_FRAG_OPTIONED_IPV6_ICMP6 example_run (by decide)
      ⟨rfl, fun _ => ⟨rfl, rfl⟩⟩⟩

/-! ### C25 — bare IPv4 header -/

/-- C25: for all addresses, every protocol value, either host byte order and
whatever the buffer held, `build_bare_ipv4` leaves these 20 header bytes:
0x45 (version 4, IHL 5), TOS 0, total length 0x00 0x28 = 40, ID 0 0, flags and
fragment offset 0 0, TTL 64, the protocol (an `unsigned char`), checksum 0 0,
then the four bytes of the source and of the destination address. -/
theorem bare_ipv4_fields (e : Endian) (b : Buf) (iph : Nat) (s d : Addr) (p : Nat) :
    bytes_at (build_bare_ipv4 e b iph s d p) iph 12
        = [0x45, 0, 0, 40, 0, 0, 0, 0, 64, p % 256, 0, 0]
      ∧ bytes_at (build_bare_ipv4 e b iph s d p) (iph + 12) 4
        = [s 0 % 256, s 1 % 256, s 2 % 256, s 3 % 256]
      ∧ bytes_at (build_bare_ipv4 e b iph s d p) (iph + 16) 4
        = [d 0 % 256, d 1 % 256, d 2 % 256, d 3 % 256] := by
  have h0 : load8 (build_bare_ipv4 e b iph s d p) iph = 0x45 := by
    simp only [load8, build_bare_ipv4, store_addr_apply, store16_apply, store8_apply,
      set_lo4_apply, set_hi4_apply]
    repeat rw [if_neg (by omega)]
    simp only [if_true]
    omega
  refine ⟨?_, ?_, ?_⟩
  · simp only [bytes_at, List.range_succ, List.range_zero, List.nil_append, List.map_append,
      List.map_cons, List.map_nil, List.cons_append, Nat.add_zero, h0]
    cases e <;>
      simp [load8, build_bare_ipv4, store_addr_apply, store16_apply, store8_apply,
        set_lo4_apply, set_hi4_apply, htons]
  · cases e <;>
      simp [bytes_at, List.range_succ, load8, build_bare_ipv4, store_addr_apply, store16_apply,
        store8_apply, set_lo4_apply, set_hi4_apply]
  · cases e <;>
      simp [bytes_at, List.range_succ, load8, build_bare_ipv4, store_addr_apply, store16_apply,
        store8_apply, set_lo4_apply, set_hi4_apply, Nat.add_assoc]

/-! ### C26 — TCP SYN header -/

/-- C26: for every 16-bit source and destination port and every 32-bit sequence
value, either host byte order and whatever the buffer held, `build_tcp_syn`
succeeds and leaves a TCP header with the two ports and the sequence number
in network byte order, acknowledgement number 0, data offset 5 and reserved
bits 0, flags byte exactly SYN (0x02), window 0xFFFF = 65535 and urgent pointer
0; it changes no byte outside the 20 bytes of the header.  (Bytes 16 and 17
hold the checksum.) -/
theorem tcp_syn_fields (e : Endian) (b : Buf) (iph tcph srcport dstport seq : Nat)
    (hs : srcport < 65536) (hd : dstport < 65536) (hq : seq < 4294967296) :
    ∃ b', build_tcp_syn e b iph tcph srcport dstport seq = .ok b'
      ∧ bytes_at b' tcph 2 = [srcport / 256, srcport % 256]
      ∧ bytes_at b' (tcph + 2) 2 = [dstport / 256, dstport % 256]
      ∧ bytes_at b' (tcph + 4) 4
          = [seq / 16777216, seq / 65536 % 256, seq / 256 % 256, seq % 256]
      ∧ bytes_at b' (tcph + 8) 4 = [0, 0, 0, 0]
      ∧ load8 b' (tcph + 12) / 16 = 5 ∧ load8 b' (tcph + 12) % 16 = 0
      ∧ load8 b' (tcph + 13) = TH_SYN
      ∧ bytes_at b' (tcph + 14) 2 = [0xFF, 0xFF]
      ∧ bytes_at b' (tcph + 18) 2 = [0, 0]
      ∧ (∀ i, i < tcph ∨ tcph + SIZEOF_TCP ≤ i → b' i = b i) := by
  obtain ⟨c, hok⟩ := build_tcp_syn_ok e b iph tcph srcport dstport seq
  refine ⟨_, hok, ?_⟩
  generalize hb : store16_be _ _ c = b'
  have h12 : load8 b' (tcph + 12) = 80 := by
    subst hb
    simp only [load8, store16_be_apply, store16_apply, store8_apply, set_hi4_apply,
      set_lo4_apply]
    repeat rw [if_neg (by omega)]
    simp only [if_true]
    omega
  have hl := htonl_little_bytes seq
  refine ⟨?_, ?_, ?_, ?_, ?_, ?_, ?_, ?_, ?_, ?_⟩
  · subst hb
    cases e
    · simp [bytes_at, List.range_succ, load8, store16_be_apply, store16_apply, store8_apply,
        set_hi4_apply, set_lo4_apply, store32_apply, htons, swap16_lo, swap16_hi, Nat.add_assoc]
      omega
    · simp [bytes_at, List.range_succ, load8, store16_be_apply, store16_apply, store8_apply,
        set_hi4_apply, set_lo4_apply, store32_apply, htons, Nat.add_assoc]
      omega
  · subst hb
    cases e
    · simp [bytes_at, List.range_succ, load8, store16_be_apply, store16_apply, store8_apply,
        set_hi4_apply, set_lo4_apply, store32_apply, htons, swap16_lo, swap16_hi, Nat.add_assoc]
      omega
    · simp [bytes_at, List.range_succ, load8, store16_be_apply, store16_apply, store8_apply,
        set_hi4_apply, set_lo4_apply, store32_apply, htons, Nat.add_assoc]
      omega
  · subst hb
    cases e
    · simp [bytes_at, List.range_succ, load8, store16_be_apply, store16_apply, store8_apply,
        set_hi4_apply, set_lo4_apply, store32_apply, Nat.add_assoc, hl]
      omega
    · simp [bytes_at, List.range_succ, load8, store16_be_apply, store16_apply, store8_apply,
        set_hi4_apply, set_lo4_apply, store32_apply, htonl, Nat.add_assoc]
      omega
  · subst hb
    cases e <;>
    simp [bytes_at, List.range_succ, load8, store16_be_apply, store16_apply, store8_apply,
        set_hi4_apply, set_lo4_apply, store32_apply, Nat.add_assoc]
  · rw [h12]
  · rw [h12]
  · subst hb
    simp [load8, store16_be_apply, store16_apply, store8_apply,
        set_hi4_apply, set_lo4_apply, store32_apply, Nat.add_assoc]
  · subst hb
    cases e <;>
    simp [bytes_at, List.range_succ, load8, store16_be_apply, store16_apply, store8_apply,
        set_hi4_apply, set_lo4_apply, store32_apply, Nat.add_assoc]
  · subst hb
    cases e <;>
    simp [bytes_at, List.range_succ, load8, store16_be_apply, store16_apply, store8_apply,
        set_hi4_apply, set_lo4_apply, store32_apply, Nat.add_assoc]
  · intro i hi
    subst hb
    simp only [store16_be_apply, store16_apply, store8_apply, set_hi4_apply, set_lo4_apply,
      store32_apply, SIZEOF_TCP] at hi ⊢
    repeat rw [if_neg (by omega)]

/-- The TCP SYN header for ports 44128 and 80 on a little-endian host. -/
theorem tcp_syn_fields_witness :
    (44128 : Nat) < 65536 ∧ (80 : Nat) < 65536 ∧ (0x01020304 : Nat) < 4294967296
      ∧ ∃ b', build_tcp_syn .little (fun _ => 0) 14 34 44128 80 0x01020304 = .ok b'
        ∧ bytes_at b' 34 2 = [44128 / 256, 44128 % 256]
        ∧ bytes_at b' (34 + 2) 2 = [80 / 256, 80 % 256]
        ∧ bytes_at b' (34 + 4) 4
            = [0x01020304 / 16777216, 0x01020304 / 65536 % 256, 0x01020304 / 256 % 256,
                0x01020304 % 256]
        ∧ bytes_at b' (34 + 8) 4 = [0, 0, 0, 0]
        ∧ load8 b' (34 + 12) / 16 = 5 ∧ load8 b' (34 + 12) % 16 = 0
        ∧ load8 b' (34 + 13) = TH_SYN
        ∧ bytes_at b' (34 + 14) 2 = [0xFF, 0xFF]
        ∧ bytes_at b' (34 + 18) 2 = [0, 0]
        ∧ (∀ i, i < 34 ∨ 34 + SIZEOF_TCP ≤ i → b' i = (fun _ => 0 : Buf) i) :=
  ⟨by decide, by decide, by decide,
    tcp_syn_fields .little (fun _ => 0) 14 34 44128 80 0x01020304 (by decide) (by decide)
      (by decide)⟩

/-! ### C27 — echo request -/

/-- C27: for every payload length `n`, either host byte order and whatever the
buffer held, `build_icmp_ping` and `build_icmp6_ping` succeed and leave type 8
(resp. 128), code 0, identifier 44128 and sequence number 1 in network byte
order, then `n` payload bytes that are all 0x01; they change no byte before
the header or from offset 8 + `n` of it on.  (Bytes 2 and 3 hold the
checksum.) -/
theorem echo_request_fields (e : Endian) (b : Buf) (iph h n : Nat) :
    (∃ b', build_icmp_ping e b iph h n = .ok b'
      ∧ load8 b' h = ICMP_ECHO ∧ load8 b' (h + 1) = 0
      ∧ bytes_at b' (h + 4) 2 = [SOURCE_PORT / 256, SOURCE_PORT % 256]
      ∧ bytes_at b' (h + 6) 2 = [0, 1]
      ∧ (∀ i, i < n → load8 b' (h + SIZEOF_PING + i) = 0x01)
      ∧ (∀ i, i < h ∨ h + SIZEOF_PING + n ≤ i → b' i = b i))
    ∧ (∃ b', build_icmp6_ping e b iph h n = .ok b'
      ∧ load8 b' h = ICMP6_ECHO_REQUEST ∧ load8 b' (h + 1) = 0
      ∧ bytes_at b' (h + 4) 2 = [SOURCE_PORT / 256, SOURCE_PORT % 256]
      ∧ bytes_at b' (h + 6) 2 = [0, 1]
      ∧ (∀ i, i < n → load8 b' (h + SIZEOF_ICMP6 + i) = 0x01)
      ∧ (∀ i, i < h ∨ h + SIZEOF_ICMP6 + n ≤ i → b' i = b i)) := by
  obtain ⟨c4, h4⟩ := build_icmp_ping_ok e b iph h n
  obtain ⟨c6, h6⟩ := build_icmp6_ping_ok e b iph h n
  have f4 := echo_fields e b h 8 n c4 (by decide)
  have f6 := echo_fields e b h 128 n c6 (by decide)
  simp only [bytes_at, List.range_succ, List.range_zero, List.map_append, List.map_cons,
    List.map_nil, List.nil_append, List.cons_append, Nat.add_zero, List.cons.injEq, and_true,
    Nat.add_assoc, Nat.reduceAdd] at f4 f6
  simp only [bytes_at, List.range_succ, List.range_zero, List.map_append, List.map_cons,
    List.map_nil, List.nil_append, List.cons_append, Nat.add_zero, List.cons.injEq, and_true,
    ICMP_ECHO, ICMP6_ECHO_REQUEST, SOURCE_PORT, SIZEOF_PING, SIZEOF_ICMP6, Nat.add_assoc,
    Nat.reduceAdd, Nat.reduceDiv, Nat.reduceMod]
  refine ⟨⟨_, h4, ?_⟩, ⟨_, h6, ?_⟩⟩
  · obtain ⟨⟨a1, a2⟩, ⟨a3, a4, a5, a6⟩, a7, a8⟩ := f4
    exact ⟨a1, a2, ⟨a3, a4⟩, ⟨a5, a6⟩, a7, a8⟩
  · obtain ⟨⟨a1, a2⟩, ⟨a3, a4, a5, a6⟩, a7, a8⟩ := f6
    exact ⟨a1, a2, ⟨a3, a4⟩, ⟨a5, a6⟩, a7, a8⟩

/-- The echo requests with 40 payload bytes at offset 34 of a zeroed buffer. -/
theorem echo_request_fields_witness :
    (∃ b', build_icmp_ping .little (fun _ => 0) 14 34 40 = .ok b'
        ∧ load8 b' 34 = ICMP_ECHO ∧ (∀ i, i < 40 → load8 b' (34 + SIZEOF_PING + i) = 0x01))
      ∧ (∃ b', build_icmp6_ping .little (fun _ => 0) 14 34 40 = .ok b'
        ∧ load8 b' 34 = ICMP6_ECHO_REQUEST
        ∧ (∀ i, i < 40 → load8 b' (34 + SIZEOF_ICMP6 + i) = 0x01)) :=
  ⟨(echo_request_fields .little (fun _ => 0) 14 34 40).1.imp
      (fun _ h => ⟨h.1, h.2.1, h.2.2.2.2.2.1⟩),
    (echo_request_fields .little (fun _ => 0) 14 34 40).2.imp
      (fun _ h => ⟨h.1, h.2.1, h.2.2.2.2.2.1⟩)⟩

/-! ### C28 — readiness ordering -/

/-- C28 (the code on an IPv4 run whose source address text has 150 characters):
the listener's filter text fails the overflow check, so the listener ends in
`errx` without installing a filter or writing the readiness byte; the `read`
of the orchestrator then returns 0 at the end of the pipe, its result is not
looked at, and the orchestrator goes on to `pcap_inject`.  After the schedule
listener, orchestrator, orchestrator the orchestrator has injected, while no
filter is installed and no readiness byte was written. -/
theorem inject_without_readiness :
    main_filter long_address "10.0.0.2" 80 .TEST_IPV4_TCP
        = .error "snprintf for pcap filter failed"
      ∧ (run_schedule (main_filter long_address "10.0.0.2" 80 .TEST_IPV4_TCP) true
          [.listener, .orchestrator, .orchestrator] after_fork).orchestrator = .injecting
      ∧ (run_schedule (main_filter long_address "10.0.0.2" 80 .TEST_IPV4_TCP) true
          [.listener, .orchestrator, .orchestrator] after_fork).ready_written = false
      ∧ (run_schedule (main_filter long_address "10.0.0.2" 80 .TEST_IPV4_TCP) true
          [.listener, .orchestrator, .orchestrator] after_fork).filter_installed = false := by
  rw [long_filter_error]
  exact ⟨rfl, rfl, rfl, rfl⟩

/-! ### C29 — filter overflow -/

/-- C29: whenever the formatted filter text has 203 or more characters,
`receive_a_packet` ends with the error of its overflow check before
`pcap_compile`; and whenever it goes on to compile a filter, that filter is
the whole formatted text, of fewer than 203 characters, never a truncated
one. -/
theorem filter_overflow (t : TEST_TYPE) (srcip dstip : String) (srcport dstport : Nat) :
    ((filter_text srcip dstip srcport dstport t).length ≥ 203 →
        receive_a_packet_filter srcip dstip srcport dstport t
          = .error "snprintf for pcap filter failed")
      ∧ (∀ s, receive_a_packet_filter srcip dstip srcport dstport t = .ok s →
        s = filter_text srcip dstip srcport dstport t ∧ s.length < 203) := by
  unfold receive_a_packet_filter
  simp only [FILTER_STR_LEN]
  constructor
  · intro h
    rw [if_pos h]
  · intro s hs
    by_cases h : (filter_text srcip dstip srcport dstport t).length ≥ 203
    · rw [if_pos h] at hs
      exact absurd hs (by simp)
    · rw [if_neg h] at hs
      injection hs with hs
      subst hs
      exact ⟨rfl, by omega⟩

/-- With a source address of 150 characters the IPv4 filter text has 226
characters and `receive_a_packet` ends with the overflow error. -/
theorem filter_overflow_witness :
    (filter_text "10.0.0.2" long_address 80 44128 .TEST_IPV4_TCP).length ≥ 203
      ∧ receive_a_packet_filter "10.0.0.2" long_address 80 44128 .TEST_IPV4_TCP
          = .error "snprintf for pcap filter failed" :=
  ⟨long_filter_length ▸ (by decide),
    (filter_overflow .TEST_IPV4_TCP "10.0.0.2" long_address 80 44128).1
      (long_filter_length ▸ (by decide))⟩

/-! ### C30 — IPv6 short ICMP second fragment -/

/-- C30: for every run whose strings parse, the second frame of
`do_ipv6_short_icmp_frag` has the payload length 8 + (20 - 8) = 20 in its IPv6
header, and is injected with the length 14 + 40 + 8 + (8 + 40 - 8) = 102; 12
bytes of the layer 4 tail were moved down by 8 (bytes 62..73 of the frame are
bytes 70..81 of the first buffer) and the 28 bytes behind them were not (bytes
74..101 are where they were).  The second frame of `do_ipv6_optioned_icmp_frag`
declares the payload length 8 + (8 + 40 - 8) = 48 and is also 102 bytes long. -/
theorem ipv6_short_icmp_second_fragment (r : RunInput) (hp : r.parses .TEST_FRAG_IPV6_ICMP6) :
    (∃ i1 i2, run_test .TEST_FRAG_IPV6_ICMP6 r = .ok [i1, i2]
      ∧ i2.wire16 (SIZEOF_ETHER + 4) = SIZEOF_IP6_FRAG + (SIZEOF_TCP - MINIMUM_FRAGMENT_SIZE)
      ∧ i2.len = SIZEOF_ETHER + SIZEOF_IPV6 + SIZEOF_IP6_FRAG
          + (SIZEOF_ICMP6 + 40 - MINIMUM_FRAGMENT_SIZE)
      ∧ i2.len = 102
      ∧ i2.slice 62 12 = bytes_at i1.mem 70 12
      ∧ i2.slice 74 28 = bytes_at i1.mem 74 28)
    ∧ (∃ j1 j2, run_test .TEST_FRAG_OPTIONED_IPV6_ICMP6 r = .ok [j1, j2]
      ∧ j2.wire16 (SIZEOF_ETHER + 4) = SIZEOF_IP6_FRAG + (SIZEOF_ICMP6 + 40 - MINIMUM_FRAGMENT_SIZE)
      ∧ j2.len = 102) := by
  obtain ⟨e, mem, lm, dm, s4, d4, s6, d6, dport, fragid, seq⟩ := r
  obtain ⟨⟨m, hm⟩, h6⟩ := parses_elim _ _ hp
  simp only at hm h6
  subst hm
  obtain ⟨⟨s, rfl⟩, ⟨d, rfl⟩⟩ := h6 (by decide)
  dsimp only [run_test]
  constructor
  · have key : ∃ i1 b2,
        do_ipv6_short_icmp_frag e mem lm (some m) (some s) (some d) fragid
          = .ok [i1, ⟨memmove b2 62 70 12, 102⟩]
        ∧ build_ipv6_frag2 e i1.mem 14 (some s) (some d) IPPROTO_ICMPV6 (fragid % 65536) 12
            = .ok b2
        ∧ Injection.wire16 ⟨memmove b2 62 70 12, 102⟩ 18 = 20 := by
      cases e
      all_goals exact ⟨_, _, rfl, rfl, wire16_of_bytes _ 18 0 20 20 rfl rfl rfl⟩
    obtain ⟨i1, b2, hR, hb2, h18⟩ := key
    have hfr : ∀ i, 62 ≤ i → b2 i = i1.mem i := fun i hi =>
      build_ipv6_frag2_frame _ _ _ _ _ _ _ _ _ hb2 i (by omega)
    refine ⟨i1, _, hR, h18, rfl, rfl, ?_, ?_⟩
    · rw [slice_eq_bytes_at _ 62 12 (show (62 : ℕ) + 12 ≤ 102 by decide)]
      show bytes_at (memmove b2 62 70 12) 62 12 = _
      rw [bytes_at_memmove]
      exact bytes_at_congr _ _ _ _ (fun i hi _ => hfr i (by omega))
    · rw [slice_eq_bytes_at _ 74 28 (show (74 : ℕ) + 28 ≤ 102 by decide)]
      show bytes_at (memmove b2 62 70 12) 74 28 = _
      rw [bytes_at_memmove_outside _ _ _ _ _ _ (by omega)]
      exact bytes_at_congr _ _ _ _ (fun i hi _ => hfr i (by omega))
  · cases e
    all_goals exact ⟨_, _, rfl, wire16_of_bytes _ 18 0 48 48 rfl rfl rfl, rfl⟩

/-- The second fragment of the IPv6 short ICMPv6 test on the run fe80::1 to
fe80::2. -/
theorem ipv6_short_icmp_second_fragment_witness :
    example_run.parses .TEST_FRAG_IPV6_ICMP6
      ∧ ∃ i1 i2, run_test .TEST_FRAG_IPV6_ICMP6 example_run = .ok [i1, i2]
        ∧ i2.wire16 (SIZEOF_ETHER + 4) = SIZEOF_IP6_FRAG + (SIZEOF_TCP - MINIMUM_FRAGMENT_SIZE)
        ∧ i2.len = SIZEOF_ETHER + SIZEOF_IPV6 + SIZEOF_IP6_FRAG
            + (SIZEOF_ICMP6 + 40 - MINIMUM_FRAGMENT_SIZE)
        ∧ i2.len = 102
        ∧ i2.slice 62 12 = bytes_at i1.mem 70 12
        ∧ i2.slice 74 28 = bytes_at i1.mem 74 28 :=
  ⟨⟨rfl, fun _ => ⟨rfl, rfl⟩⟩,
    (ipv6_short_icmp_second_fragment example_run ⟨rfl, fun _ => ⟨rfl, rfl⟩⟩).1⟩

/-! ### C31 — IPv4 optioned ICMP second frame -/

/-- C31: for every run, the second frame `do_ipv4_optioned_icmp_frag` injects
is 14 + 20 + 8 + 40 = 82 bytes long while its IPv4 total length field says
20 + 40 = 60, so the frame is exactly 8 bytes longer than 14 plus its IP
total length; the second frame of `do_ipv4_short_icmp_frag` is 74 bytes with
total length 60, where the two agree. -/
theorem ipv4_optioned_icmp_second_frame (r : RunInput)
    (hp : r.parses .TEST_FRAG_OPTIONED_IPV4_ICMP) :
    (∃ i1 i2, run_test .TEST_FRAG_OPTIONED_IPV4_ICMP r = .ok [i1, i2]
      ∧ i2.len = SIZEOF_ETHER + SIZEOF_IPV4 + SIZEOF_PING + 40
      ∧ i2.len = 82
      ∧ wire_ip_length i2 = some (SIZEOF_IPV4 + 40)
      ∧ i2.len = SIZEOF_ETHER + (SIZEOF_IPV4 + 40) + 8)
    ∧ (∃ j1 j2, run_test .TEST_FRAG_IPV4_ICMP r = .ok [j1, j2]
      ∧ j2.len = 74
      ∧ wire_ip_length j2 = some 60
      ∧ j2.len = SIZEOF_ETHER + 60) := by
  obtain ⟨e, mem, lm, dm, s4, d4, s6, d6, dport, fragid, seq⟩ := r
  obtain ⟨⟨m, hm⟩, -⟩ := parses_elim _ _ hp
  simp only at hm
  subst hm
  dsimp only [run_test]
  constructor
  · cases e
    all_goals exact ⟨_, _, rfl, rfl, rfl, ip_length_of_ipv4_bytes _ 0 60 rfl rfl rfl rfl, rfl⟩
  · cases e
    all_goals exact ⟨_, _, rfl, rfl, ip_length_of_ipv4_bytes _ 0 60 rfl rfl rfl rfl, rfl⟩

/-- Witness of C31: the example run. -/
theorem ipv4_optioned_icmp_second_frame_witness :
    example_run.parses .TEST_FRAG_OPTIONED_IPV4_ICMP
      ∧ ((∃ i1 i2, run_test .TEST_FRAG_OPTIONED_IPV4_ICMP example_run = .ok [i1, i2]
          ∧ i2.len = SIZEOF_ETHER + SIZEOF_IPV4 + SIZEOF_PING + 40
          ∧ i2.len = 82
          ∧ wire_ip_length i2 = some (SIZEOF_IPV4 + 40)
          ∧ i2.len = SIZEOF_ETHER + (SIZEOF_IPV4 + 40) + 8)
        ∧ (∃ j1 j2, run_test .TEST_FRAG_IPV4_ICMP example_run = .ok [j1, j2]
          ∧ j2.len = 74
          ∧ wire_ip_length j2 = some 60
          ∧ j2.len = SIZEOF_ETHER + 60)) :=
  ⟨⟨rfl, fun h => absurd h (by decide)⟩,
    ipv4_optioned_icmp_second_frame example_run ⟨rfl, fun h => absurd h (by decide)⟩⟩

/-! ### C32 — Frame and IP length agreement -/

/-- C32: for each of the eight recipes other than `do_ipv4_optioned_icmp_frag`
and `do_ipv6_short_icmp_frag`, on every run whose addresses parse the recipe
injects its frames and the length of every frame is 14 plus the length its IP
header declares (the IPv4 total length, or 40 plus the IPv6 payload
length). -/
theorem frame_length_agreement (t : TEST_TYPE) (r : RunInput) (ht : t ≠ .TEST_INVALID)
    (h1 : t ≠ .TEST_FRAG_OPTIONED_IPV4_ICMP) (h2 : t ≠ .TEST_FRAG_IPV6_ICMP6)
    (hp : r.parses t) :
    ∃ frames, run_test t r = .ok frames ∧ ∀ x ∈ frames, ∃ n, wire_ip_length x = some n ∧ x.len = SIZEOF_ETHER + n := by
  obtain ⟨e, mem, lm, dm, s4, d4, s6, d6, dport, fragid, seq⟩ := r
  obtain ⟨⟨m, hm⟩, h6⟩ := parses_elim _ _ hp
  simp only at hm h6
  subst hm
  cases t
  case TEST_INVALID => exact absurd rfl ht
  case TEST_FRAG_OPTIONED_IPV4_ICMP => exact absurd rfl h1
  case TEST_FRAG_IPV6_ICMP6 => exact absurd rfl h2
  case TEST_IPV4_TCP =>
    dsimp only [run_test]
    cases e
    all_goals exact agree_one _ 40 ⟨_, rfl, ip_length_of_ipv4_bytes _ 0 40 rfl rfl rfl rfl, rfl⟩
  case TEST_FRAG_IPV4_TCP =>
    dsimp only [run_test]
    cases e
    all_goals exact agree_two _ 28 32 ⟨_, _, rfl, ip_length_of_ipv4_bytes _ 0 28 rfl rfl rfl rfl, rfl,
      ip_length_of_ipv4_bytes _ 0 32 rfl rfl rfl rfl, rfl⟩
  case TEST_FRAG_IPV4_ICMP =>
    dsimp only [run_test]
    cases e
    all_goals exact agree_two _ 28 60 ⟨_, _, rfl, ip_length_of_ipv4_bytes _ 0 28 rfl rfl rfl rfl, rfl,
      ip_length_of_ipv4_bytes _ 0 60 rfl rfl rfl rfl, rfl⟩
  case TEST_FRAG_OPTIONED_IPV4_TCP =>
    dsimp only [run_test]
    cases e
    all_goals exact agree_two _ 68 32 ⟨_, _, rfl, ip_length_of_ipv4_bytes _ 0 68 rfl rfl rfl rfl, rfl,
      ip_length_of_ipv4_bytes _ 0 32 rfl rfl rfl rfl, rfl⟩
  case TEST_IPV6_TCP =>
    obtain ⟨⟨s, rfl⟩, ⟨d, rfl⟩⟩ := h6 (by decide)
    dsimp only [run_test]
    cases e
    all_goals exact agree_one _ 60 ⟨_, rfl, ip_length_of_ipv6_bytes _ 0 20 rfl rfl rfl rfl, rfl⟩
  case TEST_FRAG_IPV6_TCP =>
    obtain ⟨⟨s, rfl⟩, ⟨d, rfl⟩⟩ := h6 (by decide)
    dsimp only [run_test]
    cases e
    all_goals exact agree_two _ 56 60 ⟨_, _, rfl, ip_length_of_ipv6_bytes _ 0 16 rfl rfl rfl rfl, rfl,
      ip_length_of_ipv6_bytes _ 0 20 rfl rfl rfl rfl, rfl⟩
  case TEST_FRAG_OPTIONED_IPV6_TCP =>
    obtain ⟨⟨s, rfl⟩, ⟨d, rfl⟩⟩ := h6 (by decide)
    dsimp only [run_test]
    cases e
    all_goals exact agree_two _ 72 60 ⟨_, _, rfl, ip_length_of_ipv6_bytes _ 0 32 rfl rfl rfl rfl, rfl,
      ip_length_of_ipv6_bytes _ 0 20 rfl rfl rfl rfl, rfl⟩
  case TEST_FRAG_OPTIONED_IPV6_ICMP6 =>
    obtain ⟨⟨s, rfl⟩, ⟨d, rfl⟩⟩ := h6 (by decide)
    dsimp only [run_test]
    cases e
    all_goals exact agree_two _ 72 88 ⟨_, _, rfl, ip_length_of_ipv6_bytes _ 0 32 rfl rfl rfl rfl, rfl,
      ip_length_of_ipv6_bytes _ 0 48 rfl rfl rfl rfl, rfl⟩

/-- Witness of C32: the IPv6 optioned ICMPv6 recipe on the example run. -/
theorem frame_length_agreement_witness :
    TEST_TYPE.TEST_FRAG_OPTIONED_IPV6_ICMP6 ≠ .TEST_INVALID
      ∧ TEST_TYPE.TEST_FRAG_OPTIONED_IPV6_ICMP6 ≠ .TEST_FRAG_OPTIONED_IPV4_ICMP
      ∧ TEST_TYPE.TEST_FRAG_OPTIONED_IPV6_ICMP6 ≠ .TEST_FRAG_IPV6_ICMP6
      ∧ example_run.parses .TEST_FRAG_OPTIONED_IPV6_ICMP6
      ∧ ∃ frames, run_test .TEST_FRAG_OPTIONED_IPV6_ICMP6 example_run = .ok frames
          ∧ ∀ x ∈ frames, ∃ n, wire_ip_length x = some n ∧ x.len = SIZEOF_ETHER + n :=
  ⟨by decide, by decide, by decide, ⟨rfl, fun _ => ⟨rfl, rfl⟩⟩,
    frame_length_agreement .TEST_FRAG_OPTIONED_IPV6_ICMP6 example_run (by decide) (by decide)
      (by decide) ⟨rfl, fun _ => ⟨rfl, rfl⟩⟩⟩

/-! ### C33 — Bounds of reply parsing -/

/-- C33 (refuted on the code): two memories that hold the same captured frame
of 22 bytes and differ only at byte 23, past its end, get different answers
from `check_received_packet` under the IPv4 ICMP test: success where byte 23
is 1, the error of an unknown IP protocol where it is 0.  With an IPv4 header
length field of 0 the check `s > len` compares 14 with 22 and passes, and the
protocol field is then read at byte 23. -/
theorem reply_parsing_reads_past_end :
    bytes_at runt_reply 0 22 = bytes_at runt_reply_zero 0 22
      ∧ check_received_packet .little 22 runt_reply .TEST_FRAG_IPV4_ICMP = .ok 1
      ∧ check_received_packet .little 22 runt_reply_zero .TEST_FRAG_IPV4_ICMP
          = .error "Unknown reply received (ip protocol)"
      ∧ check_received_packet .big 22 runt_reply .TEST_FRAG_IPV4_ICMP = .ok 1
      ∧ check_received_packet .big 22 runt_reply_zero .TEST_FRAG_IPV4_ICMP
          = .error "Unknown reply received (ip protocol)" := by
  refine ⟨by decide, rfl, rfl, rfl, rfl⟩

/-! ### C34 — TCP acceptance -/

/-- C34 (counterexample): a UDP reply of 54 bytes under the IPv4 TCP test.  Its
layer 4 protocol is not TCP, and `check_received_packet` does not return
failure: `print_a_packet` ends the process with `errx`. -/
theorem udp_reply_not_failure :
    IS_TEST_TCP TEST_TYPE.TEST_IPV4_TCP.val = true
      ∧ load8 udp_reply (SIZEOF_ETHER + 9) = 17
      ∧ check_received_packet .little 54 udp_reply .TEST_IPV4_TCP
          = .error "Unknown reply received (ip protocol)"
      ∧ check_received_packet .little 54 udp_reply .TEST_IPV4_TCP ≠ .ok 0 :=
  ⟨rfl, rfl, rfl, by simp [show check_received_packet .little 54 udp_reply .TEST_IPV4_TCP
          = .error "Unknown reply received (ip protocol)" from rfl]⟩

/-- C34 (amended): for every TCP test of either family and every captured frame,
whatever the family of the test: when the frame holds a TCP header over IPv4
(protocol 6, 20 bytes behind the IP header within the frame) or over IPv6
(next header 6, at least 74 bytes), `check_received_packet` returns success if
and only if at least one of SYN and ACK is set and RST is clear, and failure
otherwise; when the frame holds an ICMP header over IPv4 or an ICMPv6 header
over IPv6 it returns failure; when the layer 4 protocol is none of these, or
`print_a_packet` fails in any other way, it does not return and the error of
`print_a_packet` ends the process. -/
theorem tcp_acceptance_exact (e : Endian) (len : Nat) (pkt : Buf) (t : TEST_TYPE)
    (ht : IS_TEST_TCP t.val = true) :
    (∀ tcph,
        ((ntohs e (load16 e pkt 12) = ETHERTYPE_IP ∧ load8 pkt 23 = IPPROTO_TCP
            ∧ tcph = 14 + ip_hl pkt 14 * 4 ∧ tcph + 20 ≤ len)
          ∨ (ntohs e (load16 e pkt 12) = ETHERTYPE_IPV6 ∧ load8 pkt 20 = IPPROTO_TCP
            ∧ tcph = 54 ∧ 74 ≤ len)) →
        (check_received_packet e len pkt t = .ok 1
          ↔ ((load8 pkt (tcph + 13) &&& TH_SYN ≠ 0 ∨ load8 pkt (tcph + 13) &&& TH_ACK ≠ 0)
              ∧ load8 pkt (tcph + 13) &&& TH_RST = 0))
        ∧ (check_received_packet e len pkt t = .ok 0
          ↔ ¬ ((load8 pkt (tcph + 13) &&& TH_SYN ≠ 0 ∨ load8 pkt (tcph + 13) &&& TH_ACK ≠ 0)
              ∧ load8 pkt (tcph + 13) &&& TH_RST = 0)))
    ∧ (((ntohs e (load16 e pkt 12) = ETHERTYPE_IP ∧ load8 pkt 23 = IPPROTO_ICMP
            ∧ 14 + ip_hl pkt 14 * 4 + 8 ≤ len)
          ∨ (ntohs e (load16 e pkt 12) = ETHERTYPE_IPV6 ∧ load8 pkt 20 = IPPROTO_ICMPV6
            ∧ 62 ≤ len)) →
        check_received_packet e len pkt t = .ok 0)
    ∧ (ntohs e (load16 e pkt 12) = ETHERTYPE_IP → 14 + ip_hl pkt 14 * 4 ≤ len →
        load8 pkt 23 ≠ IPPROTO_TCP → load8 pkt 23 ≠ IPPROTO_ICMP →
        check_received_packet e len pkt t = .error "Unknown reply received (ip protocol)")
    ∧ (ntohs e (load16 e pkt 12) = ETHERTYPE_IPV6 → 54 ≤ len →
        load8 pkt 20 ≠ IPPROTO_TCP → load8 pkt 20 ≠ IPPROTO_ICMPV6 →
        check_received_packet e len pkt t = .error "Unknown reply received (ip6 next header)")
    ∧ (∀ m, print_a_packet e len pkt IPPROTO_TCP = .error m →
        check_received_packet e len pkt t = .error m) := by
  have hf := fun tcph => flags_syn_or_ack (load8 pkt (tcph + 13)) (load8_lt _ _)
  obtain ⟨hsome, hnone⟩ := print_a_packet_tcp e len pkt
  have hc : check_received_packet e len pkt t
      = (match print_a_packet e len pkt IPPROTO_TCP with
        | .error m => .error m
        | .ok none => .ok 0
        | .ok (some tcph) =>
          if (load8 pkt (tcph + 13) &&& (TH_SYN ||| TH_ACK)) ≠ 0
              ∧ ¬ ((load8 pkt (tcph + 13) &&& TH_RST) ≠ 0) then .ok 1 else .ok 0) := by
    cases t <;> simp [IS_TEST_TCP, TEST_TYPE.val] at ht <;>
      simp only [check_received_packet, IS_TEST_IPV4, IS_TEST_IPV6, IS_TEST_ICMP, TEST_TYPE.val,
        bind, Except.bind, pure, Except.pure] <;>
      rcases print_a_packet e len pkt IPPROTO_TCP with m | o <;> try rfl
    all_goals cases o <;> rfl
  refine ⟨?_, ?_, ?_, ?_, ?_⟩
  · intro tcph hfr
    rw [hc, (hsome tcph).mpr hfr]
    simp only [hf tcph]
    by_cases h1 : (load8 pkt (tcph + 13) &&& TH_SYN ≠ 0 ∨ load8 pkt (tcph + 13) &&& TH_ACK ≠ 0)
        ∧ load8 pkt (tcph + 13) &&& TH_RST = 0
    · simp [h1]
    · simp [h1]
  · intro hfr
    rw [hc, hnone.mpr hfr]
  · intro h4 hl h6 h1
    have hp : print_a_packet e len pkt IPPROTO_TCP
        = .error "Unknown reply received (ip protocol)" := by
      unfold print_a_packet
      simp only [SIZEOF_ETHER] at *
      rw [if_pos h4, if_neg (by omega), if_neg h6, if_neg h1]
    rw [hc, hp]
  · intro h6 hl h1 h2
    have h4 : ¬ ntohs e (load16 e pkt 12) = ETHERTYPE_IP := by
      rw [h6]
      decide
    have hp : print_a_packet e len pkt IPPROTO_TCP
        = .error "Unknown reply received (ip6 next header)" := by
      unfold print_a_packet
      simp only [SIZEOF_ETHER, SIZEOF_IPV6] at *
      rw [if_neg h4, if_pos h6, if_neg (by omega), if_neg h1, if_neg h2]
    rw [hc, hp]
  · intro m hm
    rw [hc, hm]

/-- Witness of C34 (amended): a SYN+ACK segment over IPv6 is accepted under the
IPv4 TCP test. -/
theorem tcp_acceptance_exact_witness :
    IS_TEST_TCP TEST_TYPE.TEST_IPV4_TCP.val = true
      ∧ check_received_packet .little 74 syn_ack_reply6 .TEST_IPV4_TCP = .ok 1 :=
  ⟨rfl, ((tcp_acceptance_exact .little 74 syn_ack_reply6 .TEST_IPV4_TCP rfl).1 54
    (Or.inr ⟨rfl, rfl, rfl, by decide⟩)).1.mpr ⟨Or.inl (by decide), by decide⟩⟩

/-! ### C35 — Builder preconditions in the recipes -/

/-- C35: the option length the IPv6 optioned recipes pass is
`fix_up_destination_options_length (68 - 40 - 2 - 8 - 8)` = 14, which fails
neither part of the check `optlen == 0 || optlen % 8 != 6` of
`build_ipv6_optioned_frag1`, and the 40 the IPv4 optioned recipes pass does not
fail the check `optlen % 4 != 0` of `build_ipv4_optioned_frag1`; with these
lengths both builders return a buffer for every other argument, and each of the
four optioned recipes injects its two frames. -/
theorem builder_preconditions (e : Endian) (mem : Buf) (lm m s4 d4 s6 d6 : Addr)
    (dport fragid seq : Nat) :
    MINIMUM_PACKET_SIZE - SIZEOF_IPV6 - SIZEOF_IP6_DEST - SIZEOF_IP6_FRAG
        - MINIMUM_FRAGMENT_SIZE = 10
      ∧ ipv6_recipe_optlen = fix_up_destination_options_length 10
      ∧ ipv6_recipe_optlen = 14
      ∧ ¬ (ipv6_recipe_optlen = 0 ∨ ipv6_recipe_optlen % 8 ≠ 6)
      ∧ ¬ (40 % 4 ≠ 0)
      ∧ (∀ (b : Buf) (ip6h p f : Nat),
          ∃ b2, build_ipv6_optioned_frag1 e b ip6h (some s6) (some d6) p f ipv6_recipe_optlen
            = .ok b2)
      ∧ (∀ (b : Buf) (iph p f : Nat),
          ∃ b2, build_ipv4_optioned_frag1 e b iph s4 d4 p f 40 = .ok b2)
      ∧ (∃ i1 i2, do_ipv4_optioned_tcp_frag e mem lm (some m) s4 d4 dport fragid seq
          = .ok [i1, i2])
      ∧ (∃ i1 i2, do_ipv4_optioned_icmp_frag e mem lm (some m) s4 d4 fragid = .ok [i1, i2])
      ∧ (∃ i1 i2, do_ipv6_optioned_tcp_frag e mem lm (some m) (some s6) (some d6) dport fragid
          seq = .ok [i1, i2])
      ∧ (∃ i1 i2, do_ipv6_optioned_icmp_frag e mem lm (some m) (some s6) (some d6) fragid
          = .ok [i1, i2]) := by
  refine ⟨by decide, rfl, by decide, by decide, by decide, ?_, ?_, ?_, ?_, ?_, ?_⟩
  · intro b ip6h p f
    rw [ipv6_recipe_optlen_eq]
    exact ⟨_, build_ipv6_optioned_frag1_ok e b ip6h s6 d6 p f 14 (by decide)⟩
  · intro b iph p f
    obtain ⟨b2, c, hok, -⟩ := build_ipv4_optioned_frag1_ok e b iph s4 d4 p f 40 (by decide)
    exact ⟨b2, hok⟩
  all_goals cases e
  all_goals exact ⟨_, _, rfl⟩

end Synfrag
